import Mathlib

/-!
# RmlUi flexbox layout (`Source/Core/LayoutFlex.cpp`)

A shallow embedding of `LayoutFlex::Format` and its helpers, followed by the
properties established about it.

Conventions of the embedding

* The code is embedded twice.  In the first embedding `float` values are exact
  rationals (`ℚ`) and no operation rounds; `FLT_MAX` is the concrete largest
  finite single-precision value.  The second embedding, in the namespace
  `Binary32`, repeats the steps that do arithmetic with every sum, difference,
  product and quotient rounded to IEEE 754 binary32 (to the nearest value, a tie
  to the even significand), in the order in which the source evaluates them.
* A statement about the exact embedding that only compares, assigns or repeats
  an expression of the source is met by the rounded run as well, each operation
  being read as the rounded one.  A sum or an identity that needs exact
  arithmetic is stated for the `Binary32` embedding, under the condition that
  the `float` results it rests on are exact (they equal the rational results),
  and is shown to fail on a concrete input where they are not.
* A quotient whose divisor is zero, an infinity or NaN in the source, has the
  value 0 in both embeddings.  A theorem that depends on the value of a
  quotient assumes or proves its divisor non-zero; the termination of the
  resolution and the size of inflexible items hold whatever a quotient is.  The
  divisor of the shrinking branch of the resolution can be zero; this is shown
  on the divisor itself, and the clamp law, the direction of the resolution and
  the sign of the offsets are stated for lines or items whose share is never
  the quotient 0 / 0.
* C++ loops over `Vector<T>` become `List.map`, `List.foldl` (for
  `std::accumulate`) or a structural recursion carrying the loop variables.
* The `while` loop of the flexible-length resolution carries an explicit
  iteration budget and answers `none` when the budget is exhausted.
* The host collaborators (`LayoutDetails::BuildBox`,
  `LayoutEngine::FormatElement`, `LayoutDetails::GetShrinkToFitWidth`,
  `Math::SnapToPixelGrid`) are fields of a `Host` record; every call made to
  them, every `SetOffset` and every logged warning is recorded in a trace.
-/

namespace Rml

/-! ## Basic types -/

/-- Two-component vector of layout units (`Vector2f`). -/
structure Vector2f where
  x : ℚ
  y : ℚ
deriving DecidableEq

/-- Largest finite single-precision value, `FLT_MAX` of `<cfloat>`. -/
def FLT_MAX : ℚ := 340282346638528859811704183484516925440

namespace Math

/-- Modelled from the spec: `Math::Max` lives in `Math.h`, which is not among the
sources; the spec uses it as the larger of two values ("floored at 0"). -/
def Max (a b : ℚ) : ℚ := if a > b then a else b

/-- Modelled from the spec: `Math::Clamp` lives in `Math.h`, which is not among
the sources; the spec's `clamp(value, min, max)`.  The lower bound is tested
first, as in the library template. -/
def Clamp (value min max : ℚ) : ℚ :=
  if value < min then min else if value > max then max else value

/-- Modelled from the spec: `Math::AbsoluteValue` lives in `Math.h`, which is not
among the sources; the spec's "absolute value". -/
def AbsoluteValue (value : ℚ) : ℚ := if value < 0 then -value else value

end Math

namespace Style

inductive Overflow
  | Visible | Hidden | Auto | Scroll
deriving DecidableEq

inductive FlexDirection
  | Row | RowReverse | Column | ColumnReverse
deriving DecidableEq

inductive FlexWrap
  | Nowrap | Wrap | WrapReverse
deriving DecidableEq

inductive JustifyContent
  | FlexStart | FlexEnd | Center | SpaceBetween | SpaceAround
deriving DecidableEq

inductive AlignContent
  | FlexStart | FlexEnd | Center | SpaceBetween | SpaceAround | Stretch
deriving DecidableEq

inductive AlignItems
  | FlexStart | FlexEnd | Center | Baseline | Stretch
deriving DecidableEq

inductive AlignSelf
  | Auto | FlexStart | FlexEnd | Center | Baseline | Stretch
deriving DecidableEq

inductive Display
  | None | Block | Inline | InlineBlock | Flex
deriving DecidableEq

inductive Position
  | Static | Relative | Absolute | Fixed
deriving DecidableEq

inductive BoxSizing
  | ContentBox | BorderBox
deriving DecidableEq

/-- The tag of a length that may be `auto` (`LengthPercentageAuto::Type`). -/
inductive LengthType
  | Auto | Length | Percentage
deriving DecidableEq

/-- A computed length, percentage or `auto` (`Style::LengthPercentageAuto`, also
used for `Style::Margin` and `Style::FlexBasis`). -/
structure LengthPercentageAuto where
  type : LengthType
  value : ℚ
deriving DecidableEq

/-- The tag of a length that cannot be `auto` (`LengthPercentage::Type`). -/
inductive LengthPercentageType
  | Length | Percentage
deriving DecidableEq

/-- A computed length or percentage (`Style::LengthPercentage`, also used for
`Style::Padding`). -/
structure LengthPercentage where
  type : LengthPercentageType
  value : ℚ
deriving DecidableEq

end Style

/-- Modelled from the spec: `ResolveValue` for a length that may be `auto` is
declared outside the sources at hand; a length resolves to its value, a
percentage against the base value, and `auto` to zero ("resolved numeric
margins (zero if auto)"). -/
def ResolveValueAuto (length : Style.LengthPercentageAuto) (base_value : ℚ) : ℚ :=
  match length.type with
  | Style.LengthType.Length => length.value
  | Style.LengthType.Percentage => length.value * (1 / 100) * base_value
  | Style.LengthType.Auto => 0

/-- Modelled from the spec: `ResolveValue` for a length or percentage is declared
outside the sources at hand; a length resolves to its value and a percentage
against the base value. -/
def ResolveValue (length : Style.LengthPercentage) (base_value : ℚ) : ℚ :=
  match length.type with
  | Style.LengthPercentageType.Length => length.value
  | Style.LengthPercentageType.Percentage => length.value * (1 / 100) * base_value

/-- The computed style values read by the flex formatter, for the container and
for its children alike (`ComputedValues`). -/
structure ComputedValues where
  display : Style.Display
  position : Style.Position
  overflow_x : Style.Overflow
  overflow_y : Style.Overflow
  flex_direction : Style.FlexDirection
  flex_wrap : Style.FlexWrap
  justify_content : Style.JustifyContent
  align_items : Style.AlignItems
  align_content : Style.AlignContent
  row_gap : Style.LengthPercentage
  column_gap : Style.LengthPercentage
  flex_shrink : ℚ
  flex_grow : ℚ
  flex_basis : Style.LengthPercentageAuto
  align_self : Style.AlignSelf
  box_sizing : Style.BoxSizing
  width : Style.LengthPercentageAuto
  min_width : Style.LengthPercentage
  max_width : Style.LengthPercentage
  height : Style.LengthPercentageAuto
  min_height : Style.LengthPercentage
  max_height : Style.LengthPercentage
  padding_top : Style.LengthPercentage
  padding_right : Style.LengthPercentage
  padding_bottom : Style.LengthPercentage
  padding_left : Style.LengthPercentage
  margin_top : Style.LengthPercentageAuto
  margin_right : Style.LengthPercentageAuto
  margin_bottom : Style.LengthPercentageAuto
  margin_left : Style.LengthPercentageAuto
  border_top_width : ℚ
  border_right_width : ℚ
  border_bottom_width : ℚ
  border_left_width : ℚ
deriving DecidableEq

/-- A child element of the flex container: an identity and its computed style.
The subtree below a child belongs to the host. -/
structure Element where
  id : Nat
  computed : ComputedValues
deriving DecidableEq

/-- The flex container element: its computed style and its direct children in
source order (`GetNumChildren` / `GetChild`). -/
structure FlexElement where
  computed : ComputedValues
  children : List Element
deriving DecidableEq

/-- The part of a `Box` the formatter reads and writes: the position of the
content area and the content size. -/
structure Box where
  position : Vector2f
  size : Vector2f
deriving DecidableEq

/-- Accessor `Box::GetSize()`. -/
def Box.GetSize (box : Box) : Vector2f := box.size

/-- Accessor `Box::GetPosition()`. -/
def Box.GetPosition (box : Box) : Vector2f := box.position

/-- Mutator `Box::SetContent`. -/
def Box.SetContent (box : Box) (content : Vector2f) : Box := { box with size := content }

/-- Modelled from the spec: the per-axis computed size descriptor
(`ComputedTrackSize` of `LayoutTableDetails.h`, aliased `ComputedFlexItemSize`),
"margin_a, margin_b, padding_a, padding_b, border_a, border_b, size, min_size,
max_size, box_sizing". -/
structure ComputedFlexItemSize where
  size : Style.LengthPercentageAuto
  min_size : Style.LengthPercentage
  max_size : Style.LengthPercentage
  padding_a : Style.LengthPercentage
  padding_b : Style.LengthPercentage
  margin_a : Style.LengthPercentageAuto
  margin_b : Style.LengthPercentageAuto
  border_a : ℚ
  border_b : ℚ
  box_sizing : Style.BoxSizing
deriving DecidableEq

/-- Modelled from the spec: `BuildComputedColumnSize` (of
`LayoutTableDetails.cpp`, not among the sources) gathers the horizontal
properties of a computed style into a per-axis descriptor. -/
def BuildComputedColumnSize (computed : ComputedValues) : ComputedFlexItemSize :=
  { size := computed.width, min_size := computed.min_width, max_size := computed.max_width,
    padding_a := computed.padding_left, padding_b := computed.padding_right,
    margin_a := computed.margin_left, margin_b := computed.margin_right,
    border_a := computed.border_left_width, border_b := computed.border_right_width,
    box_sizing := computed.box_sizing }

/-- Modelled from the spec: `BuildComputedRowSize` (of `LayoutTableDetails.cpp`,
not among the sources) gathers the vertical properties of a computed style into
a per-axis descriptor. -/
def BuildComputedRowSize (computed : ComputedValues) : ComputedFlexItemSize :=
  { size := computed.height, min_size := computed.min_height, max_size := computed.max_height,
    padding_a := computed.padding_top, padding_b := computed.padding_bottom,
    margin_a := computed.margin_top, margin_b := computed.margin_bottom,
    border_a := computed.border_top_width, border_b := computed.border_bottom_width,
    box_sizing := computed.box_sizing }

/-! ## Host collaborators and the trace of their use -/

/-- The external collaborators of the formatter.  Each is a function of its
arguments; the host is assumed not to change its answers during one call. -/
structure Host where
  /-- The intrinsic width `LayoutDetails::GetShrinkToFitWidth(element, containing_block)`. -/
  GetShrinkToFitWidth : Element → Vector2f → ℚ
  /-- The content size of the box built by
  `LayoutDetails::BuildBox(box, containing_block, element, false, override_shrink_to_fit_width)`;
  a component is negative when it is not known before formatting. -/
  BuildBox : Vector2f → Element → ℚ → Vector2f
  /-- The content size of the element box after
  `LayoutEngine::FormatElement(element, containing_block, &box)` for a box of the
  given content size. -/
  FormatElement : Element → Vector2f → Vector2f → Vector2f
  /-- The visible overflow size reported by `LayoutEngine::FormatElement` for a box
  of the given content size. -/
  FormatElementOverflow : Element → Vector2f → Vector2f → Vector2f
  /-- The scalar `Math::SnapToPixelGrid(offset, size)`: the new offset and size. -/
  SnapToPixelGrid : ℚ → ℚ → ℚ × ℚ

/-- Modelled from the spec: the two-dimensional `Math::SnapToPixelGrid(offset,
size)` of `Math.h` (not among the sources) snaps each axis on its own. -/
def Host.SnapToPixelGrid2 (host : Host) (offset size : Vector2f) : Vector2f × Vector2f :=
  let sx := host.SnapToPixelGrid offset.x size.x
  let sy := host.SnapToPixelGrid offset.y size.y
  (⟨sx.1, sy.1⟩, ⟨sx.2, sy.2⟩)

/-- Default value of the parameter `override_shrink_to_fit_width` of
`LayoutDetails::BuildBox` (declared in `LayoutDetails.h`): no override. -/
def BuildBox_default_override : ℚ := -1

/-- One observable action of the formatter on its surroundings. -/
inductive HostCall
  /-- The warning "Scrolling flexboxes not yet implemented". -/
  | LogScrollingWarning
  /-- The warning "Flexbox baseline not yet implemented". -/
  | LogBaselineWarning
  /-- The assertion failure `RMLUI_ERROR`. -/
  | Error
  | GetShrinkToFitWidth (element : Element)
  | BuildBox (element : Element)
  | FormatElement (element : Element) (content : Vector2f)
  | SetOffset (element : Element) (offset : Vector2f)
deriving DecidableEq

/-- The element a host call is made for, if it is made for one. -/
def HostCall.Subject : HostCall → Option Element
  | HostCall.LogScrollingWarning => none
  | HostCall.LogBaselineWarning => none
  | HostCall.Error => none
  | HostCall.GetShrinkToFitWidth element => some element
  | HostCall.BuildBox element => some element
  | HostCall.FormatElement element _ => some element
  | HostCall.SetOffset element _ => some element

/-- The element whose offset a host call sets, if it sets one. -/
def HostCall.OffsetSubject : HostCall → Option Element
  | HostCall.SetOffset element _ => some element
  | _ => none

/-! ## Flex items, lines and the container -/

/-- Sizing of an item along one axis (`FlexItem::Size`). -/
structure FlexItem.Size where
  auto_margin_a : Bool := false
  auto_margin_b : Bool := false
  auto_size : Bool := false
  margin_a : ℚ := 0
  margin_b : ℚ := 0
  sum_edges : ℚ := 0
  min_size : ℚ := 0
  max_size : ℚ := 0
deriving DecidableEq

/-- Sign of the last min/max clamp of an item (`FlexItem::Violation`). -/
inductive FlexItem.Violation
  | None | Min | Max
deriving DecidableEq

/-- A flex item (`struct FlexItem`); the defaults are those of `FlexItem item = {}`. -/
structure FlexItem where
  element : Element
  main : FlexItem.Size := {}
  cross : FlexItem.Size := {}
  flex_shrink_factor : ℚ := 0
  flex_grow_factor : ℚ := 0
  align_self : Style.AlignSelf := Style.AlignSelf.Auto
  inner_flex_base_size : ℚ := 0
  flex_base_size : ℚ := 0
  hypothetical_main_size : ℚ := 0
  frozen : Bool := false
  violation : FlexItem.Violation := FlexItem.Violation.None
  target_main_size : ℚ := 0
  used_main_size : ℚ := 0
  main_auto_margin_size_a : ℚ := 0
  main_auto_margin_size_b : ℚ := 0
  main_offset : ℚ := 0
  hypothetical_cross_size : ℚ := 0
  used_cross_size : ℚ := 0
  cross_offset : ℚ := 0
deriving DecidableEq

/-- A flex line (`struct FlexLine`); the defaults are those of `FlexLine{ items }`. -/
structure FlexLine where
  items : List FlexItem
  accumulated_hypothetical_main_size : ℚ := 0
  cross_size : ℚ := 0
  cross_spacing_a : ℚ := 0
  cross_spacing_b : ℚ := 0
  cross_offset : ℚ := 0
deriving DecidableEq

/-- The lines of a container (`struct FlexContainer`). -/
structure FlexContainer where
  lines : List FlexLine
deriving DecidableEq

/-- Left fold from an initial value, as `std::accumulate` does. -/
def accumulate {α : Type} (xs : List α) (init : ℚ) (op : ℚ → α → ℚ) : ℚ :=
  xs.foldl op init

/-- The key of the element selected by `std::max_element` with the comparison
`a.key < b.key`: the running largest is replaced only by a strictly larger
element.  The source dereferences the result, so the range is never empty
there; an empty range is given the value 0 here. -/
def max_element_value {α : Type} (xs : List α) (key : α → ℚ) : ℚ :=
  match xs with
  | [] => 0
  | first :: rest => rest.foldl (fun largest x => if largest < key x then key x else largest) (key first)

/-! ## Edge sizes (`GetEdgeSizes`, `GetItemSizing`) -/

/-- The four outputs of `GetEdgeSizes`:
`(margin_a, margin_b, padding_border_a, padding_border_b)`. -/
def GetEdgeSizes (computed_size : ComputedFlexItemSize) (base_value : ℚ) : ℚ × ℚ × ℚ × ℚ :=
  let margin_a := ResolveValueAuto computed_size.margin_a base_value
  let margin_b := ResolveValueAuto computed_size.margin_b base_value
  let padding_border_a :=
    Math.Max 0 (ResolveValue computed_size.padding_a base_value) + Math.Max 0 computed_size.border_a
  let padding_border_b :=
    Math.Max 0 (ResolveValue computed_size.padding_b base_value) + Math.Max 0 computed_size.border_b
  (margin_a, margin_b, padding_border_a, padding_border_b)

/-- The sizing written to `destination` by `GetItemSizing`. -/
def GetItemSizing (computed_size : ComputedFlexItemSize) (base_value : ℚ)
    (direction_reverse : Bool) : FlexItem.Size :=
  let edges := GetEdgeSizes computed_size base_value
  let margin_a := edges.1
  let margin_b := edges.2.1
  let padding_border_a := edges.2.2.1
  let padding_border_b := edges.2.2.2
  let padding_border := padding_border_a + padding_border_b
  let margin := margin_a + margin_b
  let auto_margin_a := decide (computed_size.margin_a.type = Style.LengthType.Auto)
  let auto_margin_b := decide (computed_size.margin_b.type = Style.LengthType.Auto)
  let auto_size := decide (computed_size.size.type = Style.LengthType.Auto)
  let sum_edges := padding_border + margin
  let min_size := ResolveValue computed_size.min_size base_value
  let max_size :=
    if computed_size.max_size.value < 0 then FLT_MAX else ResolveValue computed_size.max_size base_value
  let min_size :=
    if computed_size.box_sizing = Style.BoxSizing.BorderBox then Math.Max 0 (min_size - padding_border)
    else min_size
  let max_size :=
    if computed_size.box_sizing = Style.BoxSizing.BorderBox then
      (if max_size < FLT_MAX then Math.Max 0 (max_size - padding_border) else max_size)
    else max_size
  if direction_reverse then
    { auto_margin_a := auto_margin_b, auto_margin_b := auto_margin_a, auto_size := auto_size,
      margin_a := margin_b, margin_b := margin_a, sum_edges := sum_edges,
      min_size := min_size, max_size := max_size }
  else
    { auto_margin_a := auto_margin_a, auto_margin_b := auto_margin_b, auto_size := auto_size,
      margin_a := margin_a, margin_b := margin_b, sum_edges := sum_edges,
      min_size := min_size, max_size := max_size }

/-! ## Building the item list -/

/-- The axis flags and base values computed at the top of `LayoutFlex::Format()`. -/
structure FlexAxes where
  main_axis_horizontal : Bool
  direction_reverse : Bool
  flex_single_line : Bool
  wrap_reverse : Bool
  main_available_size : ℚ
  cross_available_size : ℚ
  main_min_size : ℚ
  main_max_size : ℚ
  cross_min_size : ℚ
  cross_max_size : ℚ
  main_wrap_size : ℚ
  main_size_base_value : ℚ
  cross_size_base_value : ℚ
deriving DecidableEq

/-- The constants at the top of `LayoutFlex::Format()` (source lines 186 to 207). -/
def GetFlexAxes (computed_flex : ComputedValues)
    (flex_available_content_size flex_min_size flex_max_size : Vector2f) : FlexAxes :=
  let direction := computed_flex.flex_direction
  let main_axis_horizontal : Bool :=
    decide (direction = Style.FlexDirection.Row ∨ direction = Style.FlexDirection.RowReverse)
  let direction_reverse : Bool :=
    decide (direction = Style.FlexDirection.RowReverse ∨ direction = Style.FlexDirection.ColumnReverse)
  let flex_single_line : Bool := decide (computed_flex.flex_wrap = Style.FlexWrap.Nowrap)
  let wrap_reverse : Bool := decide (computed_flex.flex_wrap = Style.FlexWrap.WrapReverse)
  let main_available_size :=
    if main_axis_horizontal then flex_available_content_size.x else flex_available_content_size.y
  let cross_available_size :=
    if !main_axis_horizontal then flex_available_content_size.x else flex_available_content_size.y
  let main_min_size := if main_axis_horizontal then flex_min_size.x else flex_min_size.y
  let main_max_size := if main_axis_horizontal then flex_max_size.x else flex_max_size.y
  let cross_min_size := if main_axis_horizontal then flex_min_size.y else flex_min_size.x
  let cross_max_size := if main_axis_horizontal then flex_max_size.y else flex_max_size.x
  let main_wrap_size :=
    Math.Clamp (if main_available_size < 0 then FLT_MAX else main_available_size) main_min_size main_max_size
  let main_size_base_value := if main_available_size < 0 then 0 else main_available_size
  let cross_size_base_value := if cross_available_size < 0 then 0 else cross_available_size
  { main_axis_horizontal := main_axis_horizontal, direction_reverse := direction_reverse,
    flex_single_line := flex_single_line, wrap_reverse := wrap_reverse,
    main_available_size := main_available_size, cross_available_size := cross_available_size,
    main_min_size := main_min_size, main_max_size := main_max_size,
    cross_min_size := cross_min_size, cross_max_size := cross_max_size,
    main_wrap_size := main_wrap_size, main_size_base_value := main_size_base_value,
    cross_size_base_value := cross_size_base_value }

/-- The conversion `static_cast<Style::AlignSelf>(int(align_items) + 1)`: the
two enumerations list the same values in the same order, `AlignSelf` with
`Auto` in front. -/
def AlignSelf_of_AlignItems : Style.AlignItems → Style.AlignSelf
  | Style.AlignItems.FlexStart => Style.AlignSelf.FlexStart
  | Style.AlignItems.FlexEnd => Style.AlignSelf.FlexEnd
  | Style.AlignItems.Center => Style.AlignSelf.Center
  | Style.AlignItems.Baseline => Style.AlignSelf.Baseline
  | Style.AlignItems.Stretch => Style.AlignSelf.Stretch

/-- Whether the child loop of `Format()` skips the element (source lines 218 to
226): `display: none`, or absolutely or fixed positioned. -/
def skipsChild (computed : ComputedValues) : Bool :=
  if computed.display = Style.Display.None then true
  else if computed.position = Style.Position.Absolute ∨ computed.position = Style.Position.Fixed then true
  else false

/-- The body of the child loop of `Format()` for a child that is not skipped
(source lines 228 to 297): the item pushed to `items` and the host calls made. -/
def BuildFlexItem (host : Host) (computed_flex : ComputedValues) (axes : FlexAxes)
    (flex_content_containing_block : Vector2f) (element : Element) : FlexItem × List HostCall :=
  let computed := element.computed
  let computed_main_size :=
    if axes.main_axis_horizontal then BuildComputedColumnSize computed else BuildComputedRowSize computed
  let computed_cross_size :=
    if !axes.main_axis_horizontal then BuildComputedColumnSize computed else BuildComputedRowSize computed
  let main := GetItemSizing computed_main_size axes.main_size_base_value axes.direction_reverse
  let cross := GetItemSizing computed_cross_size axes.cross_size_base_value axes.wrap_reverse
  let item_main_size := computed_main_size.size
  let align_self :=
    if computed.align_self = Style.AlignSelf.Auto then AlignSelf_of_AlignItems computed_flex.align_items
    else computed.align_self
  let sum_padding_border := main.sum_edges - (main.margin_a + main.margin_b)
  let base : ℚ × List HostCall :=
    if computed.flex_basis.type ≠ Style.LengthType.Auto then
      let inner := ResolveValueAuto computed.flex_basis axes.main_size_base_value
      (if computed.box_sizing = Style.BoxSizing.BorderBox then inner - sum_padding_border else inner, [])
    else if !main.auto_size then
      let inner := ResolveValueAuto item_main_size axes.main_size_base_value
      (if computed.box_sizing = Style.BoxSizing.BorderBox then inner - sum_padding_border else inner, [])
    else if axes.main_axis_horizontal then
      (host.GetShrinkToFitWidth element flex_content_containing_block,
        [HostCall.GetShrinkToFitWidth element])
    else
      let box_size := host.BuildBox flex_content_containing_block element BuildBox_default_override
      if box_size.y ≥ 0 then (box_size.y, [HostCall.BuildBox element])
      else
        ((host.FormatElement element flex_content_containing_block box_size).y,
          [HostCall.BuildBox element, HostCall.FormatElement element box_size])
  let inner_flex_base_size := base.1
  let hypothetical_main_size :=
    Math.Clamp inner_flex_base_size main.min_size main.max_size + main.sum_edges
  let flex_base_size := inner_flex_base_size + main.sum_edges
  ({ element := element, main := main, cross := cross,
     flex_shrink_factor := computed.flex_shrink, flex_grow_factor := computed.flex_grow,
     align_self := align_self, inner_flex_base_size := inner_flex_base_size,
     flex_base_size := flex_base_size, hypothetical_main_size := hypothetical_main_size },
   base.2)

/-- The child loop of `Format()` (source lines 212 to 298): the list `items` and
the host calls made, children taken in source order. -/
def BuildFlexItems (host : Host) (computed_flex : ComputedValues) (axes : FlexAxes)
    (flex_content_containing_block : Vector2f) : List Element → List FlexItem × List HostCall
  | [] => ([], [])
  | element :: rest =>
    let tail := BuildFlexItems host computed_flex axes flex_content_containing_block rest
    if skipsChild element.computed then tail
    else
      let built := BuildFlexItem host computed_flex axes flex_content_containing_block element
      (built.1 :: tail.1, built.2 ++ tail.2)

/-! ## Collecting the items into lines -/

/-- The wrapping loop of `Format()` (source lines 314 to 337): `lines` are the
lines pushed so far, `line_items` the line under construction and `cursor` its
accumulated size; the result is the final `container.lines`. -/
def CollectWrappedLines (main_wrap_size : ℚ) :
    List FlexLine → List FlexItem → ℚ → List FlexItem → List FlexLine
  | lines, line_items, _, [] =>
    if !line_items.isEmpty then lines ++ [{ items := line_items }] else lines
  | lines, line_items, cursor, item :: rest =>
    let cursor := cursor + item.hypothetical_main_size
    if !line_items.isEmpty ∧ cursor > main_wrap_size then
      CollectWrappedLines main_wrap_size (lines ++ [{ items := line_items }]) [item]
        item.hypothetical_main_size rest
    else
      CollectWrappedLines main_wrap_size lines (line_items ++ [item]) cursor rest

/-- The sum of the hypothetical main sizes of the items of a line (source lines
345 to 347). -/
def AccumulatedHypotheticalMainSize (items : List FlexItem) : ℚ :=
  accumulate items 0 (fun value item => value + item.hypothetical_main_size)

/-- The line collection of `Format()` (source lines 305 to 348), for a non-empty
item list: the lines with their accumulated hypothetical main sizes. -/
def CollectLines (flex_single_line : Bool) (main_wrap_size : ℚ) (items : List FlexItem) : FlexContainer :=
  let lines : List FlexLine :=
    if flex_single_line then [{ items := items }]
    else CollectWrappedLines main_wrap_size [] [] 0 items
  { lines := lines.map (fun line =>
      { line with accumulated_hypothetical_main_size := AccumulatedHypotheticalMainSize line.items }) }

/-- The used main size of the container (source lines 350 to 355). -/
def GetUsedMainSize (main_available_size : ℚ) (container : FlexContainer) : ℚ :=
  if main_available_size ≥ 0 then main_available_size
  else max_element_value container.lines (fun line => line.accumulated_hypothetical_main_size)

/-! ## Resolving the flexible lengths of a line -/

/-- The lambda `FlexFactor` (source lines 365 to 367). -/
def FlexFactor (flex_mode_grow : Bool) (item : FlexItem) : ℚ :=
  if flex_mode_grow then item.flex_grow_factor else item.flex_shrink_factor

/-- Body of the loop "initialize items and freeze inflexible items" (source
lines 370 to 381). -/
def InitializeItem (flex_mode_grow : Bool) (item : FlexItem) : FlexItem :=
  let item := { item with target_main_size := item.flex_base_size }
  if FlexFactor flex_mode_grow item = 0
      ∨ (flex_mode_grow = true ∧ item.flex_base_size > item.hypothetical_main_size)
      ∨ (flex_mode_grow = false ∧ item.flex_base_size < item.hypothetical_main_size) then
    { item with frozen := true, target_main_size := item.hypothetical_main_size }
  else item

/-- The lambda `RemainingFreeSpace` (source lines 383 to 387). -/
def RemainingFreeSpace (used_main_size : ℚ) (items : List FlexItem) : ℚ :=
  used_main_size - accumulate items 0 (fun value item =>
    value + (if item.frozen then item.target_main_size else item.flex_base_size))

/-- The loop condition `std::all_of(..., item.frozen)` (source line 392). -/
def AllFrozen (items : List FlexItem) : Bool := items.all (fun item => item.frozen)

/-- The sum `flex_factor_sum` (source lines 396 to 398). -/
def FlexFactorSum (flex_mode_grow : Bool) (items : List FlexItem) : ℚ :=
  accumulate items 0 (fun value item =>
    value + (if item.frozen then 0 else FlexFactor flex_mode_grow item))

/-- The free space to distribute in one iteration, after the correction for a
flex factor sum below one (source lines 394 to 405). -/
def ScaledRemainingFreeSpace (used_main_size : ℚ) (flex_mode_grow : Bool) (initial_free_space : ℚ)
    (items : List FlexItem) : ℚ :=
  let remaining_free_space := RemainingFreeSpace used_main_size items
  let flex_factor_sum := FlexFactorSum flex_mode_grow items
  if flex_factor_sum < 1 then
    let scaled_initial_free_space := initial_free_space * flex_factor_sum
    if Math.AbsoluteValue scaled_initial_free_space < Math.AbsoluteValue remaining_free_space then
      scaled_initial_free_space
    else remaining_free_space
  else remaining_free_space

/-- The sum `scaled_flex_shrink_factor_sum` (source lines 423 to 425). -/
def ScaledFlexShrinkFactorSum (items : List FlexItem) : ℚ :=
  accumulate items 0 (fun value item =>
    value + (if item.frozen then 0 else item.flex_shrink_factor * item.inner_flex_base_size))

/-- Body of the loop distributing the free space of a growing line (source lines
414 to 418). -/
def GrowItem (flex_factor_sum remaining_free_space : ℚ) (item : FlexItem) : FlexItem :=
  if !item.frozen then
    let distribute_ratio := item.flex_grow_factor / flex_factor_sum
    { item with target_main_size := item.flex_base_size + distribute_ratio * remaining_free_space }
  else item

/-- Body of the loop distributing the free space of a shrinking line (source
lines 429 to 434). -/
def ShrinkItem (scaled_flex_shrink_factor_sum remaining_free_space : ℚ) (item : FlexItem) : FlexItem :=
  if !item.frozen then
    let scaled_flex_shrink_factor := item.flex_shrink_factor * item.inner_flex_base_size
    let distribute_ratio := scaled_flex_shrink_factor / scaled_flex_shrink_factor_sum
    { item with target_main_size :=
        item.flex_base_size - distribute_ratio * Math.AbsoluteValue remaining_free_space }
  else item

/-- The distribution of the free space over the unfrozen items (source lines
407 to 437). -/
def DistributeFreeSpace (flex_mode_grow : Bool) (flex_factor_sum remaining_free_space : ℚ)
    (items : List FlexItem) : List FlexItem :=
  if remaining_free_space ≠ 0 then
    if flex_mode_grow then items.map (GrowItem flex_factor_sum remaining_free_space)
    else items.map (ShrinkItem (ScaledFlexShrinkFactorSum items) remaining_free_space)
  else items

/-- The value `clamped_target_main_size` of an item (source lines 446 and 447). -/
def ClampedTargetMainSize (item : FlexItem) : ℚ :=
  let inner_target_main_size := Math.Max 0 (item.target_main_size - item.main.sum_edges)
  Math.Clamp inner_target_main_size item.main.min_size item.main.max_size + item.main.sum_edges

/-- The value `violation_diff` of an item (source line 449). -/
def ViolationDiff (item : FlexItem) : ℚ := ClampedTargetMainSize item - item.target_main_size

/-- Body of the loop "clamp min/max violations" on one item (source lines 444 to
454), apart from the running total. -/
def ClampItem (item : FlexItem) : FlexItem :=
  if !item.frozen then
    let violation_diff := ViolationDiff item
    { item with
      violation :=
        if violation_diff > 0 then FlexItem.Violation.Min
        else if violation_diff < 0 then FlexItem.Violation.Max
        else FlexItem.Violation.None,
      target_main_size := ClampedTargetMainSize item }
  else item

/-- The running total `total_minmax_violation` at the end of the clamp loop
(source lines 440 to 455). -/
def TotalMinMaxViolation (items : List FlexItem) : ℚ :=
  accumulate items 0 (fun total item => if !item.frozen then total + ViolationDiff item else total)

/-- Body of the freezing loop (source lines 457 to 465). -/
def FreezeItem (total_minmax_violation : ℚ) (item : FlexItem) : FlexItem :=
  if total_minmax_violation > 0 then
    { item with frozen := item.frozen || decide (item.violation = FlexItem.Violation.Min) }
  else if total_minmax_violation < 0 then
    { item with frozen := item.frozen || decide (item.violation = FlexItem.Violation.Max) }
  else
    { item with frozen := true }

/-- One pass through the body of the `while` loop (source lines 393 to 466). -/
def ResolveIteration (used_main_size : ℚ) (flex_mode_grow : Bool) (initial_free_space : ℚ)
    (items : List FlexItem) : List FlexItem :=
  let flex_factor_sum := FlexFactorSum flex_mode_grow items
  let remaining_free_space :=
    ScaledRemainingFreeSpace used_main_size flex_mode_grow initial_free_space items
  let items := DistributeFreeSpace flex_mode_grow flex_factor_sum remaining_free_space items
  let total_minmax_violation := TotalMinMaxViolation items
  let items := items.map ClampItem
  items.map (FreezeItem total_minmax_violation)

/-- The `while` loop (source lines 392 to 466) run with a budget of iterations:
the items on exit and the number of iterations executed, or `none` when the
budget does not suffice. -/
def ResolveLoop (used_main_size : ℚ) (flex_mode_grow : Bool) (initial_free_space : ℚ) :
    Nat → List FlexItem → Option (List FlexItem × Nat)
  | fuel, items =>
    if AllFrozen items then some (items, 0)
    else
      match fuel with
      | 0 => none
      | fuel + 1 =>
        match ResolveLoop used_main_size flex_mode_grow initial_free_space fuel
            (ResolveIteration used_main_size flex_mode_grow initial_free_space items) with
        | some (result, iterations) => some (result, iterations + 1)
        | none => none

/-- Whether the line is resolved by growing (source lines 361 to 363). -/
def FlexModeGrow (used_main_size : ℚ) (line : FlexLine) : Bool :=
  decide (used_main_size - line.accumulated_hypothetical_main_size > 0)

/-- The items of a line after initialisation and freezing of the inflexible
items (source lines 369 to 381). -/
def InitializeItems (used_main_size : ℚ) (line : FlexLine) : List FlexItem :=
  line.items.map (InitializeItem (FlexModeGrow used_main_size line))

/-- The loop setting `used_main_size` from `target_main_size` (source lines 468
to 470). -/
def SetUsedMainSizes (items : List FlexItem) : List FlexItem :=
  items.map (fun item => { item with used_main_size := item.target_main_size })

/-- Resolution of the flexible lengths of one line (source lines 361 to 470)
with a budget of loop iterations: the line with every `used_main_size` set, and
the number of iterations of the `while` loop. -/
def ResolveFlexibleLengthsWith (fuel : Nat) (used_main_size : ℚ) (line : FlexLine) :
    Option (FlexLine × Nat) :=
  let flex_mode_grow := FlexModeGrow used_main_size line
  let items := InitializeItems used_main_size line
  let initial_free_space := RemainingFreeSpace used_main_size items
  match ResolveLoop used_main_size flex_mode_grow initial_free_space fuel items with
  | some (items, iterations) => some ({ line with items := SetUsedMainSizes items }, iterations)
  | none => none

/-- Resolution of the flexible lengths of one line as `Format()` uses it: the
budget is the number of items of the line, which the loop never exceeds; a line
left unresolved by the budget would be returned unchanged. -/
def ResolveFlexibleLengths (used_main_size : ℚ) (line : FlexLine) : FlexLine :=
  match ResolveFlexibleLengthsWith line.items.length used_main_size line with
  | some (line, _) => line
  | none => line

/-- An item without its target main size: what the distribution of free space
leaves untouched. -/
def FlexItem.EraseTarget (item : FlexItem) : FlexItem := { item with target_main_size := 0 }

/-- An item without the fields written by the resolution of flexible lengths
(`frozen`, `violation`, `target_main_size`, `used_main_size`): what that
resolution leaves untouched. -/
def FlexItem.EraseResolution (item : FlexItem) : FlexItem :=
  { item with
    frozen := false, violation := FlexItem.Violation.None, target_main_size := 0, used_main_size := 0 }

/-- The relations the build step leaves between the fields of a flex item: it is
not frozen, its flex base size is the inner flex base size plus the edges, and
its hypothetical main size is the clamped inner flex base size plus the edges
(source lines 228 and 291 to 295). -/
def FlexItem.Built (item : FlexItem) : Prop :=
  item.frozen = false
    ∧ item.flex_base_size = item.inner_flex_base_size + item.main.sum_edges
    ∧ item.hypothetical_main_size
        = Math.Clamp item.inner_flex_base_size item.main.min_size item.main.max_size + item.main.sum_edges

/-- The constraints on the style of an item under which a growing line is shown
not to exceed its container: a non-negative grow factor and
`0 ≤ main.min_size ≤ main.max_size`. -/
def FlexItem.GrowConstraints (item : FlexItem) : Prop :=
  0 ≤ item.flex_grow_factor ∧ 0 ≤ item.main.min_size ∧ item.main.min_size ≤ item.main.max_size

/-- The size a line counts for an item while its lengths are resolved, with the
hypothetical main size standing for an item not yet frozen. -/
def FrozenOrHypotheticalSize (item : FlexItem) : ℚ :=
  if item.frozen then item.target_main_size else item.hypothetical_main_size

instance (item : FlexItem) : Decidable item.Built :=
  inferInstanceAs (Decidable (_ ∧ _ ∧ _))

instance (item : FlexItem) : Decidable item.GrowConstraints :=
  inferInstanceAs (Decidable (_ ∧ _ ∧ _))

/-- A line as the line collection leaves it: its items are as built and its
accumulated size is the sum of their hypothetical main sizes (source lines 343
to 348). -/
def FlexLine.Collected (line : FlexLine) : Prop :=
  (∀ item ∈ line.items, item.Built)
    ∧ line.accumulated_hypothetical_main_size = AccumulatedHypotheticalMainSize line.items

instance (line : FlexLine) : Decidable line.Collected :=
  inferInstanceAs (Decidable ((∀ item ∈ line.items, item.Built) ∧ _))

/-! ## Main-axis alignment -/

/-- Apply `f` to the last element (`items.back()`), if any. -/
def modifyBack {α : Type} (f : α → α) : List α → List α
  | [] => []
  | [a] => [f a]
  | a :: b :: rest => a :: modifyBack f (b :: rest)

/-- Apply `f` to the first element (`items.front()`), if any. -/
def modifyFront {α : Type} (f : α → α) : List α → List α
  | [] => []
  | a :: rest => f a :: rest

/-- A counted loop `for (int i = start; ...; i++)` updating each element from
its index. -/
def mapWithIndex {α : Type} (f : Nat → α → α) : Nat → List α → List α
  | _, [] => []
  | i, a :: rest => f i a :: mapWithIndex f (i + 1) rest

/-- The count `num_auto_margins` of a line (source lines 486 to 488). -/
def NumAutoMargins (items : List FlexItem) : Nat :=
  items.foldl (fun value item =>
    value + (if item.main.auto_margin_a then 1 else 0) + (if item.main.auto_margin_b then 1 else 0)) 0

/-- Distribution of a positive remaining space by `justify-content` (source
lines 504 to 545), the `SpaceBetween` case falling through to `FlexStart` for a
single item. -/
def JustifyItems (justify_content : Style.JustifyContent) (remaining_free_space : ℚ)
    (items : List FlexItem) : List FlexItem :=
  let num_items := items.length
  let flex_start := modifyBack (fun item => { item with main_auto_margin_size_b := remaining_free_space })
  match justify_content with
  | Style.JustifyContent.SpaceBetween =>
    if num_items > 1 then
      let space_per_edge := remaining_free_space / ((2 * num_items - 2 : Nat) : ℚ)
      mapWithIndex (fun i item =>
        let item := if i > 0 then { item with main_auto_margin_size_a := space_per_edge } else item
        if i < num_items - 1 then { item with main_auto_margin_size_b := space_per_edge } else item)
        0 items
    else flex_start items
  | Style.JustifyContent.FlexStart => flex_start items
  | Style.JustifyContent.FlexEnd =>
    modifyFront (fun item => { item with main_auto_margin_size_a := remaining_free_space }) items
  | Style.JustifyContent.Center =>
    modifyBack (fun item => { item with main_auto_margin_size_b := (1 / 2) * remaining_free_space })
      (modifyFront (fun item => { item with main_auto_margin_size_a := (1 / 2) * remaining_free_space })
        items)
  | Style.JustifyContent.SpaceAround =>
    let space_per_edge := remaining_free_space / ((2 * num_items : Nat) : ℚ)
    items.map (fun item =>
      { item with main_auto_margin_size_a := space_per_edge, main_auto_margin_size_b := space_per_edge })

/-- The free space left on the main axis of a line (source lines 480 to 482). -/
def MainRemainingFreeSpace (used_main_size : ℚ) (items : List FlexItem) : ℚ :=
  used_main_size - accumulate items 0 (fun value item => value + item.used_main_size)

/-- Distribution of the remaining main space of a line to the auto margins or
by `justify-content` (source lines 480 to 547). -/
def DistributeMainSpace (justify_content : Style.JustifyContent) (used_main_size : ℚ)
    (items : List FlexItem) : List FlexItem :=
  let remaining_free_space := MainRemainingFreeSpace used_main_size items
  if remaining_free_space > 0 then
    let num_auto_margins := NumAutoMargins items
    if num_auto_margins > 0 then
      let space_per_auto_margin := remaining_free_space / (num_auto_margins : ℚ)
      items.map (fun item =>
        let item :=
          if item.main.auto_margin_a then { item with main_auto_margin_size_a := space_per_auto_margin }
          else item
        if item.main.auto_margin_b then { item with main_auto_margin_size_b := space_per_auto_margin }
        else item)
    else JustifyItems justify_content remaining_free_space items
  else items

/-- The value `reverse_offset` of a line (source line 550); the source indexes
`line.items[0]`, so the line is never empty there. -/
def MainReverseOffset (used_main_size : ℚ) (items : List FlexItem) : ℚ :=
  match items with
  | [] => used_main_size
  | first :: _ => used_main_size - first.used_main_size + first.main.margin_a + first.main.margin_b

/-- The main offset of an item before snapping, for a given cursor (source
lines 554 to 558). -/
def MainOffsetAt (direction_reverse : Bool) (reverse_offset cursor : ℚ) (item : FlexItem) : ℚ :=
  let main_offset := cursor + item.main.margin_a + item.main_auto_margin_size_a
  if direction_reverse then reverse_offset - main_offset else main_offset

/-- The offset loop of a line (source lines 551 to 561): offsets from the
running cursor, reflected when the direction is reversed, then snapped together
with the used main size. -/
def SetMainOffsets (host : Host) (direction_reverse : Bool) (reverse_offset : ℚ) :
    ℚ → List FlexItem → List FlexItem
  | _, [] => []
  | cursor, item :: rest =>
    let main_offset := MainOffsetAt direction_reverse reverse_offset cursor item
    let cursor := cursor + (item.used_main_size + item.main_auto_margin_size_a + item.main_auto_margin_size_b)
    let snapped := host.SnapToPixelGrid main_offset item.used_main_size
    { item with main_offset := snapped.1, used_main_size := snapped.2 }
      :: SetMainOffsets host direction_reverse reverse_offset cursor rest

/-- The values of `item.main_offset` that the offset loop of a line hands to
`Math::SnapToPixelGrid` (source lines 551 to 558): the main offsets before
snapping, for the same cursor as in `SetMainOffsets`. -/
def MainOffsetsBeforeSnap (direction_reverse : Bool) (reverse_offset : ℚ) : ℚ → List FlexItem → List ℚ
  | _, [] => []
  | cursor, item :: rest =>
    MainOffsetAt direction_reverse reverse_offset cursor item
      :: MainOffsetsBeforeSnap direction_reverse reverse_offset
          (cursor + (item.used_main_size + item.main_auto_margin_size_a + item.main_auto_margin_size_b))
          rest

/-- An item without the fields written by the main-axis alignment
(`main_auto_margin_size_a`, `main_auto_margin_size_b`, `main_offset` and the
snapped `used_main_size`): what that alignment leaves untouched. -/
def FlexItem.EraseMainAlignment (item : FlexItem) : FlexItem :=
  { item with
    main_auto_margin_size_a := 0, main_auto_margin_size_b := 0, main_offset := 0, used_main_size := 0 }

/-- The outer main extent of every item of a line for the given main offsets:
from the offset less the margin in front of the item, over `used_main_size`,
which counts the margins, the padding and the borders of the item.  The margin
in front is `main.margin_a` in a non-reversed direction and `main.margin_b` in a
reversed one, where `GetItemSizing` has swapped the two. -/
def OuterMainExtents (margin : FlexItem → ℚ) (offsets : List ℚ) (items : List FlexItem) :
    List (ℚ × ℚ) :=
  List.zipWith (fun offset item => (offset - margin item, offset - margin item + item.used_main_size))
    offsets items

/-- Main-axis alignment of one line (source lines 478 to 562). -/
def AlignMainAxis (host : Host) (justify_content : Style.JustifyContent) (direction_reverse : Bool)
    (used_main_size : ℚ) (line : FlexLine) : FlexLine :=
  let items := DistributeMainSpace justify_content used_main_size line.items
  let reverse_offset := MainReverseOffset used_main_size items
  { line with items := SetMainOffsets host direction_reverse reverse_offset 0 items }

/-! ## Cross sizes -/

/-- The hypothetical cross size of one item and the host calls made to find it
(source lines 572 to 601). -/
def HypotheticalCrossSize (host : Host) (main_axis_horizontal : Bool)
    (flex_content_containing_block : Vector2f) (item : FlexItem) : ℚ × List HostCall :=
  let content_size := host.BuildBox flex_content_containing_block item.element 0
  let used_main_size_inner := item.used_main_size - item.main.sum_edges
  if main_axis_horizontal then
    if content_size.y < 0 then
      let content : Vector2f := ⟨used_main_size_inner, content_size.y⟩
      ((host.FormatElement item.element flex_content_containing_block content).y + item.cross.sum_edges,
        [HostCall.BuildBox item.element, HostCall.FormatElement item.element content])
    else (content_size.y + item.cross.sum_edges, [HostCall.BuildBox item.element])
  else
    if content_size.x < 0 ∨ item.cross.auto_size = true then
      (host.GetShrinkToFitWidth item.element flex_content_containing_block + item.cross.sum_edges,
        [HostCall.BuildBox item.element, HostCall.GetShrinkToFitWidth item.element])
    else (content_size.x + item.cross.sum_edges, [HostCall.BuildBox item.element])

/-- The loop setting `hypothetical_cross_size` on the items of a line (source
lines 569 to 602). -/
def SetHypotheticalCrossSizes (host : Host) (main_axis_horizontal : Bool)
    (flex_content_containing_block : Vector2f) : List FlexItem → List FlexItem × List HostCall
  | [] => ([], [])
  | item :: rest =>
    let found := HypotheticalCrossSize host main_axis_horizontal flex_content_containing_block item
    let tail := SetHypotheticalCrossSizes host main_axis_horizontal flex_content_containing_block rest
    ({ item with hypothetical_cross_size := found.1 } :: tail.1, found.2 ++ tail.2)

/-- The loop over the lines around `SetHypotheticalCrossSizes` (source lines 567
to 603). -/
def DetermineItemCrossSizes (host : Host) (main_axis_horizontal : Bool)
    (flex_content_containing_block : Vector2f) : List FlexLine → List FlexLine × List HostCall
  | [] => ([], [])
  | line :: rest =>
    let sized := SetHypotheticalCrossSizes host main_axis_horizontal flex_content_containing_block line.items
    let tail := DetermineItemCrossSizes host main_axis_horizontal flex_content_containing_block rest
    ({ line with items := sized.1 } :: tail.1, sized.2 ++ tail.2)

/-- The cross size of every line (source lines 605 to 623). -/
def DetermineLineCrossSizes (axes : FlexAxes) (lines : List FlexLine) : List FlexLine :=
  if axes.cross_available_size ≥ 0 ∧ axes.flex_single_line = true ∧ lines.length = 1 then
    modifyFront (fun line => { line with cross_size := axes.cross_available_size }) lines
  else
    lines.map (fun line =>
      let largest_hypothetical_cross_size :=
        max_element_value line.items (fun item => item.hypothetical_cross_size)
      let cross_size := Math.Max 0 largest_hypothetical_cross_size
      let cross_size :=
        if axes.flex_single_line then Math.Clamp cross_size axes.cross_min_size axes.cross_max_size
        else cross_size
      { line with cross_size := cross_size })

/-- The sum of the cross sizes of the lines (source lines 628 to 630 and 717 to
718). -/
def AccumulatedLinesCrossSize (lines : List FlexLine) : ℚ :=
  accumulate lines 0 (fun value line => value + line.cross_size)

/-- Stretching of the lines over extra cross space (source lines 625 to 638). -/
def StretchLines (cross_available_size : ℚ) (align_content : Style.AlignContent)
    (lines : List FlexLine) : List FlexLine :=
  if cross_available_size ≥ 0 ∧ align_content = Style.AlignContent.Stretch then
    let remaining_space := cross_available_size - AccumulatedLinesCrossSize lines
    if remaining_space > 0 then
      let add_space_per_line := remaining_space / (lines.length : ℚ)
      lines.map (fun line => { line with cross_size := line.cross_size + add_space_per_line })
    else lines
  else lines

/-- The used cross size of an item in a line of the given cross size (source
lines 645 to 654). -/
def UsedCrossSize (line_cross_size : ℚ) (item : FlexItem) : ℚ :=
  let stretch_item : Bool := decide (item.align_self = Style.AlignSelf.Stretch)
  if stretch_item ∧ item.cross.auto_size = true ∧ !item.cross.auto_margin_a ∧ !item.cross.auto_margin_b then
    Math.Clamp (line_cross_size - item.cross.sum_edges) item.cross.min_size item.cross.max_size
      + item.cross.sum_edges
  else item.hypothetical_cross_size

/-- The loop setting `used_cross_size` on every item (source lines 640 to 656). -/
def DetermineUsedCrossSizes (lines : List FlexLine) : List FlexLine :=
  lines.map (fun line =>
    { line with items := line.items.map (fun item =>
        { item with used_cross_size := UsedCrossSize line.cross_size item }) })

/-! ## Cross-axis alignment -/

/-- The cross offset of an item within its line before snapping, and the
warning logged on the way, if any (source lines 663 to 709). -/
def CrossOffset (wrap_reverse : Bool) (line_cross_size : ℚ) (item : FlexItem) : ℚ × List HostCall :=
  let remaining_space := line_cross_size - item.used_cross_size
  let aligned : ℚ × List HostCall :=
    if remaining_space > 0 then
      let num_auto_margins : Nat :=
        (if item.cross.auto_margin_a then 1 else 0) + (if item.cross.auto_margin_b then 1 else 0)
      if num_auto_margins > 0 then
        let space_per_auto_margin := remaining_space / (num_auto_margins : ℚ)
        (item.cross.margin_a + (if item.cross.auto_margin_a then space_per_auto_margin else 0), [])
      else
        match item.align_self with
        | Style.AlignSelf.Auto => (item.cross.margin_a, [HostCall.Error])
        | Style.AlignSelf.FlexStart => (item.cross.margin_a, [])
        | Style.AlignSelf.FlexEnd => (item.cross.margin_a + remaining_space, [])
        | Style.AlignSelf.Center => (item.cross.margin_a + (1 / 2) * remaining_space, [])
        | Style.AlignSelf.Baseline => (item.cross.margin_a, [HostCall.LogBaselineWarning])
        | Style.AlignSelf.Stretch => (item.cross.margin_a, [])
    else (item.cross.margin_a, [])
  if wrap_reverse then
    let reverse_offset := line_cross_size - item.used_cross_size + item.cross.margin_a + item.cross.margin_b
    (reverse_offset - aligned.1, aligned.2)
  else aligned

/-- The item loop of the cross alignment of one line (source lines 661 to 710). -/
def SetCrossOffsets (wrap_reverse : Bool) (line_cross_size : ℚ) :
    List FlexItem → List FlexItem × List HostCall
  | [] => ([], [])
  | item :: rest =>
    let found := CrossOffset wrap_reverse line_cross_size item
    let tail := SetCrossOffsets wrap_reverse line_cross_size rest
    ({ item with cross_offset := found.1 } :: tail.1, found.2 ++ tail.2)

/-- Snapping of the outer cross edges of an item (source lines 713 and 714). -/
def SnapItemCross (host : Host) (item : FlexItem) : FlexItem :=
  let snapped := host.SnapToPixelGrid item.cross_offset item.used_cross_size
  { item with cross_offset := snapped.1, used_cross_size := snapped.2 }

/-- Cross-axis alignment of the items of every line (source lines 658 to 715). -/
def AlignCrossAxis (host : Host) (wrap_reverse : Bool) : List FlexLine → List FlexLine × List HostCall
  | [] => ([], [])
  | line :: rest =>
    let aligned := SetCrossOffsets wrap_reverse line.cross_size line.items
    let tail := AlignCrossAxis host wrap_reverse rest
    ({ line with items := aligned.1.map (SnapItemCross host) } :: tail.1, aligned.2 ++ tail.2)

/-! ## Packing the lines along the cross axis -/

/-- The used cross size of the container (source line 721). -/
def GetUsedCrossSize (cross_available_size : ℚ) (lines : List FlexLine) : ℚ :=
  if cross_available_size ≥ 0 then cross_available_size else AccumulatedLinesCrossSize lines

/-- Distribution of a positive remaining cross space by `align-content` (source
lines 732 to 771); the `SpaceBetween` case falls through to `FlexStart`. -/
def PackLines (align_content : Style.AlignContent) (remaining_free_space : ℚ)
    (lines : List FlexLine) : List FlexLine :=
  let num_lines := lines.length
  let flex_start := modifyBack (fun line : FlexLine => { line with cross_spacing_b := remaining_free_space })
  match align_content with
  | Style.AlignContent.SpaceBetween =>
    let lines :=
      if num_lines > 1 then
        let space_per_edge := remaining_free_space / ((2 * num_lines - 2 : Nat) : ℚ)
        mapWithIndex (fun i (line : FlexLine) =>
          let line := if i > 0 then { line with cross_spacing_a := space_per_edge } else line
          if i < num_lines - 1 then { line with cross_spacing_b := space_per_edge } else line)
          0 lines
      else lines
    flex_start lines
  | Style.AlignContent.FlexStart => flex_start lines
  | Style.AlignContent.FlexEnd =>
    modifyFront (fun line => { line with cross_spacing_a := remaining_free_space }) lines
  | Style.AlignContent.Center =>
    modifyBack (fun line : FlexLine => { line with cross_spacing_b := (1 / 2) * remaining_free_space })
      (modifyFront (fun line : FlexLine => { line with cross_spacing_a := (1 / 2) * remaining_free_space })
        lines)
  | Style.AlignContent.SpaceAround =>
    let space_per_edge := remaining_free_space / ((2 * num_lines : Nat) : ℚ)
    lines.map (fun line => { line with cross_spacing_a := space_per_edge, cross_spacing_b := space_per_edge })
  | Style.AlignContent.Stretch => lines

/-- The cross spacing of the lines (source lines 725 to 772). -/
def DistributeCrossSpace (align_content : Style.AlignContent) (used_cross_size : ℚ)
    (lines : List FlexLine) : List FlexLine :=
  let remaining_free_space := used_cross_size - AccumulatedLinesCrossSize lines
  if remaining_free_space > 0 then PackLines align_content remaining_free_space lines else lines

/-- The value `reverse_offset` of the line loop (source line 775); the source
indexes `container.lines[0]`, so there is always a line there. -/
def CrossReverseOffset (used_cross_size : ℚ) (lines : List FlexLine) : ℚ :=
  match lines with
  | [] => used_cross_size
  | first :: _ => used_cross_size - first.cross_size

/-- The line loop (source lines 776 to 786): cross offsets from the running
cursor, reflected under `wrap-reverse`, then snapped with the cross size. -/
def SetLineOffsets (host : Host) (wrap_reverse : Bool) (reverse_offset : ℚ) :
    ℚ → List FlexLine → List FlexLine
  | _, [] => []
  | cursor, line :: rest =>
    let cross_offset := cursor + line.cross_spacing_a
    let cursor := cross_offset + line.cross_size + line.cross_spacing_b
    let cross_offset := if wrap_reverse then reverse_offset - cross_offset else cross_offset
    let snapped := host.SnapToPixelGrid cross_offset line.cross_size
    { line with cross_offset := snapped.1, cross_size := snapped.2 }
      :: SetLineOffsets host wrap_reverse reverse_offset cursor rest

/-- The values of `line.cross_offset` that the line loop hands to
`Math::SnapToPixelGrid` (source lines 776 to 783): the cross offsets of the
lines before snapping, for the same cursor as in `SetLineOffsets`. -/
def LineOffsetsBeforeSnap (wrap_reverse : Bool) (reverse_offset : ℚ) : ℚ → List FlexLine → List ℚ
  | _, [] => []
  | cursor, line :: rest =>
    (if wrap_reverse then reverse_offset - (cursor + line.cross_spacing_a)
      else cursor + line.cross_spacing_a)
      :: LineOffsetsBeforeSnap wrap_reverse reverse_offset
          (cursor + line.cross_spacing_a + line.cross_size + line.cross_spacing_b) rest

/-- The statements of the `SpaceBetween` case of the line packing proper (source
lines 734 to 747), before control falls through to the `FlexStart` case. -/
def SpaceBetweenLines (remaining_free_space : ℚ) (lines : List FlexLine) : List FlexLine :=
  let num_lines := lines.length
  if num_lines > 1 then
    let space_per_edge := remaining_free_space / ((2 * num_lines - 2 : Nat) : ℚ)
    mapWithIndex (fun i (line : FlexLine) =>
      let line := if i > 0 then { line with cross_spacing_a := space_per_edge } else line
      if i < num_lines - 1 then { line with cross_spacing_b := space_per_edge } else line)
      0 lines
  else lines

/-- An item without the fields written by the cross sizing and the cross
alignment (`hypothetical_cross_size`, `used_cross_size`, `cross_offset`): what
these steps leave untouched. -/
def FlexItem.EraseCross (item : FlexItem) : FlexItem :=
  { item with hypothetical_cross_size := 0, used_cross_size := 0, cross_offset := 0 }

/-- Alignment of the lines along the cross axis (source lines 723 to 787). -/
def AlignLines (host : Host) (align_content : Style.AlignContent) (wrap_reverse : Bool)
    (used_cross_size : ℚ) (lines : List FlexLine) : List FlexLine :=
  let lines := DistributeCrossSpace align_content used_cross_size lines
  SetLineOffsets host wrap_reverse (CrossReverseOffset used_cross_size lines) 0 lines

/-! ## Formatting the items -/

/-- The physical vector of a (main, cross) pair. -/
def Physical (main_axis_horizontal : Bool) (main cross : ℚ) : Vector2f :=
  if main_axis_horizontal then ⟨main, cross⟩ else ⟨cross, main⟩

/-- The content size handed to the host for an item (source lines 798 to 804). -/
def ItemContentSize (main_axis_horizontal : Bool) (item : FlexItem) : Vector2f :=
  Physical main_axis_horizontal (item.used_main_size - item.main.sum_edges)
    (item.used_cross_size - item.cross.sum_edges)

/-- The offset of an item within the content area of the container (source lines
799 to 806). -/
def ItemOffset (main_axis_horizontal : Bool) (line : FlexLine) (item : FlexItem) : Vector2f :=
  Physical main_axis_horizontal item.main_offset (line.cross_offset + item.cross_offset)

/-- The item loop of the final formatting over one line (source lines 792 to
817): the overflow size accumulated so far and the host calls made. -/
def FormatLineItems (host : Host) (main_axis_horizontal : Bool)
    (flex_content_containing_block flex_content_offset : Vector2f) (line : FlexLine) :
    Vector2f → List FlexItem → Vector2f × List HostCall
  | flex_content_overflow_size, [] => (flex_content_overflow_size, [])
  | flex_content_overflow_size, item :: rest =>
    let content := ItemContentSize main_axis_horizontal item
    let item_offset := ItemOffset main_axis_horizontal line item
    let cell_visible_overflow_size :=
      host.FormatElementOverflow item.element flex_content_containing_block content
    let offset : Vector2f := ⟨flex_content_offset.x + item_offset.x, flex_content_offset.y + item_offset.y⟩
    let flex_content_overflow_size : Vector2f :=
      ⟨Math.Max flex_content_overflow_size.x (item_offset.x + cell_visible_overflow_size.x),
       Math.Max flex_content_overflow_size.y (item_offset.y + cell_visible_overflow_size.y)⟩
    let tail := FormatLineItems host main_axis_horizontal flex_content_containing_block
      flex_content_offset line flex_content_overflow_size rest
    (tail.1,
      [HostCall.BuildBox item.element, HostCall.FormatElement item.element content,
        HostCall.SetOffset item.element offset] ++ tail.2)

/-- The final formatting of all items (source lines 789 to 818). -/
def FormatItems (host : Host) (main_axis_horizontal : Bool)
    (flex_content_containing_block flex_content_offset : Vector2f) :
    Vector2f → List FlexLine → Vector2f × List HostCall
  | flex_content_overflow_size, [] => (flex_content_overflow_size, [])
  | flex_content_overflow_size, line :: rest =>
    let done := FormatLineItems host main_axis_horizontal flex_content_containing_block
      flex_content_offset line flex_content_overflow_size line.items
    let tail := FormatItems host main_axis_horizontal flex_content_containing_block
      flex_content_offset done.1 rest
    (tail.1, done.2 ++ tail.2)

/-! ## The formatter -/

/-- The `LayoutFlex` object: the constructor arguments and the two result
members.  Modelled from the spec: the class is declared in `LayoutFlex.h`, which
is not among the sources; its two result members start as the zero vector
("return immediately with zero size and zero overflow"). -/
structure LayoutFlex where
  element_flex : FlexElement
  flex_available_content_size : Vector2f
  flex_content_containing_block : Vector2f
  flex_content_offset : Vector2f
  flex_min_size : Vector2f
  flex_max_size : Vector2f
  flex_resulting_content_size : Vector2f := ⟨0, 0⟩
  flex_content_overflow_size : Vector2f := ⟨0, 0⟩
deriving DecidableEq

/-- The axis constants of a `LayoutFlex` object. -/
def LayoutFlex.Axes (self : LayoutFlex) : FlexAxes :=
  GetFlexAxes self.element_flex.computed self.flex_available_content_size self.flex_min_size
    self.flex_max_size

/-- The item list built by `Format()` and the host calls made for it. -/
def LayoutFlex.Items (host : Host) (self : LayoutFlex) : List FlexItem × List HostCall :=
  BuildFlexItems host self.element_flex.computed self.Axes self.flex_content_containing_block
    self.element_flex.children

/-- The lines collected by `Format()` from its item list (source lines 305 to
348). -/
def LayoutFlex.Container (host : Host) (self : LayoutFlex) : FlexContainer :=
  CollectLines self.Axes.flex_single_line self.Axes.main_wrap_size (self.Items host).1

/-- The value `used_main_size` of `Format()` (source lines 350 to 355). -/
def LayoutFlex.UsedMainSize (host : Host) (self : LayoutFlex) : ℚ :=
  GetUsedMainSize self.Axes.main_available_size (self.Container host)

/-- The lines after their flexible lengths are resolved (source lines 357 to
471), before the main alignment and its snapping. -/
def LayoutFlex.ResolvedLines (host : Host) (self : LayoutFlex) : List FlexLine :=
  (self.Container host).lines.map (ResolveFlexibleLengths (self.UsedMainSize host))

/-- The lines after the main sizes and main offsets are determined (source
lines 357 to 562). -/
def LayoutFlex.MainLines (host : Host) (self : LayoutFlex) : List FlexLine :=
  (self.ResolvedLines host).map
    (AlignMainAxis host self.element_flex.computed.justify_content self.Axes.direction_reverse
      (self.UsedMainSize host))

/-- The lines after the cross sizes of items and lines are determined and the
items are aligned within their lines (source lines 565 to 715), with the host
calls made on the way. -/
def LayoutFlex.CrossLines (host : Host) (self : LayoutFlex) : List FlexLine × List HostCall :=
  let axes := self.Axes
  let sized := DetermineItemCrossSizes host axes.main_axis_horizontal self.flex_content_containing_block
    (self.MainLines host)
  let lines := DetermineLineCrossSizes axes sized.1
  let lines := StretchLines axes.cross_available_size self.element_flex.computed.align_content lines
  let lines := DetermineUsedCrossSizes lines
  let aligned := AlignCrossAxis host axes.wrap_reverse lines
  (aligned.1, sized.2 ++ aligned.2)

/-- The lines as they enter the cross alignment in `CrossLines`: with the cross
sizes of the items and of the lines determined (source lines 565 to 656). -/
def LayoutFlex.SizedLines (host : Host) (self : LayoutFlex) : List FlexLine :=
  DetermineUsedCrossSizes
    (StretchLines self.Axes.cross_available_size self.element_flex.computed.align_content
      (DetermineLineCrossSizes self.Axes
        (DetermineItemCrossSizes host self.Axes.main_axis_horizontal
          self.flex_content_containing_block (self.MainLines host)).1))

/-- The lines with the hypothetical cross size of every item determined (source
lines 565 to 603). -/
def LayoutFlex.HypotheticalCrossLines (host : Host) (self : LayoutFlex) : List FlexLine :=
  (DetermineItemCrossSizes host self.Axes.main_axis_horizontal self.flex_content_containing_block
    (self.MainLines host)).1

/-- The lines with their cross sizes determined (source lines 605 to 623), before
`align-content: stretch` is applied. -/
def LayoutFlex.LineCrossSizedLines (host : Host) (self : LayoutFlex) : List FlexLine :=
  DetermineLineCrossSizes self.Axes (self.HypotheticalCrossLines host)

/-- The lines after `align-content: stretch` is applied (source lines 625 to
638). -/
def LayoutFlex.StretchedLines (host : Host) (self : LayoutFlex) : List FlexLine :=
  StretchLines self.Axes.cross_available_size self.element_flex.computed.align_content
    (self.LineCrossSizedLines host)

/-- The value `used_cross_size` of `Format()` (source lines 717 to 721). -/
def LayoutFlex.UsedCrossSize (host : Host) (self : LayoutFlex) : ℚ :=
  GetUsedCrossSize self.Axes.cross_available_size (self.CrossLines host).1

/-- The lines at the end of `Format()`, packed along the cross axis (source
lines 723 to 787). -/
def LayoutFlex.FinalLines (host : Host) (self : LayoutFlex) : List FlexLine :=
  AlignLines host self.element_flex.computed.align_content self.Axes.wrap_reverse
    (self.UsedCrossSize host) (self.CrossLines host).1

/-- The member function `LayoutFlex::Format()` (source lines 184 to 821): the
object after the call and the trace of host calls. -/
def LayoutFlex.Format (host : Host) (self : LayoutFlex) : LayoutFlex × List HostCall :=
  let items := self.Items host
  if items.1.isEmpty then (self, items.2)
  else
    let axes := self.Axes
    let cross := self.CrossLines host
    let formatted := FormatItems host axes.main_axis_horizontal self.flex_content_containing_block
      self.flex_content_offset self.flex_content_overflow_size (self.FinalLines host)
    ({ self with
        flex_content_overflow_size := formatted.1,
        flex_resulting_content_size :=
          Physical axes.main_axis_horizontal (self.UsedMainSize host) (self.UsedCrossSize host) },
      items.2 ++ cross.2 ++ formatted.2)

/-- What a call of the static `LayoutFlex::Format` leaves behind: the returned
vector, the box, and the trace of host calls. -/
structure FormatOutcome where
  result : Vector2f
  box : Box
  trace : List HostCall
deriving DecidableEq

/-- The test at the top of the static `Format` (source lines 46 and 47). -/
def RejectsOverflow (computed_flex : ComputedValues) : Bool :=
  !(decide (computed_flex.overflow_x = Style.Overflow.Visible)
      || decide (computed_flex.overflow_x = Style.Overflow.Hidden))
    || !(decide (computed_flex.overflow_y = Style.Overflow.Visible)
      || decide (computed_flex.overflow_y = Style.Overflow.Hidden))

/-- The vector `table_gap` of the static `Format` (source lines 65 to 68); it is
passed to nothing. -/
def TableGap (computed_flex : ComputedValues) (flex_available_content_size : Vector2f) : Vector2f :=
  ⟨ResolveValue computed_flex.column_gap flex_available_content_size.x,
   ResolveValue computed_flex.row_gap flex_available_content_size.y⟩

/-- The `LayoutFlex` object constructed by the static `Format` (source lines 53
to 71). -/
def LayoutFlex.Construct (host : Host) (box : Box) (min_size max_size flex_containing_block : Vector2f)
    (element_flex : FlexElement) : LayoutFlex :=
  let box_content_size := box.GetSize
  let flex_content_offset := box.GetPosition
  let flex_available_content_size : Vector2f := ⟨box_content_size.x, box_content_size.y⟩
  let flex_content_containing_block : Vector2f :=
    if flex_available_content_size.y < 0 then ⟨flex_available_content_size.x, flex_containing_block.y⟩
    else flex_available_content_size
  let snapped := host.SnapToPixelGrid2 flex_content_offset flex_available_content_size
  { element_flex := element_flex, flex_available_content_size := snapped.2,
    flex_content_containing_block := flex_content_containing_block,
    flex_content_offset := snapped.1, flex_min_size := min_size, flex_max_size := max_size }

/-- The static entry point `LayoutFlex::Format(box, min_size, max_size,
flex_containing_block, element_flex)` (source lines 42 to 79). -/
def LayoutFlex.FormatBox (host : Host) (box : Box) (min_size max_size flex_containing_block : Vector2f)
    (element_flex : FlexElement) : FormatOutcome :=
  let computed_flex := element_flex.computed
  if RejectsOverflow computed_flex then
    { result := ⟨0, 0⟩, box := box, trace := [HostCall.LogScrollingWarning] }
  else
    let layout_flex := LayoutFlex.Construct host box min_size max_size flex_containing_block element_flex
    let formatted := layout_flex.Format host
    { result := formatted.1.flex_content_overflow_size,
      box := box.SetContent formatted.1.flex_resulting_content_size,
      trace := formatted.2 }

/-! ## The same steps in binary32 arithmetic -/

namespace Binary32

/-- The number of binary digits of `n`, found by halving at most `budget` times;
the budget `n` suffices. -/
def BitLength : Nat → Nat → Nat
  | 0, _ => 0
  | budget + 1, n => if n = 0 then 0 else BitLength budget (n / 2) + 1

/-- The exponent of a positive quotient `n / d`: the integer `e` with
`2 ^ e ≤ n / d < 2 ^ (e + 1)`. -/
def Exponent (n d : Nat) : Int :=
  let digits_n := BitLength n n
  let digits_d := BitLength d d
  if digits_d ≤ digits_n then
    let k := digits_n - digits_d
    if d * 2 ^ k ≤ n then (k : Int) else (k : Int) - 1
  else
    let k := digits_d - digits_n
    if d ≤ n * 2 ^ k then -(k : Int) else -(k : Int) - 1

/-- The nearest integer to a quotient `n / d` of natural numbers, a tie going to
the even neighbour. -/
def NearestEven (n d : Nat) : Nat :=
  let q := n / d
  let r := n % d
  if 2 * r < d then q
  else if d < 2 * r then q + 1
  else if q % 2 = 0 then q else q + 1

/-- Rounding of a real value to the `float` of the source, the IEEE 754 binary32
format: a significand of 24 bits, the least exponent −126 (below which the
values are subnormal), rounding to the nearest value, a tie to the even
significand.  A value beyond `FLT_MAX`, an infinity in the source, is not
represented: it is rounded with the same significand. -/
def Round (x : ℚ) : ℚ :=
  if x = 0 then 0
  else
    let n := x.num.natAbs
    let d := x.den
    let e := max (Exponent n d) (-126)
    let magnitude : ℚ :=
      if e ≤ 23 then
        let k := (23 - e).toNat
        (NearestEven (n * 2 ^ k) d : ℚ) / ((2 ^ k : Nat) : ℚ)
      else
        let k := (e - 23).toNat
        ((NearestEven n (d * 2 ^ k) * 2 ^ k : Nat) : ℚ)
    if x < 0 then -magnitude else magnitude

/-- The `float` sum `a + b`. -/
def Add (a b : ℚ) : ℚ := Round (a + b)

/-- The `float` difference `a - b`. -/
def Sub (a b : ℚ) : ℚ := Round (a - b)

/-- The `float` product `a * b`. -/
def Mul (a b : ℚ) : ℚ := Round (a * b)

/-- The `float` quotient `a / b`.  A quotient by zero, an infinity or NaN in the
source, has the value 0 here as it has in `ℚ`. -/
def Div (a b : ℚ) : ℚ := Round (a / b)

/-- The conversion `float(n)` of a count. -/
def OfNat (n : Nat) : ℚ := Round (n : ℚ)

/-! ### Edge sizes -/

/-- Modelled from the spec: `ResolveValue` for a length that may be `auto`, as
`Rml.ResolveValueAuto`, the percentage formed with `float` products. -/
def ResolveValueAuto (length : Style.LengthPercentageAuto) (base_value : ℚ) : ℚ :=
  match length.type with
  | Style.LengthType.Length => length.value
  | Style.LengthType.Percentage => Mul (Mul length.value (Round (1 / 100))) base_value
  | Style.LengthType.Auto => 0

/-- Modelled from the spec: `ResolveValue` for a length or percentage, as
`Rml.ResolveValue`, the percentage formed with `float` products. -/
def ResolveValue (length : Style.LengthPercentage) (base_value : ℚ) : ℚ :=
  match length.type with
  | Style.LengthPercentageType.Length => length.value
  | Style.LengthPercentageType.Percentage => Mul (Mul length.value (Round (1 / 100))) base_value

/-- The four outputs of `GetEdgeSizes` (source lines 140 to 148) in `float`
arithmetic. -/
def GetEdgeSizes (computed_size : ComputedFlexItemSize) (base_value : ℚ) : ℚ × ℚ × ℚ × ℚ :=
  let margin_a := ResolveValueAuto computed_size.margin_a base_value
  let margin_b := ResolveValueAuto computed_size.margin_b base_value
  let padding_border_a :=
    Add (Math.Max 0 (ResolveValue computed_size.padding_a base_value)) (Math.Max 0 computed_size.border_a)
  let padding_border_b :=
    Add (Math.Max 0 (ResolveValue computed_size.padding_b base_value)) (Math.Max 0 computed_size.border_b)
  (margin_a, margin_b, padding_border_a, padding_border_b)

/-- The sizing written to `destination` by `GetItemSizing` (source lines 150 to
182) in `float` arithmetic. -/
def GetItemSizing (computed_size : ComputedFlexItemSize) (base_value : ℚ)
    (direction_reverse : Bool) : FlexItem.Size :=
  let edges := GetEdgeSizes computed_size base_value
  let margin_a := edges.1
  let margin_b := edges.2.1
  let padding_border_a := edges.2.2.1
  let padding_border_b := edges.2.2.2
  let padding_border := Add padding_border_a padding_border_b
  let margin := Add margin_a margin_b
  let auto_margin_a := decide (computed_size.margin_a.type = Style.LengthType.Auto)
  let auto_margin_b := decide (computed_size.margin_b.type = Style.LengthType.Auto)
  let auto_size := decide (computed_size.size.type = Style.LengthType.Auto)
  let sum_edges := Add padding_border margin
  let min_size := ResolveValue computed_size.min_size base_value
  let max_size :=
    if computed_size.max_size.value < 0 then FLT_MAX else ResolveValue computed_size.max_size base_value
  let min_size :=
    if computed_size.box_sizing = Style.BoxSizing.BorderBox then Math.Max 0 (Sub min_size padding_border)
    else min_size
  let max_size :=
    if computed_size.box_sizing = Style.BoxSizing.BorderBox then
      (if max_size < FLT_MAX then Math.Max 0 (Sub max_size padding_border) else max_size)
    else max_size
  if direction_reverse then
    { auto_margin_a := auto_margin_b, auto_margin_b := auto_margin_a, auto_size := auto_size,
      margin_a := margin_b, margin_b := margin_a, sum_edges := sum_edges,
      min_size := min_size, max_size := max_size }
  else
    { auto_margin_a := auto_margin_a, auto_margin_b := auto_margin_b, auto_size := auto_size,
      margin_a := margin_a, margin_b := margin_b, sum_edges := sum_edges,
      min_size := min_size, max_size := max_size }

/-! ### Resolving the flexible lengths of a line -/

/-- Whether the line is resolved by growing (source lines 361 to 363) in `float`
arithmetic. -/
def FlexModeGrow (used_main_size : ℚ) (line : FlexLine) : Bool :=
  decide (Sub used_main_size line.accumulated_hypothetical_main_size > 0)

/-- The items of a line after initialisation and freezing of the inflexible
items (source lines 369 to 381); the loop body compares and assigns only. -/
def InitializeItems (used_main_size : ℚ) (line : FlexLine) : List FlexItem :=
  line.items.map (InitializeItem (FlexModeGrow used_main_size line))

/-- The lambda `RemainingFreeSpace` (source lines 383 to 387) in `float`
arithmetic. -/
def RemainingFreeSpace (used_main_size : ℚ) (items : List FlexItem) : ℚ :=
  Sub used_main_size (accumulate items 0 (fun value item =>
    Add value (if item.frozen then item.target_main_size else item.flex_base_size)))

/-- The sum `flex_factor_sum` (source lines 396 to 398) in `float` arithmetic. -/
def FlexFactorSum (flex_mode_grow : Bool) (items : List FlexItem) : ℚ :=
  accumulate items 0 (fun value item =>
    Add value (if item.frozen then 0 else FlexFactor flex_mode_grow item))

/-- The free space to distribute in one iteration (source lines 394 to 405) in
`float` arithmetic. -/
def ScaledRemainingFreeSpace (used_main_size : ℚ) (flex_mode_grow : Bool) (initial_free_space : ℚ)
    (items : List FlexItem) : ℚ :=
  let remaining_free_space := RemainingFreeSpace used_main_size items
  let flex_factor_sum := FlexFactorSum flex_mode_grow items
  if flex_factor_sum < 1 then
    let scaled_initial_free_space := Mul initial_free_space flex_factor_sum
    if Math.AbsoluteValue scaled_initial_free_space < Math.AbsoluteValue remaining_free_space then
      scaled_initial_free_space
    else remaining_free_space
  else remaining_free_space

/-- The sum `scaled_flex_shrink_factor_sum` (source lines 423 to 425) in `float`
arithmetic. -/
def ScaledFlexShrinkFactorSum (items : List FlexItem) : ℚ :=
  accumulate items 0 (fun value item =>
    Add value (if item.frozen then 0 else Mul item.flex_shrink_factor item.inner_flex_base_size))

/-- Body of the loop distributing the free space of a growing line (source lines
414 to 418) in `float` arithmetic. -/
def GrowItem (flex_factor_sum remaining_free_space : ℚ) (item : FlexItem) : FlexItem :=
  if !item.frozen then
    let distribute_ratio := Div item.flex_grow_factor flex_factor_sum
    { item with target_main_size := Add item.flex_base_size (Mul distribute_ratio remaining_free_space) }
  else item

/-- Body of the loop distributing the free space of a shrinking line (source
lines 429 to 434) in `float` arithmetic. -/
def ShrinkItem (scaled_flex_shrink_factor_sum remaining_free_space : ℚ) (item : FlexItem) : FlexItem :=
  if !item.frozen then
    let scaled_flex_shrink_factor := Mul item.flex_shrink_factor item.inner_flex_base_size
    let distribute_ratio := Div scaled_flex_shrink_factor scaled_flex_shrink_factor_sum
    let distributed := Mul distribute_ratio (Math.AbsoluteValue remaining_free_space)
    { item with target_main_size := Sub item.flex_base_size distributed }
  else item

/-- The distribution of the free space over the unfrozen items (source lines
407 to 437) in `float` arithmetic. -/
def DistributeFreeSpace (flex_mode_grow : Bool) (flex_factor_sum remaining_free_space : ℚ)
    (items : List FlexItem) : List FlexItem :=
  if remaining_free_space ≠ 0 then
    if flex_mode_grow then items.map (GrowItem flex_factor_sum remaining_free_space)
    else items.map (ShrinkItem (ScaledFlexShrinkFactorSum items) remaining_free_space)
  else items

/-- The value `clamped_target_main_size` of an item (source lines 446 and 447) in
`float` arithmetic. -/
def ClampedTargetMainSize (item : FlexItem) : ℚ :=
  let inner_target_main_size := Math.Max 0 (Sub item.target_main_size item.main.sum_edges)
  Add (Math.Clamp inner_target_main_size item.main.min_size item.main.max_size) item.main.sum_edges

/-- The value `violation_diff` of an item (source line 449) in `float`
arithmetic. -/
def ViolationDiff (item : FlexItem) : ℚ := Sub (ClampedTargetMainSize item) item.target_main_size

/-- Body of the loop "clamp min/max violations" on one item (source lines 444 to
454) in `float` arithmetic, apart from the running total. -/
def ClampItem (item : FlexItem) : FlexItem :=
  if !item.frozen then
    let violation_diff := ViolationDiff item
    { item with
      violation :=
        if violation_diff > 0 then FlexItem.Violation.Min
        else if violation_diff < 0 then FlexItem.Violation.Max
        else FlexItem.Violation.None,
      target_main_size := ClampedTargetMainSize item }
  else item

/-- The running total `total_minmax_violation` at the end of the clamp loop
(source lines 440 to 455) in `float` arithmetic. -/
def TotalMinMaxViolation (items : List FlexItem) : ℚ :=
  accumulate items 0 (fun total item => if !item.frozen then Add total (ViolationDiff item) else total)

/-- One pass through the body of the `while` loop (source lines 393 to 466) in
`float` arithmetic. -/
def ResolveIteration (used_main_size : ℚ) (flex_mode_grow : Bool) (initial_free_space : ℚ)
    (items : List FlexItem) : List FlexItem :=
  let flex_factor_sum := FlexFactorSum flex_mode_grow items
  let remaining_free_space :=
    ScaledRemainingFreeSpace used_main_size flex_mode_grow initial_free_space items
  let items := DistributeFreeSpace flex_mode_grow flex_factor_sum remaining_free_space items
  let total_minmax_violation := TotalMinMaxViolation items
  let items := items.map ClampItem
  items.map (FreezeItem total_minmax_violation)

/-- The `while` loop (source lines 392 to 466) in `float` arithmetic, run with a
budget of iterations: the items on exit and the number of iterations executed,
or `none` when the budget does not suffice. -/
def ResolveLoop (used_main_size : ℚ) (flex_mode_grow : Bool) (initial_free_space : ℚ) :
    Nat → List FlexItem → Option (List FlexItem × Nat)
  | fuel, items =>
    if AllFrozen items then some (items, 0)
    else
      match fuel with
      | 0 => none
      | fuel + 1 =>
        match ResolveLoop used_main_size flex_mode_grow initial_free_space fuel
            (ResolveIteration used_main_size flex_mode_grow initial_free_space items) with
        | some (result, iterations) => some (result, iterations + 1)
        | none => none

/-- Resolution of the flexible lengths of one line (source lines 361 to 470) in
`float` arithmetic, with a budget of loop iterations: the line with every
`used_main_size` set, and the number of iterations of the `while` loop. -/
def ResolveFlexibleLengthsWith (fuel : Nat) (used_main_size : ℚ) (line : FlexLine) :
    Option (FlexLine × Nat) :=
  let flex_mode_grow := FlexModeGrow used_main_size line
  let items := InitializeItems used_main_size line
  let initial_free_space := RemainingFreeSpace used_main_size items
  match ResolveLoop used_main_size flex_mode_grow initial_free_space fuel items with
  | some (items, iterations) => some ({ line with items := SetUsedMainSizes items }, iterations)
  | none => none

/-- Resolution of the flexible lengths of one line in `float` arithmetic as
`Format()` uses it: the budget is the number of items of the line, which the
loop never exceeds; a line left unresolved by the budget would be returned
unchanged. -/
def ResolveFlexibleLengths (used_main_size : ℚ) (line : FlexLine) : FlexLine :=
  match ResolveFlexibleLengthsWith line.items.length used_main_size line with
  | some (line, _) => line
  | none => line

/-- The relations the build step leaves between the fields of a flex item in
`float` arithmetic: it is not frozen, its flex base size is the `float` sum of
the inner flex base size and the edges, and its hypothetical main size is the
`float` sum of the clamped inner flex base size and the edges (source lines 228
and 291 to 295). -/
def Built (item : FlexItem) : Prop :=
  item.frozen = false
    ∧ item.flex_base_size = Add item.inner_flex_base_size item.main.sum_edges
    ∧ item.hypothetical_main_size
        = Add (Math.Clamp item.inner_flex_base_size item.main.min_size item.main.max_size)
            item.main.sum_edges

instance (item : FlexItem) : Decidable (Built item) :=
  inferInstanceAs (Decidable (_ ∧ _ ∧ _))

/-! ### Main-axis alignment -/

/-- The free space left on the main axis of a line (source lines 480 to 482) in
`float` arithmetic. -/
def MainRemainingFreeSpace (used_main_size : ℚ) (items : List FlexItem) : ℚ :=
  Sub used_main_size (accumulate items 0 (fun value item => Add value item.used_main_size))

/-- Distribution of a positive remaining space by `justify-content` (source
lines 504 to 545) in `float` arithmetic. -/
def JustifyItems (justify_content : Style.JustifyContent) (remaining_free_space : ℚ)
    (items : List FlexItem) : List FlexItem :=
  let num_items := items.length
  let flex_start := modifyBack (fun item => { item with main_auto_margin_size_b := remaining_free_space })
  match justify_content with
  | Style.JustifyContent.SpaceBetween =>
    if num_items > 1 then
      let space_per_edge := Div remaining_free_space (OfNat (2 * num_items - 2))
      mapWithIndex (fun i item =>
        let item := if i > 0 then { item with main_auto_margin_size_a := space_per_edge } else item
        if i < num_items - 1 then { item with main_auto_margin_size_b := space_per_edge } else item)
        0 items
    else flex_start items
  | Style.JustifyContent.FlexStart => flex_start items
  | Style.JustifyContent.FlexEnd =>
    modifyFront (fun item => { item with main_auto_margin_size_a := remaining_free_space }) items
  | Style.JustifyContent.Center =>
    modifyBack (fun item => { item with main_auto_margin_size_b := Mul (1 / 2) remaining_free_space })
      (modifyFront (fun item => { item with main_auto_margin_size_a := Mul (1 / 2) remaining_free_space })
        items)
  | Style.JustifyContent.SpaceAround =>
    let space_per_edge := Div remaining_free_space (OfNat (2 * num_items))
    items.map (fun item =>
      { item with main_auto_margin_size_a := space_per_edge, main_auto_margin_size_b := space_per_edge })

/-- Distribution of the remaining main space of a line to the auto margins or
by `justify-content` (source lines 480 to 547) in `float` arithmetic. -/
def DistributeMainSpace (justify_content : Style.JustifyContent) (used_main_size : ℚ)
    (items : List FlexItem) : List FlexItem :=
  let remaining_free_space := MainRemainingFreeSpace used_main_size items
  if remaining_free_space > 0 then
    let num_auto_margins := NumAutoMargins items
    if num_auto_margins > 0 then
      let space_per_auto_margin := Div remaining_free_space (OfNat num_auto_margins)
      items.map (fun item =>
        let item :=
          if item.main.auto_margin_a then { item with main_auto_margin_size_a := space_per_auto_margin }
          else item
        if item.main.auto_margin_b then { item with main_auto_margin_size_b := space_per_auto_margin }
        else item)
    else JustifyItems justify_content remaining_free_space items
  else items

/-- The value `reverse_offset` of a line (source line 550) in `float`
arithmetic. -/
def MainReverseOffset (used_main_size : ℚ) (items : List FlexItem) : ℚ :=
  match items with
  | [] => used_main_size
  | first :: _ => Add (Add (Sub used_main_size first.used_main_size) first.main.margin_a) first.main.margin_b

/-- The main offset of an item before snapping, for a given cursor (source
lines 554 to 558) in `float` arithmetic. -/
def MainOffsetAt (direction_reverse : Bool) (reverse_offset cursor : ℚ) (item : FlexItem) : ℚ :=
  let main_offset := Add (Add cursor item.main.margin_a) item.main_auto_margin_size_a
  if direction_reverse then Sub reverse_offset main_offset else main_offset

/-- The values of `item.main_offset` that the offset loop of a line hands to
`Math::SnapToPixelGrid` (source lines 551 to 558) in `float` arithmetic. -/
def MainOffsetsBeforeSnap (direction_reverse : Bool) (reverse_offset : ℚ) : ℚ → List FlexItem → List ℚ
  | _, [] => []
  | cursor, item :: rest =>
    MainOffsetAt direction_reverse reverse_offset cursor item
      :: MainOffsetsBeforeSnap direction_reverse reverse_offset
          (Add cursor (Add (Add item.used_main_size item.main_auto_margin_size_a)
            item.main_auto_margin_size_b))
          rest

/-! ### Cross sizes, cross alignment and line packing -/

/-- The sum of the cross sizes of the lines (source lines 628 to 630 and 717 to
718) in `float` arithmetic. -/
def AccumulatedLinesCrossSize (lines : List FlexLine) : ℚ :=
  accumulate lines 0 (fun value line => Add value line.cross_size)

/-- Stretching of the lines over extra cross space (source lines 625 to 638) in
`float` arithmetic. -/
def StretchLines (cross_available_size : ℚ) (align_content : Style.AlignContent)
    (lines : List FlexLine) : List FlexLine :=
  if cross_available_size ≥ 0 ∧ align_content = Style.AlignContent.Stretch then
    let remaining_space := Sub cross_available_size (AccumulatedLinesCrossSize lines)
    if remaining_space > 0 then
      let add_space_per_line := Div remaining_space (OfNat lines.length)
      lines.map (fun line => { line with cross_size := Add line.cross_size add_space_per_line })
    else lines
  else lines

/-- The cross offset of an item within its line before snapping, and the
warning logged on the way, if any (source lines 663 to 709), in `float`
arithmetic. -/
def CrossOffset (wrap_reverse : Bool) (line_cross_size : ℚ) (item : FlexItem) : ℚ × List HostCall :=
  let remaining_space := Sub line_cross_size item.used_cross_size
  let aligned : ℚ × List HostCall :=
    if remaining_space > 0 then
      let num_auto_margins : Nat :=
        (if item.cross.auto_margin_a then 1 else 0) + (if item.cross.auto_margin_b then 1 else 0)
      if num_auto_margins > 0 then
        let space_per_auto_margin := Div remaining_space (OfNat num_auto_margins)
        (Add item.cross.margin_a (if item.cross.auto_margin_a then space_per_auto_margin else 0), [])
      else
        match item.align_self with
        | Style.AlignSelf.Auto => (item.cross.margin_a, [HostCall.Error])
        | Style.AlignSelf.FlexStart => (item.cross.margin_a, [])
        | Style.AlignSelf.FlexEnd => (Add item.cross.margin_a remaining_space, [])
        | Style.AlignSelf.Center => (Add item.cross.margin_a (Mul (1 / 2) remaining_space), [])
        | Style.AlignSelf.Baseline => (item.cross.margin_a, [HostCall.LogBaselineWarning])
        | Style.AlignSelf.Stretch => (item.cross.margin_a, [])
    else (item.cross.margin_a, [])
  if wrap_reverse then
    let reverse_offset :=
      Add (Add (Sub line_cross_size item.used_cross_size) item.cross.margin_a) item.cross.margin_b
    (Sub reverse_offset aligned.1, aligned.2)
  else aligned

/-- The used cross size of the container (source line 721), from the `float`
sum of the cross sizes of the lines. -/
def GetUsedCrossSize (cross_available_size : ℚ) (lines : List FlexLine) : ℚ :=
  if cross_available_size ≥ 0 then cross_available_size else AccumulatedLinesCrossSize lines

/-- The statements of the `SpaceBetween` case of the line packing proper (source
lines 734 to 747) in `float` arithmetic. -/
def SpaceBetweenLines (remaining_free_space : ℚ) (lines : List FlexLine) : List FlexLine :=
  let num_lines := lines.length
  if num_lines > 1 then
    let space_per_edge := Div remaining_free_space (OfNat (2 * num_lines - 2))
    mapWithIndex (fun i (line : FlexLine) =>
      let line := if i > 0 then { line with cross_spacing_a := space_per_edge } else line
      if i < num_lines - 1 then { line with cross_spacing_b := space_per_edge } else line)
      0 lines
  else lines

/-- Distribution of a positive remaining cross space by `align-content` (source
lines 732 to 771) in `float` arithmetic; the `SpaceBetween` case falls through
to `FlexStart`. -/
def PackLines (align_content : Style.AlignContent) (remaining_free_space : ℚ)
    (lines : List FlexLine) : List FlexLine :=
  let num_lines := lines.length
  let flex_start := modifyBack (fun line : FlexLine => { line with cross_spacing_b := remaining_free_space })
  match align_content with
  | Style.AlignContent.SpaceBetween => flex_start (SpaceBetweenLines remaining_free_space lines)
  | Style.AlignContent.FlexStart => flex_start lines
  | Style.AlignContent.FlexEnd =>
    modifyFront (fun line => { line with cross_spacing_a := remaining_free_space }) lines
  | Style.AlignContent.Center =>
    modifyBack (fun line : FlexLine => { line with cross_spacing_b := Mul (1 / 2) remaining_free_space })
      (modifyFront (fun line : FlexLine => { line with cross_spacing_a := Mul (1 / 2) remaining_free_space })
        lines)
  | Style.AlignContent.SpaceAround =>
    let space_per_edge := Div remaining_free_space (OfNat (2 * num_lines))
    lines.map (fun line => { line with cross_spacing_a := space_per_edge, cross_spacing_b := space_per_edge })
  | Style.AlignContent.Stretch => lines

/-- The cross spacing of the lines (source lines 725 to 772) in `float`
arithmetic. -/
def DistributeCrossSpace (align_content : Style.AlignContent) (used_cross_size : ℚ)
    (lines : List FlexLine) : List FlexLine :=
  let remaining_free_space := Sub used_cross_size (AccumulatedLinesCrossSize lines)
  if remaining_free_space > 0 then PackLines align_content remaining_free_space lines else lines

/-- The value `reverse_offset` of the line loop (source line 775) in `float`
arithmetic. -/
def CrossReverseOffset (used_cross_size : ℚ) (lines : List FlexLine) : ℚ :=
  match lines with
  | [] => used_cross_size
  | first :: _ => Sub used_cross_size first.cross_size

/-- The values of `line.cross_offset` that the line loop hands to
`Math::SnapToPixelGrid` (source lines 776 to 783) in `float` arithmetic. -/
def LineOffsetsBeforeSnap (wrap_reverse : Bool) (reverse_offset : ℚ) : ℚ → List FlexLine → List ℚ
  | _, [] => []
  | cursor, line :: rest =>
    (if wrap_reverse then Sub reverse_offset (Add cursor line.cross_spacing_a)
      else Add cursor line.cross_spacing_a)
      :: LineOffsetsBeforeSnap wrap_reverse reverse_offset
          (Add (Add (Add cursor line.cross_spacing_a) line.cross_size) line.cross_spacing_b) rest

end Binary32

/-! ## Concrete inputs used by the scenarios -/

namespace Scenario

/-- A computed style with the initial value of every property: a block in normal
flow, no margins, padding or borders, `auto` sizes and no maximum. -/
def computed : ComputedValues :=
  { display := Style.Display.Block, position := Style.Position.Static,
    overflow_x := Style.Overflow.Visible, overflow_y := Style.Overflow.Visible,
    flex_direction := Style.FlexDirection.Row, flex_wrap := Style.FlexWrap.Nowrap,
    justify_content := Style.JustifyContent.FlexStart, align_items := Style.AlignItems.Stretch,
    align_content := Style.AlignContent.Stretch,
    row_gap := ⟨Style.LengthPercentageType.Length, 0⟩,
    column_gap := ⟨Style.LengthPercentageType.Length, 0⟩,
    flex_shrink := 1, flex_grow := 0, flex_basis := ⟨Style.LengthType.Auto, 0⟩,
    align_self := Style.AlignSelf.Auto, box_sizing := Style.BoxSizing.ContentBox,
    width := ⟨Style.LengthType.Auto, 0⟩,
    min_width := ⟨Style.LengthPercentageType.Length, 0⟩,
    max_width := ⟨Style.LengthPercentageType.Length, -1⟩,
    height := ⟨Style.LengthType.Auto, 0⟩,
    min_height := ⟨Style.LengthPercentageType.Length, 0⟩,
    max_height := ⟨Style.LengthPercentageType.Length, -1⟩,
    padding_top := ⟨Style.LengthPercentageType.Length, 0⟩,
    padding_right := ⟨Style.LengthPercentageType.Length, 0⟩,
    padding_bottom := ⟨Style.LengthPercentageType.Length, 0⟩,
    padding_left := ⟨Style.LengthPercentageType.Length, 0⟩,
    margin_top := ⟨Style.LengthType.Length, 0⟩,
    margin_right := ⟨Style.LengthType.Length, 0⟩,
    margin_bottom := ⟨Style.LengthType.Length, 0⟩,
    margin_left := ⟨Style.LengthType.Length, 0⟩,
    border_top_width := 0, border_right_width := 0,
    border_bottom_width := 0, border_left_width := 0 }

/-- A child with the initial style. -/
def element (id : Nat) : Element := { id := id, computed := computed }

/-- Rounding to the nearest integer, halves away from zero. -/
def round (value : ℚ) : ℚ :=
  if 0 ≤ value then ((value + 1 / 2).floor : ℚ) else -(((-value + 1 / 2).floor : ℤ) : ℚ)

/-- A host for the scenarios: the intrinsic width of an element is its `id`, a
built box has the computed `width` and `height` where these are lengths and −1
where they are not, formatting gives an unknown height the value 20 and reports
the content size as overflow, and snapping rounds the two outer edges. -/
def host : Host :=
  { GetShrinkToFitWidth := fun element _ => element.id,
    BuildBox := fun _ element _ =>
      ⟨if element.computed.width.type = Style.LengthType.Length then element.computed.width.value else -1,
       if element.computed.height.type = Style.LengthType.Length then element.computed.height.value
       else -1⟩,
    FormatElement := fun _ _ content => ⟨content.x, if content.y < 0 then 20 else content.y⟩,
    FormatElementOverflow := fun _ _ content => content,
    SnapToPixelGrid := fun offset size => (round offset, round (offset + size) - round offset) }

/-- A child of fixed width and height with the given flex factors. -/
def sizedChild (id : Nat) (width height grow shrink : ℚ) : Element :=
  { id := id,
    computed := { computed with
      width := ⟨Style.LengthType.Length, width⟩, height := ⟨Style.LengthType.Length, height⟩,
      flex_grow := grow, flex_shrink := shrink } }

/-- A `LayoutFlex` object for a container of the given style, available content
size, size limits and children, placed at the origin. -/
def layout (style : ComputedValues) (available min_size max_size : Vector2f)
    (children : List Element) : LayoutFlex :=
  { element_flex := { computed := style, children := children },
    flex_available_content_size := available, flex_content_containing_block := available,
    flex_content_offset := ⟨0, 0⟩, flex_min_size := min_size, flex_max_size := max_size }

/-- A child of fixed width and height with the given grow factor and limits on
its width. -/
def boundedChild (id : Nat) (width height grow min_width max_width : ℚ) : Element :=
  { id := id,
    computed := { computed with
      width := ⟨Style.LengthType.Length, width⟩, height := ⟨Style.LengthType.Length, height⟩,
      min_width := ⟨Style.LengthPercentageType.Length, min_width⟩,
      max_width := ⟨Style.LengthPercentageType.Length, max_width⟩,
      flex_grow := grow } }

/-- A row of definite size 100 × 100 holding two children of width 0 with
`flex-grow: 1`, the first with `max-width: 10`, the second with `min-width: 95`. -/
def cappedFlooredRow : LayoutFlex :=
  layout computed ⟨100, 100⟩ ⟨0, 0⟩ ⟨FLT_MAX, FLT_MAX⟩
    [boundedChild 1 0 50 1 0 10, boundedChild 2 0 50 1 95 (-1)]

/-- The style of a container that scrolls in both directions. -/
def scrolling : ComputedValues :=
  { computed with overflow_x := Style.Overflow.Scroll, overflow_y := Style.Overflow.Scroll }

/-- The style of a container that wraps its items. -/
def wrapping : ComputedValues := { computed with flex_wrap := Style.FlexWrap.Wrap }

/-- A box of content size 300 × 200 at the origin. -/
def definiteBox : Box := { position := ⟨0, 0⟩, size := ⟨300, 200⟩ }

/-- A box of content width 300 and unknown height at the origin. -/
def autoHeightBox : Box := { position := ⟨0, 0⟩, size := ⟨300, -1⟩ }

/-- A box of unknown content width and content height 100 at the origin. -/
def autoWidthBox : Box := { position := ⟨0, 0⟩, size := ⟨-1, 100⟩ }

/-- An absolutely positioned child and a child with `display: none`. -/
def skippedChildren : List Element :=
  [{ id := 1, computed := { computed with position := Style.Position.Absolute } },
   { id := 2, computed := { computed with display := Style.Display.None } }]

/-- A wrapping row of definite size 250 × 300 holding six children of width
100. -/
def wrappingRowOfSix : LayoutFlex :=
  layout wrapping ⟨250, 300⟩ ⟨0, 0⟩ ⟨FLT_MAX, FLT_MAX⟩
    [sizedChild 1 100 50 0 1, sizedChild 2 100 50 0 1, sizedChild 3 100 50 0 1,
     sizedChild 4 100 50 0 1, sizedChild 5 100 50 0 1, sizedChild 6 100 50 0 1]

/-- A row of definite size 500 × 100 holding one child of width 100 with
`flex-grow: 1`. -/
def growingRow : LayoutFlex :=
  layout computed ⟨500, 100⟩ ⟨0, 0⟩ ⟨FLT_MAX, FLT_MAX⟩ [sizedChild 1 100 50 1 1]

/-- A flex item as the build step leaves it for a margin-less child whose inner
flex base size is `size`, with the given flex factors and no min/max
constraint in effect. -/
def item (id : Nat) (size grow shrink : ℚ) : FlexItem :=
  { element := element id, main := { max_size := FLT_MAX }, cross := { max_size := FLT_MAX },
    flex_grow_factor := grow, flex_shrink_factor := shrink,
    align_self := Style.AlignSelf.Stretch,
    inner_flex_base_size := size, flex_base_size := size, hypothetical_main_size := size }

/-- Five children: two in normal flow (1 and 4) around one with `display: none`
(2), one absolutely positioned (3) and one with fixed position (5). -/
def mixedChildren : List Element :=
  [sizedChild 1 100 50 0 1,
   { id := 2, computed := { computed with display := Style.Display.None } },
   { id := 3, computed := { computed with position := Style.Position.Absolute } },
   sizedChild 4 100 50 0 1,
   { id := 5, computed := { computed with position := Style.Position.Fixed } }]

/-- A row of definite size 300 × 100 around `mixedChildren`. -/
def mixedRow : LayoutFlex := layout computed ⟨300, 100⟩ ⟨0, 0⟩ ⟨FLT_MAX, FLT_MAX⟩ mixedChildren

/-- A child of size 100 × 50 with `margin-left: auto`. -/
def autoMarginChild : Element :=
  { id := 1,
    computed := { computed with
      width := ⟨Style.LengthType.Length, 100⟩, height := ⟨Style.LengthType.Length, 50⟩,
      margin_left := ⟨Style.LengthType.Auto, 0⟩ } }

/-- The style of a container with the given `justify-content`. -/
def justified (justify_content : Style.JustifyContent) : ComputedValues :=
  { computed with justify_content := justify_content }

/-- A row of definite size 400 × 100 around `autoMarginChild`. -/
def autoMarginRow (justify_content : Style.JustifyContent) : LayoutFlex :=
  layout (justified justify_content) ⟨400, 100⟩ ⟨0, 0⟩ ⟨FLT_MAX, FLT_MAX⟩ [autoMarginChild]

/-- The style of a container with the given `flex-direction`. -/
def directed (flex_direction : Style.FlexDirection) : ComputedValues :=
  { computed with flex_direction := flex_direction }

/-- A container of definite size 300 × 100 with the given direction holding a
child of width 50 and a child of width 100, neither with margins. -/
def unequalRow (flex_direction : Style.FlexDirection) : LayoutFlex :=
  layout (directed flex_direction) ⟨300, 100⟩ ⟨0, 0⟩ ⟨FLT_MAX, FLT_MAX⟩
    [sizedChild 1 50 50 0 1, sizedChild 2 100 50 0 1]

/-- The style of a container with the given `flex-wrap` and `align-content`. -/
def packed (flex_wrap : Style.FlexWrap) (align_content : Style.AlignContent) : ComputedValues :=
  { computed with flex_wrap := flex_wrap, align_content := align_content }

/-- A row of definite size 100 × 200 holding a child of size 100 × 50 and a child
of size 100 × 80: when it wraps, two lines of cross sizes 50 and 80. -/
def twoLines (flex_wrap : Style.FlexWrap) (align_content : Style.AlignContent) : LayoutFlex :=
  layout (packed flex_wrap align_content) ⟨100, 200⟩ ⟨0, 0⟩ ⟨FLT_MAX, FLT_MAX⟩
    [sizedChild 1 100 50 0 1, sizedChild 2 100 80 0 1]

/-- A child with `flex: 0 1 0` (the initial grow and shrink factors, a flex basis
of zero), height 50 and a padding of 10 on its left and right. -/
def zeroBasisChild : Element :=
  { id := 1,
    computed := { computed with
      flex_basis := ⟨Style.LengthType.Length, 0⟩, height := ⟨Style.LengthType.Length, 50⟩,
      padding_left := ⟨Style.LengthPercentageType.Length, 10⟩,
      padding_right := ⟨Style.LengthPercentageType.Length, 10⟩ } }

/-- A row of definite size 10 × 100 around `zeroBasisChild`, narrower than the
padding of the child. -/
def zeroBasisRow : LayoutFlex :=
  layout computed ⟨10, 100⟩ ⟨0, 0⟩ ⟨FLT_MAX, FLT_MAX⟩ [zeroBasisChild]

/-- A row of definite size 500 × 100 holding a child of width 100 with
`flex-grow: 0` and a child of width 100 with `flex-grow: 1`. -/
def mixedGrowRow : LayoutFlex :=
  layout computed ⟨500, 100⟩ ⟨0, 0⟩ ⟨FLT_MAX, FLT_MAX⟩
    [sizedChild 1 100 50 0 1, sizedChild 2 100 50 1 1]

/-- A child of size 100 × 50 with the given `align-self`, `margin-top` and
`margin-bottom`. -/
def alignedChild (align_self : Style.AlignSelf) (margin_top margin_bottom : Style.LengthPercentageAuto) :
    Element :=
  { id := 1,
    computed := { computed with
      width := ⟨Style.LengthType.Length, 100⟩, height := ⟨Style.LengthType.Length, 50⟩,
      align_self := align_self, margin_top := margin_top, margin_bottom := margin_bottom } }

/-- A row of definite size 300 × 100 with the given `flex-wrap` around an
`alignedChild`. -/
def alignedRow (flex_wrap : Style.FlexWrap) (align_self : Style.AlignSelf)
    (margin_top margin_bottom : Style.LengthPercentageAuto) : LayoutFlex :=
  layout { computed with flex_wrap := flex_wrap } ⟨300, 100⟩ ⟨0, 0⟩ ⟨FLT_MAX, FLT_MAX⟩
    [alignedChild align_self margin_top margin_bottom]

/-- A row of width 300 and unknown height, with a minimum height of 60, holding
one child of size 100 × 50. -/
def autoHeightRow : LayoutFlex :=
  layout computed ⟨300, -1⟩ ⟨0, 60⟩ ⟨FLT_MAX, FLT_MAX⟩ [sizedChild 1 100 50 0 1]

/-- A child of width 100 and `auto` height. -/
def autoHeightChild : Element :=
  { id := 1, computed := { computed with width := ⟨Style.LengthType.Length, 100⟩ } }

/-- A row of definite size 300 × 100 holding a child of `auto` height and a child
of height 50, both with the initial `align-self`, which resolves to `Stretch`. -/
def stretchRow : LayoutFlex :=
  layout computed ⟨300, 100⟩ ⟨0, 0⟩ ⟨FLT_MAX, FLT_MAX⟩ [autoHeightChild, sizedChild 2 100 50 0 1]

/-- A child of size 200 × 50 with `min-width: 150` and the initial flex factors
(`flex-grow: 0`, `flex-shrink: 1`). -/
def flooredChild : Element :=
  { id := 1,
    computed := { computed with
      width := ⟨Style.LengthType.Length, 200⟩, height := ⟨Style.LengthType.Length, 50⟩,
      min_width := ⟨Style.LengthPercentageType.Length, 150⟩ } }

/-- A row of definite size 100 × 100 holding `flooredChild` and a child with
`flex: 0 1 0` and a padding of 10 on its left and right. -/
def flooredAndZeroBasisRow : LayoutFlex :=
  layout computed ⟨100, 100⟩ ⟨0, 0⟩ ⟨FLT_MAX, FLT_MAX⟩ [flooredChild, { zeroBasisChild with id := 2 }]

end Scenario

/-! # Properties -/

/-! ## Sums -/

theorem accumulate_add_eq {α : Type} (f : α → ℚ) (xs : List α) (init : ℚ) :
    accumulate xs init (fun value x => value + f x) = init + (xs.map f).sum := by
  unfold accumulate
  induction xs generalizing init with
  | nil => simp
  | cons x xs ih => simp [List.foldl_cons, ih, add_assoc]

theorem AccumulatedHypotheticalMainSize_eq_sum (items : List FlexItem) :
    AccumulatedHypotheticalMainSize items = (items.map FlexItem.hypothetical_main_size).sum := by
  simp [AccumulatedHypotheticalMainSize, accumulate_add_eq]

theorem AccumulatedHypotheticalMainSize_append_singleton (items : List FlexItem) (item : FlexItem) :
    AccumulatedHypotheticalMainSize (items ++ [item])
      = AccumulatedHypotheticalMainSize items + item.hypothetical_main_size := by
  simp [AccumulatedHypotheticalMainSize_eq_sum]

/-! ## Line collection -/

theorem CollectWrappedLines_flatten (main_wrap_size : ℚ) (rest : List FlexItem) :
    ∀ (lines : List FlexLine) (line_items : List FlexItem) (cursor : ℚ),
      ((CollectWrappedLines main_wrap_size lines line_items cursor rest).map FlexLine.items).flatten
        = (lines.map FlexLine.items).flatten ++ line_items ++ rest := by
  induction rest with
  | nil =>
    intro lines line_items cursor
    cases line_items <;> simp [CollectWrappedLines]
  | cons item rest ih =>
    intro lines line_items cursor
    simp only [CollectWrappedLines]
    split
    · rw [ih]; simp
    · rw [ih]; simp

theorem CollectWrappedLines_items_ne_nil (main_wrap_size : ℚ) (rest : List FlexItem) :
    ∀ (lines : List FlexLine) (line_items : List FlexItem) (cursor : ℚ),
      (∀ line ∈ lines, line.items ≠ []) →
      ∀ line ∈ CollectWrappedLines main_wrap_size lines line_items cursor rest, line.items ≠ [] := by
  induction rest with
  | nil =>
    intro lines line_items cursor h
    cases line_items with
    | nil => simpa [CollectWrappedLines] using h
    | cons a l =>
      simp only [CollectWrappedLines]
      intro line hl
      simp at hl
      rcases hl with hl | hl
      · exact h line hl
      · subst hl; simp
  | cons item rest ih =>
    intro lines line_items cursor h
    simp only [CollectWrappedLines]
    split
    · rename_i hc
      apply ih
      intro line hl
      simp at hl
      rcases hl with hl | hl
      · exact h line hl
      · subst hl
        cases line_items with
        | nil => simp at hc
        | cons a l => simp
    · exact ih _ _ _ h

theorem CollectWrappedLines_greedy (w : ℚ) (rest : List FlexItem) :
    ∀ (lines : List FlexLine) (line_items : List FlexItem) (cursor : ℚ),
      cursor = AccumulatedHypotheticalMainSize line_items →
      (line_items = [] → lines = []) →
      (2 ≤ line_items.length → AccumulatedHypotheticalMainSize line_items ≤ w) →
      (∀ l ∈ lines, 2 ≤ l.items.length → AccumulatedHypotheticalMainSize l.items ≤ w) →
      List.Chain' (fun l1 l2 : FlexLine => ∀ first ∈ l2.items.head?,
          AccumulatedHypotheticalMainSize l1.items + first.hypothetical_main_size > w)
        (lines ++ [{ items := line_items }]) →
      (∀ l ∈ CollectWrappedLines w lines line_items cursor rest,
          2 ≤ l.items.length → AccumulatedHypotheticalMainSize l.items ≤ w) ∧
        List.Chain' (fun l1 l2 : FlexLine => ∀ first ∈ l2.items.head?,
          AccumulatedHypotheticalMainSize l1.items + first.hypothetical_main_size > w)
          (CollectWrappedLines w lines line_items cursor rest) := by
  induction rest with
  | nil =>
    intro lines line_items cursor hc hl h2 hlines hchain
    cases line_items with
    | nil =>
      have := hl rfl
      subst this
      simp [CollectWrappedLines]
    | cons a l =>
      simp only [CollectWrappedLines]
      refine ⟨?_, by simpa using hchain⟩
      intro line hmem
      simp at hmem
      rcases hmem with hmem | hmem
      · exact hlines line hmem
      · subst hmem; simpa using h2
  | cons item rest ih =>
    intro lines line_items cursor hc hl h2 hlines hchain
    simp only [CollectWrappedLines]
    split
    · rename_i hbreak
      have hne : line_items ≠ [] := by
        intro h; subst h; simp at hbreak
      apply ih
      · simp [AccumulatedHypotheticalMainSize_eq_sum]
      · simp
      · simp
      · intro line hmem
        simp at hmem
        rcases hmem with hmem | hmem
        · exact hlines line hmem
        · subst hmem; simpa using h2
      · rw [List.chain'_append]
        refine ⟨hchain, by simp, ?_⟩
        intro x hx y hy first hfirst
        simp at hx hy
        subst hx; subst hy
        simp at hfirst
        subst hfirst
        simp only [gt_iff_lt]
        rw [← hc]
        exact hbreak.2
    · rename_i hno
      apply ih
      · rw [AccumulatedHypotheticalMainSize_append_singleton, hc]
      · simp
      · intro hlen
        rw [AccumulatedHypotheticalMainSize_append_singleton, ← hc]
        have hne : line_items ≠ [] := by
          intro h; subst h; simp at hlen
        by_contra hgt
        apply hno
        refine ⟨by simpa using hne, lt_of_not_ge hgt⟩
      · exact hlines
      · rw [List.chain'_append] at hchain ⊢
        refine ⟨hchain.1, by simp, ?_⟩
        intro x hx y hy first hfirst
        simp at hy
        subst hy
        cases line_items with
        | nil =>
          have := hl rfl
          subst this
          simp at hx
        | cons a l =>
          simp at hfirst
          subst hfirst
          exact hchain.2.2 x hx { items := a :: l } (by simp) a (by simp)

/-- The line collection is an order-preserving partition.  For every non-empty
item list, the lines collected hold the items in source order (their
concatenation is the item list), every line is non-empty, there is at least one
line, and a `Nowrap` container (`flex_single_line`) has exactly one line holding
all the items. -/
theorem CollectLines_partition (flex_single_line : Bool) (main_wrap_size : ℚ)
    (items : List FlexItem) (h : items ≠ []) :
    ((CollectLines flex_single_line main_wrap_size items).lines.map FlexLine.items).flatten = items
      ∧ (∀ line ∈ (CollectLines flex_single_line main_wrap_size items).lines, line.items ≠ [])
      ∧ (CollectLines flex_single_line main_wrap_size items).lines ≠ []
      ∧ (flex_single_line = true →
          (CollectLines flex_single_line main_wrap_size items).lines.map FlexLine.items = [items]) := by
  have hflat : ((CollectLines flex_single_line main_wrap_size items).lines.map FlexLine.items).flatten
      = items := by
    cases flex_single_line
    · simp only [CollectLines, List.map_map]
      have := CollectWrappedLines_flatten main_wrap_size items [] [] 0
      simpa [Function.comp_def] using this
    · simp [CollectLines]
  refine ⟨hflat, ?_, ?_, ?_⟩
  · cases flex_single_line
    · simp only [CollectLines]
      intro line hline
      simp at hline
      obtain ⟨raw, hraw, rfl⟩ := hline
      exact CollectWrappedLines_items_ne_nil main_wrap_size items [] [] 0 (by simp) raw hraw
    · simpa [CollectLines] using h
  · intro hnil
    rw [hnil] at hflat
    simp at hflat
    exact h hflat
  · intro hs
    subst hs
    simp [CollectLines]

/-- The wrapping loop packs greedily.  In a wrapping container every line
records the sum of the hypothetical main sizes of its items; a line of at least
two items has an
accumulated size of at most `main_wrap_size`; and for every two consecutive
lines the accumulated size of the earlier one plus the hypothetical main size of
the first item of the later one exceeds `main_wrap_size`. -/
theorem CollectLines_greedy (main_wrap_size : ℚ) (items : List FlexItem) :
    (∀ line ∈ (CollectLines false main_wrap_size items).lines,
        line.accumulated_hypothetical_main_size = (line.items.map FlexItem.hypothetical_main_size).sum)
      ∧ (∀ line ∈ (CollectLines false main_wrap_size items).lines,
        2 ≤ line.items.length → line.accumulated_hypothetical_main_size ≤ main_wrap_size)
      ∧ (∀ (before : List FlexLine) (earlier later : FlexLine) (after : List FlexLine),
        (CollectLines false main_wrap_size items).lines = before ++ earlier :: later :: after →
        ∀ first ∈ later.items.head?,
          earlier.accumulated_hypothetical_main_size + first.hypothetical_main_size > main_wrap_size) := by
  have hraw := CollectWrappedLines_greedy main_wrap_size items [] [] 0
    (by simp [AccumulatedHypotheticalMainSize, accumulate]) (by simp) (by simp) (by simp) (by simp)
  refine ⟨?_, ?_, ?_⟩
  · intro line hline
    simp only [CollectLines] at hline
    simp at hline
    obtain ⟨raw, _, rfl⟩ := hline
    simp [AccumulatedHypotheticalMainSize_eq_sum]
  · intro line hline hlen
    simp only [CollectLines] at hline
    simp at hline
    obtain ⟨raw, hmem, rfl⟩ := hline
    exact hraw.1 raw hmem hlen
  · intro before earlier later after hsplit first hfirst
    simp only [CollectLines] at hsplit
    simp at hsplit
    obtain ⟨rawBefore, rawRest, hrawSplit, -, hrest⟩ := List.map_eq_append_iff.mp hsplit
    obtain ⟨rawEarlier, rawRest2, rfl, rfl, hrest2⟩ := List.map_eq_cons_iff.mp hrest
    obtain ⟨rawLater, rawAfter, rfl, rfl, -⟩ := List.map_eq_cons_iff.mp hrest2
    have hchain := hraw.2
    rw [hrawSplit, List.chain'_append_cons_cons] at hchain
    exact hchain.2.1 first hfirst

/-! ## Flexible lengths: the shape of one iteration -/

theorem accumulate_cond_add_eq {α : Type} (c : α → Bool) (f : α → ℚ) (xs : List α) (init : ℚ) :
    accumulate xs init (fun total x => if c x then total + f x else total)
      = init + (xs.map (fun x => if c x then f x else 0)).sum := by
  unfold accumulate
  induction xs generalizing init with
  | nil => simp
  | cons x xs ih =>
    simp only [List.foldl_cons, List.map_cons, List.sum_cons]
    rw [ih]
    split <;> ring

theorem TotalMinMaxViolation_eq_sum (items : List FlexItem) :
    TotalMinMaxViolation items
      = (items.map (fun item => if item.frozen then 0 else ViolationDiff item)).sum := by
  unfold TotalMinMaxViolation
  rw [accumulate_cond_add_eq (fun item => !item.frozen) ViolationDiff]
  simp only [zero_add]
  congr 1
  apply List.map_congr_left
  intro a _
  cases a.frozen <;> simp

theorem RemainingFreeSpace_eq_sum (used_main_size : ℚ) (items : List FlexItem) :
    RemainingFreeSpace used_main_size items
      = used_main_size
        - (items.map (fun item => if item.frozen then item.target_main_size else item.flex_base_size)).sum := by
  simp [RemainingFreeSpace, accumulate_add_eq]

theorem FlexFactorSum_eq_sum (flex_mode_grow : Bool) (items : List FlexItem) :
    FlexFactorSum flex_mode_grow items
      = (items.map (fun item => if item.frozen then 0 else FlexFactor flex_mode_grow item)).sum := by
  simp [FlexFactorSum, accumulate_add_eq]

theorem ScaledFlexShrinkFactorSum_eq_sum (items : List FlexItem) :
    ScaledFlexShrinkFactorSum items
      = (items.map (fun item =>
          if item.frozen then 0 else item.flex_shrink_factor * item.inner_flex_base_size)).sum := by
  simp [ScaledFlexShrinkFactorSum, accumulate_add_eq]

theorem exists_pos_of_sum_pos (xs : List ℚ) (h : 0 < xs.sum) : ∃ x ∈ xs, 0 < x := by
  induction xs with
  | nil => simp at h
  | cons x xs ih =>
    by_cases hx : 0 < x
    · exact ⟨x, by simp, hx⟩
    · have : 0 < xs.sum := by
        simp only [List.sum_cons] at h
        linarith [not_lt.mp hx]
      obtain ⟨y, hy, hpos⟩ := ih this
      exact ⟨y, by simp [hy], hpos⟩

theorem exists_neg_of_sum_neg (xs : List ℚ) (h : xs.sum < 0) : ∃ x ∈ xs, x < 0 := by
  induction xs with
  | nil => simp at h
  | cons x xs ih =>
    by_cases hx : x < 0
    · exact ⟨x, by simp, hx⟩
    · have : xs.sum < 0 := by
        simp only [List.sum_cons] at h
        linarith [not_lt.mp hx]
      obtain ⟨y, hy, hneg⟩ := ih this
      exact ⟨y, by simp [hy], hneg⟩

/-- The distribution step acts item by item, touching only the target of
unfrozen items. -/
theorem DistributeFreeSpace_eq_map (flex_mode_grow : Bool) (flex_factor_sum remaining_free_space : ℚ)
    (items : List FlexItem) :
    ∃ D : FlexItem → FlexItem,
      DistributeFreeSpace flex_mode_grow flex_factor_sum remaining_free_space items = items.map D
        ∧ (∀ a, a.frozen = true → D a = a)
        ∧ (∀ a, (D a).EraseTarget = a.EraseTarget) := by
  unfold DistributeFreeSpace
  split
  · split
    · refine ⟨GrowItem flex_factor_sum remaining_free_space, rfl, ?_, ?_⟩
      · intro a ha; simp [GrowItem, ha]
      · intro a; unfold GrowItem; split <;> rfl
    · refine ⟨ShrinkItem (ScaledFlexShrinkFactorSum items) remaining_free_space, rfl, ?_, ?_⟩
      · intro a ha; simp [ShrinkItem, ha]
      · intro a; unfold ShrinkItem; split <;> rfl
  · exact ⟨id, by simp, by simp, by intro a; rfl⟩

/-- One iteration acts item by item: distribution, clamp, freeze. -/
theorem ResolveIteration_eq_map (used_main_size : ℚ) (flex_mode_grow : Bool) (initial_free_space : ℚ)
    (items : List FlexItem) :
    ∃ D : FlexItem → FlexItem,
      ResolveIteration used_main_size flex_mode_grow initial_free_space items
          = items.map (fun a => FreezeItem (TotalMinMaxViolation (items.map D)) (ClampItem (D a)))
        ∧ DistributeFreeSpace flex_mode_grow (FlexFactorSum flex_mode_grow items)
            (ScaledRemainingFreeSpace used_main_size flex_mode_grow initial_free_space items) items
          = items.map D
        ∧ (∀ a, a.frozen = true → D a = a)
        ∧ (∀ a, (D a).EraseTarget = a.EraseTarget) := by
  obtain ⟨D, hD, hfrozen, hshape⟩ := DistributeFreeSpace_eq_map flex_mode_grow
    (FlexFactorSum flex_mode_grow items)
    (ScaledRemainingFreeSpace used_main_size flex_mode_grow initial_free_space items) items
  refine ⟨D, ?_, hD, hfrozen, hshape⟩
  simp only [ResolveIteration, hD, List.map_map]
  rfl

theorem FreezeItem_ClampItem_frozen (total : ℚ) (a : FlexItem) (h : a.frozen = true) :
    FreezeItem total (ClampItem a) = a := by
  cases a
  simp only at h
  subst h
  simp only [FreezeItem, ClampItem, Bool.not_true, Bool.false_eq_true, if_false, Bool.true_or]
  split
  · rfl
  · split <;> rfl

theorem FreezeItem_frozen_of_frozen (total : ℚ) (a : FlexItem) (h : a.frozen = true) :
    (FreezeItem total a).frozen = true := by
  unfold FreezeItem
  split
  · simp [h]
  · split <;> simp [h]

theorem ClampItem_frozen (a : FlexItem) : (ClampItem a).frozen = a.frozen := by
  unfold ClampItem
  split <;> rfl

/-- The per-item effect of an iteration on a frozen item: none. -/
theorem iterate_frozen (D : FlexItem → FlexItem) (hD : ∀ a, a.frozen = true → D a = a) (total : ℚ)
    (a : FlexItem) (h : a.frozen = true) : FreezeItem total (ClampItem (D a)) = a := by
  rw [hD a h]
  exact FreezeItem_ClampItem_frozen total a h

/-! ## Flexible lengths: progress and termination -/

theorem shape_frozen (D : FlexItem → FlexItem)
    (hshape : ∀ a, (D a).EraseTarget = a.EraseTarget) (a : FlexItem) :
    (D a).frozen = a.frozen := by
  have h := congrArg FlexItem.frozen (hshape a)
  exact h

theorem FreezeItem_ClampItem_of_pos (total : ℚ) (b : FlexItem) (hb : b.frozen = false)
    (htotal : 0 < total) (hdiff : 0 < ViolationDiff b) :
    (FreezeItem total (ClampItem b)).frozen = true := by
  simp [FreezeItem, ClampItem, hb, htotal, hdiff]

theorem FreezeItem_ClampItem_of_neg (total : ℚ) (b : FlexItem) (hb : b.frozen = false)
    (htotal : total < 0) (hdiff : ViolationDiff b < 0) :
    (FreezeItem total (ClampItem b)).frozen = true := by
  have h1 : ¬ (0 < total) := not_lt.mpr (le_of_lt htotal)
  have h2 : ¬ (0 < ViolationDiff b) := not_lt.mpr (le_of_lt hdiff)
  simp [FreezeItem, ClampItem, hb, htotal, hdiff, h1, h2]

theorem FreezeItem_of_zero (total : ℚ) (b : FlexItem) (h1 : ¬ 0 < total) (h2 : ¬ total < 0) :
    (FreezeItem total b).frozen = true := by
  simp [FreezeItem, h1, h2]

/-- Some unfrozen item is frozen by an iteration that starts with an unfrozen
item. -/
theorem iterate_progress (D : FlexItem → FlexItem)
    (hshape : ∀ a, (D a).EraseTarget = a.EraseTarget)
    (items : List FlexItem) (h : AllFrozen items = false) :
    ∃ a ∈ items, a.frozen = false
      ∧ (FreezeItem (TotalMinMaxViolation (items.map D)) (ClampItem (D a))).frozen = true := by
  have htotal := TotalMinMaxViolation_eq_sum (items.map D)
  rw [List.map_map] at htotal
  rcases lt_trichotomy (TotalMinMaxViolation (items.map D)) 0 with hneg | hzero | hpos
  · rw [htotal] at hneg
    obtain ⟨x, hx, hxneg⟩ := exists_neg_of_sum_neg _ hneg
    simp only [List.mem_map, Function.comp_apply] at hx
    obtain ⟨a, ha, rfl⟩ := hx
    have hfa : (D a).frozen = false := by
      by_contra hcon
      simp only [Bool.not_eq_false] at hcon
      simp [hcon] at hxneg
    simp only [hfa, Bool.false_eq_true, if_false] at hxneg
    refine ⟨a, ha, by rw [← shape_frozen D hshape a]; exact hfa, ?_⟩
    apply FreezeItem_ClampItem_of_neg _ _ hfa _ hxneg
    rw [htotal]; exact hneg
  · unfold AllFrozen at h
    rw [List.all_eq_false] at h
    obtain ⟨a, ha, hfa⟩ := h
    simp only [Bool.not_eq_true] at hfa
    refine ⟨a, ha, hfa, ?_⟩
    apply FreezeItem_of_zero <;> simp [hzero]
  · rw [htotal] at hpos
    obtain ⟨x, hx, hxpos⟩ := exists_pos_of_sum_pos _ hpos
    simp only [List.mem_map, Function.comp_apply] at hx
    obtain ⟨a, ha, rfl⟩ := hx
    have hfa : (D a).frozen = false := by
      by_contra hcon
      simp only [Bool.not_eq_false] at hcon
      simp [hcon] at hxpos
    simp only [hfa, Bool.false_eq_true, if_false] at hxpos
    refine ⟨a, ha, by rw [← shape_frozen D hshape a]; exact hfa, ?_⟩
    apply FreezeItem_ClampItem_of_pos _ _ hfa _ hxpos
    rw [htotal]; exact hpos

theorem countP_map_lt {α : Type} (p : α → Bool) (G : α → α) (l : List α)
    (hmono : ∀ a ∈ l, p (G a) = true → p a = true)
    (hprog : ∃ a ∈ l, p a = true ∧ p (G a) = false) :
    (l.map G).countP p < l.countP p := by
  induction l with
  | nil => simp at hprog
  | cons x xs ih =>
    have hle : ∀ ys : List α, (∀ a ∈ ys, p (G a) = true → p a = true) →
        (ys.map G).countP p ≤ ys.countP p := by
      intro ys
      induction ys with
      | nil => simp
      | cons y ys ihy =>
        intro hy
        have hrest := ihy (fun a ha => hy a (by simp [ha]))
        have hyy := hy y (by simp)
        simp only [List.map_cons, List.countP_cons]
        cases hgy : p (G y)
        · simp only [Bool.false_eq_true, if_false, add_zero]
          exact le_trans hrest (Nat.le_add_right _ _)
        · simp only [hyy hgy, if_true]
          omega
    have hxs := hle xs (fun a ha => hmono a (by simp [ha]))
    obtain ⟨a, ha, hpa, hga⟩ := hprog
    simp only [List.map_cons, List.countP_cons]
    simp only [List.mem_cons] at ha
    rcases ha with rfl | ha
    · simp only [hpa, hga, Bool.false_eq_true, if_false, if_true]
      omega
    · have hlt := ih (fun b hb => hmono b (by simp [hb])) ⟨a, ha, hpa, hga⟩
      have hx := hmono x (by simp)
      cases hgx : p (G x)
      · simp only [Bool.false_eq_true, if_false, add_zero]
        omega
      · simp only [hx hgx, if_true]
        omega

/-- An iteration started with an unfrozen item leaves fewer unfrozen items. -/
theorem ResolveIteration_countP_lt (used_main_size : ℚ) (flex_mode_grow : Bool)
    (initial_free_space : ℚ) (items : List FlexItem) (h : AllFrozen items = false) :
    (ResolveIteration used_main_size flex_mode_grow initial_free_space items).countP
        (fun item => !item.frozen)
      < items.countP (fun item => !item.frozen) := by
  obtain ⟨D, hstep, -, hfrozen, hshape⟩ :=
    ResolveIteration_eq_map used_main_size flex_mode_grow initial_free_space items
  rw [hstep]
  apply countP_map_lt
  · intro a _ hga
    cases hfa : a.frozen
    · rfl
    · rw [iterate_frozen D hfrozen (TotalMinMaxViolation (items.map D)) a hfa, hfa] at hga
      exact hga
  · obtain ⟨a, ha, hfa, hga⟩ := iterate_progress D hshape items h
    exact ⟨a, ha, by simp [hfa], by simp [hga]⟩

theorem AllFrozen_iff_countP (items : List FlexItem) :
    AllFrozen items = true ↔ items.countP (fun item => !item.frozen) = 0 := by
  unfold AllFrozen
  rw [List.countP_eq_zero, List.all_eq_true]
  simp

theorem ResolveIteration_length (used_main_size : ℚ) (flex_mode_grow : Bool)
    (initial_free_space : ℚ) (items : List FlexItem) :
    (ResolveIteration used_main_size flex_mode_grow initial_free_space items).length = items.length := by
  obtain ⟨D, hstep, -⟩ := ResolveIteration_eq_map used_main_size flex_mode_grow initial_free_space items
  rw [hstep, List.length_map]

/-- The loop exits within as many iterations as there are unfrozen items, and a
property kept by every iteration holds on exit. -/
theorem ResolveLoop_terminates (used_main_size : ℚ) (flex_mode_grow : Bool) (initial_free_space : ℚ)
    (P : List FlexItem → Prop)
    (hP : ∀ items, AllFrozen items = false → P items →
      P (ResolveIteration used_main_size flex_mode_grow initial_free_space items)) :
    ∀ (fuel : Nat) (items : List FlexItem), items.countP (fun item => !item.frozen) ≤ fuel → P items →
      ∃ result iterations,
        ResolveLoop used_main_size flex_mode_grow initial_free_space fuel items = some (result, iterations)
          ∧ iterations ≤ items.countP (fun item => !item.frozen)
          ∧ AllFrozen result = true ∧ result.length = items.length ∧ P result := by
  intro fuel
  induction fuel with
  | zero =>
    intro items hcount hPi
    have hall : AllFrozen items = true := (AllFrozen_iff_countP items).mpr (Nat.le_zero.mp hcount)
    refine ⟨items, 0, ?_, Nat.zero_le _, hall, rfl, hPi⟩
    unfold ResolveLoop
    simp [hall]
  | succ fuel ih =>
    intro items hcount hPi
    cases hall : AllFrozen items
    · have hlt := ResolveIteration_countP_lt used_main_size flex_mode_grow initial_free_space items hall
      obtain ⟨result, iterations, hloop, hiter, hres, hlen, hPr⟩ :=
        ih (ResolveIteration used_main_size flex_mode_grow initial_free_space items) (by omega)
          (hP items hall hPi)
      refine ⟨result, iterations + 1, ?_, by omega, hres, ?_, hPr⟩
      · rw [ResolveLoop]
        simp [hall, hloop]
      · rw [hlen, ResolveIteration_length]
    · refine ⟨items, 0, ?_, Nat.zero_le _, hall, rfl, hPi⟩
      unfold ResolveLoop
      simp [hall]

/-- A larger budget does not change the outcome of the loop. -/
theorem ResolveLoop_fuel_mono (used_main_size : ℚ) (flex_mode_grow : Bool) (initial_free_space : ℚ) :
    ∀ (fuel : Nat) (items : List FlexItem) (outcome : List FlexItem × Nat),
      ResolveLoop used_main_size flex_mode_grow initial_free_space fuel items = some outcome →
      ∀ fuel', fuel ≤ fuel' →
        ResolveLoop used_main_size flex_mode_grow initial_free_space fuel' items = some outcome := by
  intro fuel
  induction fuel with
  | zero =>
    intro items outcome h fuel' _
    unfold ResolveLoop at h
    cases hall : AllFrozen items
    · simp [hall] at h
    · simp only [hall, if_true] at h
      unfold ResolveLoop
      simp [hall, h]
  | succ fuel ih =>
    intro items outcome h fuel' hle
    cases hall : AllFrozen items
    · rw [ResolveLoop] at h
      simp only [hall, Bool.false_eq_true, if_false] at h
      obtain ⟨fuel'', rfl⟩ : ∃ k, fuel' = k + 1 := ⟨fuel' - 1, by omega⟩
      rw [ResolveLoop]
      simp only [hall, Bool.false_eq_true, if_false]
      cases hinner : ResolveLoop used_main_size flex_mode_grow initial_free_space fuel
          (ResolveIteration used_main_size flex_mode_grow initial_free_space items) with
      | none => simp [hinner] at h
      | some inner =>
        rw [ih _ inner hinner fuel'' (by omega)]
        simpa [hinner] using h
    · unfold ResolveLoop at h ⊢
      simp only [hall, if_true] at h ⊢
      exact h

/-! ## Flexible lengths: what an iteration leaves of an item -/

theorem FreezeItem_EraseResolution (total : ℚ) (b : FlexItem) :
    (FreezeItem total b).EraseResolution = b.EraseResolution := by
  unfold FreezeItem
  split
  · rfl
  · split <;> rfl

theorem FreezeItem_target (total : ℚ) (b : FlexItem) :
    (FreezeItem total b).target_main_size = b.target_main_size := by
  unfold FreezeItem
  split
  · rfl
  · split <;> rfl

theorem ClampItem_EraseResolution (b : FlexItem) :
    (ClampItem b).EraseResolution = b.EraseResolution := by
  unfold ClampItem
  split <;> rfl

theorem EraseResolution_of_EraseTarget (a b : FlexItem) (h : a.EraseTarget = b.EraseTarget) :
    a.EraseResolution = b.EraseResolution := by
  have : a.EraseResolution = a.EraseTarget.EraseResolution := rfl
  rw [this, h]
  rfl

/-- An iteration changes nothing of an item but its frozen flag, its violation
and its target main size. -/
theorem iterate_EraseResolution (D : FlexItem → FlexItem)
    (hshape : ∀ a, (D a).EraseTarget = a.EraseTarget) (total : ℚ) (a : FlexItem) :
    (FreezeItem total (ClampItem (D a))).EraseResolution = a.EraseResolution := by
  rw [FreezeItem_EraseResolution, ClampItem_EraseResolution]
  exact EraseResolution_of_EraseTarget _ _ (hshape a)

theorem Clamp_mem (value min max : ℚ) (h : min ≤ max) :
    min ≤ Math.Clamp value min max ∧ Math.Clamp value min max ≤ max := by
  unfold Math.Clamp
  split
  · exact ⟨le_refl _, h⟩
  · split
    · exact ⟨h, le_refl _⟩
    · constructor <;> linarith

theorem InitializeItem_EraseResolution (flex_mode_grow : Bool) (a : FlexItem) :
    (InitializeItem flex_mode_grow a).EraseResolution = a.EraseResolution := by
  unfold InitializeItem
  simp only
  split <;> rfl

/-- An item as built that is frozen at initialisation sits at its hypothetical
main size. -/
theorem InitializeItem_frozen (flex_mode_grow : Bool) (a : FlexItem) (ha : a.frozen = false)
    (h : (InitializeItem flex_mode_grow a).frozen = true) :
    (InitializeItem flex_mode_grow a).target_main_size = a.hypothetical_main_size := by
  unfold InitializeItem at h ⊢
  simp only at h ⊢
  split
  · rfl
  · rename_i hc
    simp only [hc, if_false] at h
    rw [ha] at h
    exact absurd h (by simp)

/-! ## Flexible lengths: the resolution of a line -/

theorem zip_map_self_right {α β : Type} (G : α → β) (l : List α) :
    l.zip (l.map G) = l.map (fun a => (a, G a)) := by
  induction l with
  | nil => rfl
  | cons x xs ih => simp [ih]

theorem InitializeItems_length (used_main_size : ℚ) (line : FlexLine) :
    (InitializeItems used_main_size line).length = line.items.length := by
  simp [InitializeItems]

/-- The resolution of a line always exits its loop, within as many iterations as
the line has items, with every item frozen; a property of the item list that
holds after initialisation and is kept by every iteration holds on exit. -/
theorem ResolveFlexibleLengths_spec (used_main_size : ℚ) (line : FlexLine)
    (P : List FlexItem → Prop) (hinit : P (InitializeItems used_main_size line))
    (hstep : ∀ items, AllFrozen items = false → P items →
      P (ResolveIteration used_main_size (FlexModeGrow used_main_size line)
        (RemainingFreeSpace used_main_size (InitializeItems used_main_size line)) items)) :
    ∃ items iterations,
      (∀ fuel, line.items.length ≤ fuel →
          ResolveFlexibleLengthsWith fuel used_main_size line
            = some ({ line with items := SetUsedMainSizes items }, iterations))
        ∧ ResolveFlexibleLengths used_main_size line
            = { line with items := SetUsedMainSizes items }
        ∧ iterations ≤ line.items.length
        ∧ items.length = line.items.length
        ∧ AllFrozen items = true
        ∧ P items := by
  have hcount : (InitializeItems used_main_size line).countP (fun item => !item.frozen)
      ≤ line.items.length := by
    rw [← InitializeItems_length used_main_size line]
    exact List.countP_le_length _
  obtain ⟨items, iterations, hloop, hiter, hall, hlen, hP⟩ :=
    ResolveLoop_terminates used_main_size (FlexModeGrow used_main_size line)
      (RemainingFreeSpace used_main_size (InitializeItems used_main_size line)) P hstep
      line.items.length (InitializeItems used_main_size line) hcount hinit
  have hwith : ∀ fuel, line.items.length ≤ fuel →
      ResolveFlexibleLengthsWith fuel used_main_size line
        = some ({ line with items := SetUsedMainSizes items }, iterations) := by
    intro fuel hfuel
    have := ResolveLoop_fuel_mono used_main_size (FlexModeGrow used_main_size line)
      (RemainingFreeSpace used_main_size (InitializeItems used_main_size line))
      line.items.length _ _ hloop fuel hfuel
    simp [ResolveFlexibleLengthsWith, this]
  refine ⟨items, iterations, hwith, ?_, le_trans hiter hcount, ?_, hall, hP⟩
  · simp [ResolveFlexibleLengths, hwith line.items.length (le_refl _)]
  · rw [hlen, InitializeItems_length]

/-- Claim C2.  The resolution of the flexible lengths of a line always terminates
and freezes everything.  First: an iteration of the loop run on any item list
with an unfrozen item keeps the number of items, leaves every frozen item
frozen, and freezes at least one item that was not.  Second: for every line of
`n` items the loop exits after at most `n` iterations (hence at most `n + 1`),
whatever budget of at least `n` iterations it is given, and on exit every item
is frozen with `used_main_size` equal to `target_main_size`. -/
theorem ResolveFlexibleLengths_terminates (used_main_size : ℚ) (line : FlexLine) :
    (∀ (flex_mode_grow : Bool) (initial_free_space : ℚ) (items : List FlexItem),
        AllFrozen items = false →
        (ResolveIteration used_main_size flex_mode_grow initial_free_space items).length = items.length
          ∧ (∀ pair ∈ items.zip (ResolveIteration used_main_size flex_mode_grow initial_free_space items),
              pair.1.frozen = true → pair.2.frozen = true)
          ∧ (∃ pair ∈ items.zip (ResolveIteration used_main_size flex_mode_grow initial_free_space items),
              pair.1.frozen = false ∧ pair.2.frozen = true))
      ∧ ∃ result iterations,
          (∀ fuel, line.items.length ≤ fuel →
              ResolveFlexibleLengthsWith fuel used_main_size line = some (result, iterations))
            ∧ ResolveFlexibleLengths used_main_size line = result
            ∧ iterations ≤ line.items.length
            ∧ iterations ≤ line.items.length + 1
            ∧ result.items.length = line.items.length
            ∧ ∀ item ∈ result.items, item.frozen = true ∧ item.used_main_size = item.target_main_size := by
  constructor
  · intro flex_mode_grow initial_free_space items hall
    obtain ⟨D, hstep, -, hfrozen, hshape⟩ :=
      ResolveIteration_eq_map used_main_size flex_mode_grow initial_free_space items
    refine ⟨ResolveIteration_length _ _ _ _, ?_, ?_⟩
    · intro pair hpair hf
      rw [hstep, zip_map_self_right] at hpair
      simp only [List.mem_map] at hpair
      obtain ⟨a, -, rfl⟩ := hpair
      simp only at hf ⊢
      rw [iterate_frozen D hfrozen _ a hf]
      exact hf
    · obtain ⟨a, ha, hfa, hga⟩ := iterate_progress D hshape items hall
      refine ⟨(a, FreezeItem (TotalMinMaxViolation (items.map D)) (ClampItem (D a))), ?_, hfa, hga⟩
      rw [hstep, zip_map_self_right]
      exact List.mem_map.mpr ⟨a, ha, rfl⟩
  · obtain ⟨items, iterations, hwith, hres, hiter, hlen, hall, -⟩ :=
      ResolveFlexibleLengths_spec used_main_size line (fun _ => True) trivial (fun _ _ _ => trivial)
    refine ⟨_, iterations, hwith, hres, hiter, Nat.le_succ_of_le hiter,
      by simpa [SetUsedMainSizes] using hlen, ?_⟩
    intro item hitem
    simp only [SetUsedMainSizes, List.mem_map] at hitem
    obtain ⟨a, ha, rfl⟩ := hitem
    unfold AllFrozen at hall
    rw [List.all_eq_true] at hall
    exact ⟨hall a ha, rfl⟩

/-! ## Flexible lengths: the sizing of an item is kept -/

theorem sum_map_eq_zero {α : Type} (f : α → ℚ) (l : List α) (h : ∀ a ∈ l, f a = 0) :
    (l.map f).sum = 0 := by
  induction l with
  | nil => rfl
  | cons x xs ih =>
    simp only [List.map_cons, List.sum_cons]
    rw [h x (by simp), ih (fun a ha => h a (by simp [ha]))]
    ring

theorem AllFrozen_false_of_mem (items : List FlexItem) (a : FlexItem) (ha : a ∈ items)
    (hfa : a.frozen = false) : AllFrozen items = false := by
  unfold AllFrozen
  rw [List.all_eq_false]
  exact ⟨a, ha, by simp [hfa]⟩

/-- The two outcomes of the initialisation of an item: frozen at its
hypothetical main size because a freeze condition holds, or left at its flex
base size with its frozen flag untouched because none holds. -/
theorem InitializeItem_cases (flex_mode_grow : Bool) (a : FlexItem) :
    ((InitializeItem flex_mode_grow a).frozen = true
        ∧ (InitializeItem flex_mode_grow a).target_main_size = a.hypothetical_main_size)
      ∨ ((InitializeItem flex_mode_grow a).frozen = a.frozen
        ∧ (InitializeItem flex_mode_grow a).target_main_size = a.flex_base_size
        ∧ ¬ (FlexFactor flex_mode_grow a = 0
          ∨ (flex_mode_grow = true ∧ a.flex_base_size > a.hypothetical_main_size)
          ∨ (flex_mode_grow = false ∧ a.flex_base_size < a.hypothetical_main_size))) := by
  unfold InitializeItem
  simp only
  split
  · left
    exact ⟨rfl, rfl⟩
  · rename_i hc
    right
    exact ⟨rfl, rfl, hc⟩

/-! ## Flexible lengths: a growing line stays within its container -/

theorem Clamp_mono (x y min max : ℚ) (hxy : x ≤ y) (h : min ≤ max) :
    Math.Clamp x min max ≤ Math.Clamp y min max := by
  unfold Math.Clamp
  split_ifs <;> linarith

theorem Max_zero_ge (x : ℚ) : x ≤ Math.Max 0 x ∧ 0 ≤ Math.Max 0 x := by
  unfold Math.Max
  split_ifs <;> constructor <;> linarith

/-- A target raised by the clamp is raised to the clamped inner flex base size,
when that base size does not exceed the target. -/
theorem Clamp_raise (inner x min max : ℚ) (h0 : 0 ≤ min) (h : min ≤ max) (hx : inner ≤ x)
    (hraise : x < Math.Clamp (Math.Max 0 x) min max) :
    Math.Clamp (Math.Max 0 x) min max = Math.Clamp inner min max := by
  unfold Math.Clamp Math.Max at hraise ⊢
  split_ifs at hraise ⊢ <;> linarith

theorem sum_pos_of_nonneg_of_exists (xs : List ℚ) (h0 : ∀ x ∈ xs, 0 ≤ x) (h : ∃ x ∈ xs, 0 < x) :
    0 < xs.sum := by
  induction xs with
  | nil => simp at h
  | cons x xs ih =>
    simp only [List.sum_cons]
    have hx := h0 x (by simp)
    have hxs : 0 ≤ xs.sum := List.sum_nonneg (fun y hy => h0 y (by simp [hy]))
    obtain ⟨y, hy, hpos⟩ := h
    simp only [List.mem_cons] at hy
    rcases hy with rfl | hy
    · linarith
    · have := ih (fun z hz => h0 z (by simp [hz])) ⟨y, hy, hpos⟩
      linarith

theorem FreezeItem_ClampItem_unfrozen (total : ℚ) (b : FlexItem) (hb : b.frozen = false) :
    (FreezeItem total (ClampItem b)).target_main_size = ClampedTargetMainSize b
      ∧ ((FreezeItem total (ClampItem b)).frozen = true ↔
          (0 < total ∧ 0 < ViolationDiff b) ∨ (total < 0 ∧ ViolationDiff b < 0) ∨ total = 0) := by
  refine ⟨by rw [FreezeItem_target]; simp [ClampItem, hb], ?_⟩
  rcases lt_trichotomy total 0 with hneg | hzero | hpos
  · have h1 : ¬ 0 < total := not_lt.mpr (le_of_lt hneg)
    have h2 : total ≠ 0 := ne_of_lt hneg
    by_cases hd : 0 < ViolationDiff b
    · have hd' : ¬ ViolationDiff b < 0 := not_lt.mpr (le_of_lt hd)
      simp [FreezeItem, ClampItem, hb, hneg, h1, h2, hd, hd']
    · by_cases hd2 : ViolationDiff b < 0
      · simp [FreezeItem, ClampItem, hb, hneg, h1, h2, hd, hd2]
      · simp [FreezeItem, ClampItem, hb, hneg, h1, h2, hd, hd2]
  · subst hzero
    simp [FreezeItem]
  · have h1 : ¬ total < 0 := not_lt.mpr (le_of_lt hpos)
    have h2 : total ≠ 0 := ne_of_gt hpos
    by_cases hd : 0 < ViolationDiff b
    · simp [FreezeItem, ClampItem, hb, hpos, h1, h2, hd]
    · by_cases hd2 : ViolationDiff b < 0
      · simp [FreezeItem, ClampItem, hb, hpos, h1, h2, hd, hd2]
      · simp [FreezeItem, ClampItem, hb, hpos, h1, h2, hd, hd2]

theorem EraseResolution_congr_static (a b : FlexItem) (h : a.EraseResolution = b.EraseResolution) :
    (a.EraseResolution.Built ∧ a.GrowConstraints ↔ b.EraseResolution.Built ∧ b.GrowConstraints)
      ∧ a.flex_base_size = b.flex_base_size
      ∧ a.hypothetical_main_size = b.hypothetical_main_size
      ∧ a.flex_grow_factor = b.flex_grow_factor := by
  have h1 : a.GrowConstraints ↔ a.EraseResolution.GrowConstraints := Iff.rfl
  have h2 : b.GrowConstraints ↔ b.EraseResolution.GrowConstraints := Iff.rfl
  have hb := congrArg FlexItem.flex_base_size h
  have hh := congrArg FlexItem.hypothetical_main_size h
  have hg := congrArg FlexItem.flex_grow_factor h
  refine ⟨?_, hb, hh, hg⟩
  rw [h1, h2, h]

/-- What the distribution and the clamp make of an unfrozen item of a growing
line: its target is its flex base size plus its share; the clamped target is at
least its hypothetical main size, and equal to it whenever the clamp raises the
target. -/
theorem GrowItem_facts (flex_factor_sum remaining : ℚ) (hF : 0 < flex_factor_sum) (hR : 0 < remaining)
    (a : FlexItem) (hfa : a.frozen = false) (hs : a.EraseResolution.Built ∧ a.GrowConstraints) :
    (GrowItem flex_factor_sum remaining a).frozen = false
      ∧ (GrowItem flex_factor_sum remaining a).target_main_size
          = a.flex_base_size + a.flex_grow_factor * (remaining / flex_factor_sum)
      ∧ a.hypothetical_main_size ≤ ClampedTargetMainSize (GrowItem flex_factor_sum remaining a)
      ∧ (0 < ViolationDiff (GrowItem flex_factor_sum remaining a) →
          ClampedTargetMainSize (GrowItem flex_factor_sum remaining a) = a.hypothetical_main_size) := by
  obtain ⟨⟨-, hbase, hhyp⟩, hgrow, hmin, hminmax⟩ := hs
  change a.flex_base_size = a.inner_flex_base_size + a.main.sum_edges at hbase
  change a.hypothetical_main_size
    = Math.Clamp a.inner_flex_base_size a.main.min_size a.main.max_size + a.main.sum_edges at hhyp
  have htarget : (GrowItem flex_factor_sum remaining a).target_main_size
      = a.flex_base_size + a.flex_grow_factor * (remaining / flex_factor_sum) := by
    simp only [GrowItem, hfa, Bool.not_false, if_true]
    ring
  have hshare : 0 ≤ a.flex_grow_factor * (remaining / flex_factor_sum) :=
    mul_nonneg hgrow (le_of_lt (div_pos hR hF))
  have hinner : a.inner_flex_base_size
      ≤ (GrowItem flex_factor_sum remaining a).target_main_size - a.main.sum_edges := by
    rw [htarget, hbase]; linarith
  have hmain : (GrowItem flex_factor_sum remaining a).main = a.main := by
    unfold GrowItem; split <;> rfl
  have hclamped : ClampedTargetMainSize (GrowItem flex_factor_sum remaining a)
      = Math.Clamp (Math.Max 0 ((GrowItem flex_factor_sum remaining a).target_main_size
          - a.main.sum_edges)) a.main.min_size a.main.max_size + a.main.sum_edges := by
    simp only [ClampedTargetMainSize, hmain]
  refine ⟨by simp [GrowItem, hfa], htarget, ?_, ?_⟩
  · rw [hclamped, hhyp]
    have := Clamp_mono a.inner_flex_base_size
      (Math.Max 0 ((GrowItem flex_factor_sum remaining a).target_main_size - a.main.sum_edges))
      a.main.min_size a.main.max_size
      (le_trans hinner (Max_zero_ge _).1) hminmax
    linarith
  · intro hdiff
    unfold ViolationDiff at hdiff
    rw [hclamped] at hdiff ⊢
    rw [hhyp, Clamp_raise a.inner_flex_base_size _ a.main.min_size a.main.max_size hmin hminmax
      hinner (by linarith)]

/-- The state kept by the loop on a growing line: the build relations and style
constraints of every item, the reason every unfrozen item is unfrozen, and
the bound on what the line counts for. -/
theorem grow_invariant_step (used_main_size initial_free_space : ℚ) (h0 : 0 < initial_free_space)
    (items : List FlexItem) (hnot : AllFrozen items = false)
    (hstatic : ∀ b ∈ items, b.EraseResolution.Built ∧ b.GrowConstraints)
    (hunfrozen : ∀ b ∈ items, b.frozen = false →
      b.flex_base_size ≤ b.hypothetical_main_size ∧ b.flex_grow_factor ≠ 0)
    (hbound : (items.map FrozenOrHypotheticalSize).sum < used_main_size) :
    (∀ b ∈ ResolveIteration used_main_size true initial_free_space items,
        b.EraseResolution.Built ∧ b.GrowConstraints)
      ∧ (∀ b ∈ ResolveIteration used_main_size true initial_free_space items, b.frozen = false →
        b.flex_base_size ≤ b.hypothetical_main_size ∧ b.flex_grow_factor ≠ 0)
      ∧ ((ResolveIteration used_main_size true initial_free_space items).map
          FrozenOrHypotheticalSize).sum ≤ used_main_size
      ∧ (AllFrozen (ResolveIteration used_main_size true initial_free_space items) = false →
        ((ResolveIteration used_main_size true initial_free_space items).map
          FrozenOrHypotheticalSize).sum < used_main_size) := by
  -- the flex factor sum is positive
  have hF : 0 < FlexFactorSum true items := by
    rw [FlexFactorSum_eq_sum]
    apply sum_pos_of_nonneg_of_exists
    · intro x hx
      simp only [List.mem_map] at hx
      obtain ⟨a, ha, rfl⟩ := hx
      have := (hstatic a ha).2.1
      split
      · exact le_refl 0
      · simpa [FlexFactor] using this
    · unfold AllFrozen at hnot
      rw [List.all_eq_false] at hnot
      obtain ⟨a, ha, hfa⟩ := hnot
      simp only [Bool.not_eq_true] at hfa
      refine ⟨_, List.mem_map.mpr ⟨a, ha, rfl⟩, ?_⟩
      have h1 := (hstatic a ha).2.1
      have h2 := (hunfrozen a ha hfa).2
      simp only [hfa, Bool.false_eq_true, if_false, FlexFactor, if_true]
      exact lt_of_le_of_ne h1 (Ne.symm h2)
  -- the remaining free space is positive
  have hvle : (items.map (fun item =>
      if item.frozen then item.target_main_size else item.flex_base_size)).sum
      ≤ (items.map FrozenOrHypotheticalSize).sum := by
    apply List.sum_le_sum
    intro a ha
    unfold FrozenOrHypotheticalSize
    cases hfa : a.frozen
    · simpa using (hunfrozen a ha hfa).1
    · simp
  have hR : 0 < RemainingFreeSpace used_main_size items := by
    rw [RemainingFreeSpace_eq_sum]
    linarith
  -- so is the free space distributed, which does not exceed it
  have hscaled : 0 < ScaledRemainingFreeSpace used_main_size true initial_free_space items
      ∧ ScaledRemainingFreeSpace used_main_size true initial_free_space items
        ≤ RemainingFreeSpace used_main_size items := by
    have hprod : 0 < initial_free_space * FlexFactorSum true items := mul_pos h0 hF
    unfold ScaledRemainingFreeSpace Math.AbsoluteValue
    simp only [not_lt.mpr (le_of_lt hprod), not_lt.mpr (le_of_lt hR), if_false]
    split_ifs <;> constructor <;> linarith
  obtain ⟨hR'pos, hR'le⟩ := hscaled
  -- the iteration, item by item
  have hstep : ResolveIteration used_main_size true initial_free_space items
      = items.map (fun a => FreezeItem
          (TotalMinMaxViolation (items.map (GrowItem (FlexFactorSum true items)
            (ScaledRemainingFreeSpace used_main_size true initial_free_space items))))
          (ClampItem (GrowItem (FlexFactorSum true items)
            (ScaledRemainingFreeSpace used_main_size true initial_free_space items) a))) := by
    simp only [ResolveIteration, DistributeFreeSpace, ne_eq, ne_of_gt hR'pos, not_false_eq_true,
      if_true, List.map_map]
    rfl
  have hFsum : (items.map (fun a => if a.frozen then 0 else a.flex_grow_factor)).sum
      = FlexFactorSum true items := by
    rw [FlexFactorSum_eq_sum]
    simp [FlexFactor]
  have hRdef := RemainingFreeSpace_eq_sum used_main_size items
  rw [hstep]
  generalize FlexFactorSum true items = F at *
  generalize ScaledRemainingFreeSpace used_main_size true initial_free_space items = R' at *
  generalize RemainingFreeSpace used_main_size items = R at *
  have hshape : ∀ a, (GrowItem F R' a).EraseTarget = a.EraseTarget := by
    intro a; unfold GrowItem; split <;> rfl
  have hfix : ∀ a, a.frozen = true → GrowItem F R' a = a := by
    intro a ha; simp [GrowItem, ha]
  generalize hVdef : TotalMinMaxViolation (items.map (GrowItem F R')) = V
  have hV : V = (items.map (fun a =>
      if a.frozen then 0 else ViolationDiff (GrowItem F R' a))).sum := by
    rw [← hVdef, TotalMinMaxViolation_eq_sum, List.map_map]
    congr 1
    apply List.map_congr_left
    intro a _
    simp only [Function.comp_apply, shape_frozen (GrowItem F R') hshape a]
  have hstat : ∀ a, (FreezeItem V (ClampItem (GrowItem F R' a))).EraseResolution = a.EraseResolution :=
    fun a => iterate_EraseResolution (GrowItem F R') hshape V a
  have hkeep : ∀ a, a.frozen = true → FreezeItem V (ClampItem (GrowItem F R' a)) = a :=
    fun a ha => iterate_frozen (GrowItem F R') hfix V a ha
  -- what the items count for after the clamp
  have hw : (items.map (fun a =>
      if a.frozen then a.target_main_size else ClampedTargetMainSize (GrowItem F R' a))).sum
      = used_main_size - R + R' + V := by
    have hpoint : items.map (fun a =>
          if a.frozen then a.target_main_size else ClampedTargetMainSize (GrowItem F R' a))
        = items.map (fun a =>
          (if a.frozen then a.target_main_size else a.flex_base_size)
            + (if a.frozen then 0 else a.flex_grow_factor) * (R' / F)
            + (if a.frozen then 0 else ViolationDiff (GrowItem F R' a))) := by
      apply List.map_congr_left
      intro a ha
      cases hfa : a.frozen
      · have := (GrowItem_facts F R' hF hR'pos a hfa (hstatic a ha)).2.1
        simp only [Bool.false_eq_true, if_false, ViolationDiff, this]
        ring
      · simp
    rw [hpoint, List.sum_map_add, List.sum_map_add, List.sum_map_mul_right, hFsum, ← hV]
    have hFne : F ≠ 0 := ne_of_gt hF
    rw [hRdef]
    field_simp
  refine ⟨?_, ?_, ?_⟩
  · intro b hb
    simp only [List.mem_map] at hb
    obtain ⟨a, ha, rfl⟩ := hb
    exact ((EraseResolution_congr_static _ _ (hstat a)).1).mpr (hstatic a ha)
  · intro b hb hfb
    simp only [List.mem_map] at hb
    obtain ⟨a, ha, rfl⟩ := hb
    have hfa : a.frozen = false := by
      cases hfa : a.frozen
      · rfl
      · rw [hkeep a hfa, hfa] at hfb
        exact absurd hfb (by simp)
    obtain ⟨-, hbase, hhyp, hg⟩ := EraseResolution_congr_static _ _ (hstat a)
    rw [hbase, hhyp, hg]
    exact hunfrozen a ha hfa
  · rw [List.map_map]
    rcases lt_trichotomy V 0 with hneg | hzero | hpos
    · have hle : (items.map (FrozenOrHypotheticalSize ∘ fun a =>
          FreezeItem V (ClampItem (GrowItem F R' a)))).sum
          ≤ (items.map (fun a =>
            if a.frozen then a.target_main_size else ClampedTargetMainSize (GrowItem F R' a))).sum := by
        apply List.sum_le_sum
        intro a ha
        simp only [Function.comp_apply]
        cases hfa : a.frozen
        · obtain ⟨hgf, -, hhyple, -⟩ := GrowItem_facts F R' hF hR'pos a hfa (hstatic a ha)
          obtain ⟨htarget, -⟩ := FreezeItem_ClampItem_unfrozen V (GrowItem F R' a) hgf
          have hhyp := (EraseResolution_congr_static _ _ (hstat a)).2.2.1
          unfold FrozenOrHypotheticalSize
          rw [htarget, hhyp]
          simp only [Bool.false_eq_true, if_false]
          split
          · exact le_refl _
          · exact hhyple
        · rw [hkeep a hfa]
          simp [FrozenOrHypotheticalSize, hfa]
      have hlt : (items.map (FrozenOrHypotheticalSize ∘ fun a =>
          FreezeItem V (ClampItem (GrowItem F R' a)))).sum < used_main_size := by
        rw [hw] at hle
        linarith
      exact ⟨le_of_lt hlt, fun _ => hlt⟩
    · have heq : (items.map (FrozenOrHypotheticalSize ∘ fun a =>
          FreezeItem V (ClampItem (GrowItem F R' a)))).sum
          = (items.map (fun a =>
            if a.frozen then a.target_main_size else ClampedTargetMainSize (GrowItem F R' a))).sum := by
        congr 1
        apply List.map_congr_left
        intro a ha
        simp only [Function.comp_apply]
        cases hfa : a.frozen
        · obtain ⟨hgf, -, -, -⟩ := GrowItem_facts F R' hF hR'pos a hfa (hstatic a ha)
          obtain ⟨htarget, hfrozen⟩ := FreezeItem_ClampItem_unfrozen V (GrowItem F R' a) hgf
          unfold FrozenOrHypotheticalSize
          rw [htarget, hfrozen.mpr (Or.inr (Or.inr hzero))]
          simp
        · rw [hkeep a hfa]
          simp [FrozenOrHypotheticalSize, hfa]
      constructor
      · rw [heq, hw]
        linarith
      · intro hcontra
        exfalso
        have hall : AllFrozen (items.map (fun a => FreezeItem V (ClampItem (GrowItem F R' a))))
            = true := by
          unfold AllFrozen
          rw [List.all_eq_true]
          intro b hb
          simp only [List.mem_map] at hb
          obtain ⟨a, -, rfl⟩ := hb
          exact FreezeItem_of_zero V _ (by rw [hzero]; exact lt_irrefl 0)
            (by rw [hzero]; exact lt_irrefl 0)
        rw [hall] at hcontra
        exact absurd hcontra (by simp)
    · have heq : (items.map (FrozenOrHypotheticalSize ∘ fun a =>
          FreezeItem V (ClampItem (GrowItem F R' a)))).sum
          = (items.map FrozenOrHypotheticalSize).sum := by
        congr 1
        apply List.map_congr_left
        intro a ha
        simp only [Function.comp_apply]
        cases hfa : a.frozen
        · obtain ⟨hgf, -, -, hraise⟩ := GrowItem_facts F R' hF hR'pos a hfa (hstatic a ha)
          obtain ⟨htarget, hfrozen⟩ := FreezeItem_ClampItem_unfrozen V (GrowItem F R' a) hgf
          have hhyp := (EraseResolution_congr_static _ _ (hstat a)).2.2.1
          unfold FrozenOrHypotheticalSize
          rw [htarget, hhyp]
          simp only [hfa, Bool.false_eq_true, if_false]
          split
          · rename_i hfr
            rcases hfrozen.mp hfr with h | h | h
            · exact hraise h.2
            · exact absurd h.1 (not_lt.mpr (le_of_lt hpos))
            · exact absurd h (ne_of_gt hpos)
          · rfl
        · rw [hkeep a hfa]
      rw [heq]
      exact ⟨le_of_lt hbound, fun _ => hbound⟩

theorem InitializeItems_grow_bound (used_main_size : ℚ) (line : FlexLine)
    (hcollected : line.Collected) :
    ((InitializeItems used_main_size line).map FrozenOrHypotheticalSize).sum
      = line.accumulated_hypothetical_main_size := by
  rw [hcollected.2, AccumulatedHypotheticalMainSize_eq_sum]
  simp only [InitializeItems, List.map_map]
  congr 1
  apply List.map_congr_left
  intro a ha
  simp only [Function.comp_apply, FrozenOrHypotheticalSize]
  have hhyp : (InitializeItem (FlexModeGrow used_main_size line) a).hypothetical_main_size
      = a.hypothetical_main_size := by
    have h := congrArg FlexItem.hypothetical_main_size
      (InitializeItem_EraseResolution (FlexModeGrow used_main_size line) a)
    exact h
  rcases InitializeItem_cases (FlexModeGrow used_main_size line) a with h | h
  · rw [h.1, h.2]
    simp
  · rw [h.1, (hcollected.1 a ha).1, hhyp]
    simp

theorem BuildFlexItem_Built (host : Host) (computed_flex : ComputedValues) (axes : FlexAxes)
    (flex_content_containing_block : Vector2f) (element : Element) :
    (BuildFlexItem host computed_flex axes flex_content_containing_block element).1.Built :=
  ⟨rfl, rfl, rfl⟩

theorem BuildFlexItems_Built (host : Host) (computed_flex : ComputedValues) (axes : FlexAxes)
    (flex_content_containing_block : Vector2f) (children : List Element) :
    ∀ item ∈ (BuildFlexItems host computed_flex axes flex_content_containing_block children).1,
      item.Built := by
  induction children with
  | nil => simp [BuildFlexItems]
  | cons element rest ih =>
    simp only [BuildFlexItems]
    split
    · exact ih
    · intro item hitem
      simp only [List.mem_cons] at hitem
      rcases hitem with rfl | hitem
      · exact BuildFlexItem_Built host computed_flex axes flex_content_containing_block element
      · exact ih item hitem

theorem CollectLines_Collected (flex_single_line : Bool) (main_wrap_size : ℚ) (items : List FlexItem)
    (hbuilt : ∀ item ∈ items, item.Built) :
    ∀ line ∈ (CollectLines flex_single_line main_wrap_size items).lines, line.Collected := by
  intro line hline
  have hflat : ((CollectLines flex_single_line main_wrap_size items).lines.map FlexLine.items).flatten
      = items := by
    cases flex_single_line
    · simp only [CollectLines, List.map_map]
      have := CollectWrappedLines_flatten main_wrap_size items [] [] 0
      simpa [Function.comp_def] using this
    · simp [CollectLines]
  constructor
  · intro item hitem
    apply hbuilt
    rw [← hflat]
    exact List.mem_flatten.mpr ⟨line.items, List.mem_map.mpr ⟨line, hline, rfl⟩, hitem⟩
  · simp only [CollectLines, List.mem_map] at hline
    obtain ⟨raw, -, rfl⟩ := hline
    rfl

/-- Every line `Format()` resolves is as collected: its items are as built and
its accumulated size is the sum of their hypothetical main sizes. -/
theorem LayoutFlex.Container_Collected (host : Host) (self : LayoutFlex) :
    ∀ line ∈ (self.Container host).lines, line.Collected :=
  CollectLines_Collected _ _ _ (BuildFlexItems_Built host _ _ _ _)

/-- Claim C7.  Line collection is an order-preserving partition.  For every
container with a non-empty item list, the concatenation of the item sequences
of the lines `Format()` collects is the item list in source order, every line
is non-empty, there is at least one line, and when `flex-wrap` is `Nowrap`
there is exactly one line, holding all the items. -/
theorem LayoutFlex.lines_partition (host : Host) (self : LayoutFlex)
    (hitems : (self.Items host).1 ≠ []) :
    ((self.Container host).lines.map FlexLine.items).flatten = (self.Items host).1
      ∧ (∀ line ∈ (self.Container host).lines, line.items ≠ [])
      ∧ (self.Container host).lines ≠ []
      ∧ (self.element_flex.computed.flex_wrap = Style.FlexWrap.Nowrap →
          (self.Container host).lines.map FlexLine.items = [(self.Items host).1]) := by
  obtain ⟨hflat, hne, hlines, hsingle⟩ :=
    CollectLines_partition self.Axes.flex_single_line self.Axes.main_wrap_size (self.Items host).1
      hitems
  refine ⟨hflat, hne, hlines, fun hwrap => hsingle ?_⟩
  simp [LayoutFlex.Axes, GetFlexAxes, hwrap]

/-- Claim C7, scenario: the six children of a wrapping row of width 250 are
collected into three non-empty lines that together hold them in order. -/
theorem LayoutFlex.lines_partition_six :
    (Scenario.wrappingRowOfSix.Items Scenario.host).1 ≠ []
      ∧ (Scenario.wrappingRowOfSix.Container Scenario.host).lines.map
          (fun line => line.items.map (fun item => item.element.id)) = [[1, 2], [3, 4], [5, 6]]
      ∧ ((Scenario.wrappingRowOfSix.Container Scenario.host).lines.map FlexLine.items).flatten
        = (Scenario.wrappingRowOfSix.Items Scenario.host).1
      ∧ (∀ line ∈ (Scenario.wrappingRowOfSix.Container Scenario.host).lines, line.items ≠ []) :=
  have h := LayoutFlex.lines_partition Scenario.host Scenario.wrappingRowOfSix (by decide!)
  ⟨by decide!, by decide!, h.1, h.2.1⟩

/-- Claim C8.  Wrapping is the greedy packing against `main_wrap_size`.  In a
wrapping container (`flex-wrap` other than `Nowrap`) every line records the sum
of the hypothetical main sizes of its items; every line of at least two items
has an accumulated hypothetical main size of at most `main_wrap_size`; and for
every two consecutive lines the accumulated size of the earlier one plus the
hypothetical main size of the first item of the later one exceeds
`main_wrap_size`. -/
theorem LayoutFlex.lines_greedy (host : Host) (self : LayoutFlex)
    (hwrap : self.element_flex.computed.flex_wrap ≠ Style.FlexWrap.Nowrap) :
    (∀ line ∈ (self.Container host).lines,
        line.accumulated_hypothetical_main_size
          = (line.items.map FlexItem.hypothetical_main_size).sum)
      ∧ (∀ line ∈ (self.Container host).lines, 2 ≤ line.items.length →
        line.accumulated_hypothetical_main_size ≤ self.Axes.main_wrap_size)
      ∧ (∀ (before : List FlexLine) (earlier later : FlexLine) (after : List FlexLine),
        (self.Container host).lines = before ++ earlier :: later :: after →
        ∀ first ∈ later.items.head?,
          earlier.accumulated_hypothetical_main_size + first.hypothetical_main_size
            > self.Axes.main_wrap_size) := by
  have hsingle : self.Axes.flex_single_line = false := by
    simp [LayoutFlex.Axes, GetFlexAxes, hwrap]
  have h := CollectLines_greedy self.Axes.main_wrap_size (self.Items host).1
  simp only [LayoutFlex.Container, hsingle]
  exact h

/-- Claim C8, scenario: six children of width 100 in a wrapping row of width 250
give lines of 2, 2 and 2 items, each with accumulated size 200: within the wrap
size 250, which a third item would exceed. -/
theorem LayoutFlex.lines_greedy_six :
    Scenario.wrappingRowOfSix.Axes.main_wrap_size = 250
      ∧ (Scenario.wrappingRowOfSix.Container Scenario.host).lines.map
          (fun line => (line.items.length, line.accumulated_hypothetical_main_size))
        = [(2, 200), (2, 200), (2, 200)]
      ∧ (∀ line ∈ (Scenario.wrappingRowOfSix.Container Scenario.host).lines, 2 ≤ line.items.length →
        line.accumulated_hypothetical_main_size ≤ Scenario.wrappingRowOfSix.Axes.main_wrap_size)
      ∧ (∀ (before : List FlexLine) (earlier later : FlexLine) (after : List FlexLine),
        (Scenario.wrappingRowOfSix.Container Scenario.host).lines
          = before ++ earlier :: later :: after →
        ∀ first ∈ later.items.head?,
          earlier.accumulated_hypothetical_main_size + first.hypothetical_main_size
            > Scenario.wrappingRowOfSix.Axes.main_wrap_size) :=
  have h := LayoutFlex.lines_greedy Scenario.host Scenario.wrappingRowOfSix (by decide)
  ⟨by decide!, by decide!, h.2.1, h.2.2⟩

/-! ## Flexible lengths in `Format()` -/

/-- Claim C2, scenario: the line of a child capped at 10 and a child floored at
95 in a row of main size 100 leaves the loop after two iterations, within any
budget of at least two, with both items frozen. -/
theorem ResolveFlexibleLengths_terminates_capped_floored :
    (Scenario.cappedFlooredRow.Container Scenario.host).lines.map
        (fun line => (ResolveFlexibleLengthsWith line.items.length 100 line).map Prod.snd) = [some 2]
      ∧ ∀ line ∈ (Scenario.cappedFlooredRow.Container Scenario.host).lines,
          ∃ result iterations,
            ResolveFlexibleLengthsWith line.items.length 100 line = some (result, iterations)
              ∧ iterations ≤ line.items.length
              ∧ ∀ item ∈ result.items,
                  item.frozen = true ∧ item.used_main_size = item.target_main_size :=
  ⟨by decide!, fun line _ =>
    let ⟨result, iterations, hwith, _, hiter, _, _, hfrozen⟩ :=
      (ResolveFlexibleLengths_terminates 100 line).2
    ⟨result, iterations, hwith _ (le_refl _), hiter, hfrozen⟩⟩

/-! ## The trace of `Format()` -/

theorem BuildFlexItem_no_scrolling_warning (host : Host) (computed_flex : ComputedValues)
    (axes : FlexAxes) (flex_content_containing_block : Vector2f) (element : Element) :
    HostCall.LogScrollingWarning
      ∉ (BuildFlexItem host computed_flex axes flex_content_containing_block element).2 := by
  simp only [BuildFlexItem]
  split_ifs <;> simp

theorem BuildFlexItems_no_scrolling_warning (host : Host) (computed_flex : ComputedValues)
    (axes : FlexAxes) (flex_content_containing_block : Vector2f) (children : List Element) :
    HostCall.LogScrollingWarning
      ∉ (BuildFlexItems host computed_flex axes flex_content_containing_block children).2 := by
  induction children with
  | nil => simp [BuildFlexItems]
  | cons element rest ih =>
    simp only [BuildFlexItems]
    split
    · exact ih
    · simp only [List.mem_append, not_or]
      exact ⟨BuildFlexItem_no_scrolling_warning host computed_flex axes
        flex_content_containing_block element, ih⟩

theorem SetHypotheticalCrossSizes_no_scrolling_warning (host : Host) (main_axis_horizontal : Bool)
    (flex_content_containing_block : Vector2f) (items : List FlexItem) :
    HostCall.LogScrollingWarning
      ∉ (SetHypotheticalCrossSizes host main_axis_horizontal flex_content_containing_block items).2 := by
  induction items with
  | nil => simp [SetHypotheticalCrossSizes]
  | cons item rest ih =>
    simp only [SetHypotheticalCrossSizes, List.mem_append, not_or]
    refine ⟨?_, ih⟩
    simp only [HypotheticalCrossSize]
    split_ifs <;> simp

theorem DetermineItemCrossSizes_no_scrolling_warning (host : Host) (main_axis_horizontal : Bool)
    (flex_content_containing_block : Vector2f) (lines : List FlexLine) :
    HostCall.LogScrollingWarning
      ∉ (DetermineItemCrossSizes host main_axis_horizontal flex_content_containing_block lines).2 := by
  induction lines with
  | nil => simp [DetermineItemCrossSizes]
  | cons line rest ih =>
    simp only [DetermineItemCrossSizes, List.mem_append, not_or]
    exact ⟨SetHypotheticalCrossSizes_no_scrolling_warning host main_axis_horizontal
      flex_content_containing_block line.items, ih⟩

theorem SetCrossOffsets_no_scrolling_warning (wrap_reverse : Bool) (line_cross_size : ℚ)
    (items : List FlexItem) :
    HostCall.LogScrollingWarning ∉ (SetCrossOffsets wrap_reverse line_cross_size items).2 := by
  induction items with
  | nil => simp [SetCrossOffsets]
  | cons item rest ih =>
    simp only [SetCrossOffsets, List.mem_append, not_or]
    refine ⟨?_, ih⟩
    simp only [CrossOffset]
    split_ifs <;> (try split) <;> simp

theorem AlignCrossAxis_no_scrolling_warning (host : Host) (wrap_reverse : Bool)
    (lines : List FlexLine) :
    HostCall.LogScrollingWarning ∉ (AlignCrossAxis host wrap_reverse lines).2 := by
  induction lines with
  | nil => simp [AlignCrossAxis]
  | cons line rest ih =>
    simp only [AlignCrossAxis, List.mem_append, not_or]
    exact ⟨SetCrossOffsets_no_scrolling_warning wrap_reverse line.cross_size line.items, ih⟩

theorem FormatLineItems_no_scrolling_warning (host : Host) (main_axis_horizontal : Bool)
    (flex_content_containing_block flex_content_offset : Vector2f) (line : FlexLine)
    (items : List FlexItem) :
    ∀ overflow : Vector2f, HostCall.LogScrollingWarning
      ∉ (FormatLineItems host main_axis_horizontal flex_content_containing_block flex_content_offset
          line overflow items).2 := by
  induction items with
  | nil => intro overflow; simp [FormatLineItems]
  | cons item rest ih =>
    intro overflow
    simp only [FormatLineItems, List.mem_append, not_or]
    exact ⟨by simp, ih _⟩

theorem FormatItems_no_scrolling_warning (host : Host) (main_axis_horizontal : Bool)
    (flex_content_containing_block flex_content_offset : Vector2f) (lines : List FlexLine) :
    ∀ overflow : Vector2f, HostCall.LogScrollingWarning
      ∉ (FormatItems host main_axis_horizontal flex_content_containing_block flex_content_offset
          overflow lines).2 := by
  induction lines with
  | nil => intro overflow; simp [FormatItems]
  | cons line rest ih =>
    intro overflow
    simp only [FormatItems, List.mem_append, not_or]
    exact ⟨FormatLineItems_no_scrolling_warning host main_axis_horizontal
      flex_content_containing_block flex_content_offset line line.items overflow, ih _⟩

/-- The member function `Format()` never logs the scrolling warning. -/
theorem LayoutFlex.Format_no_scrolling_warning (host : Host) (self : LayoutFlex) :
    HostCall.LogScrollingWarning ∉ (self.Format host).2 := by
  simp only [LayoutFlex.Format]
  split
  · exact BuildFlexItems_no_scrolling_warning host _ _ _ _
  · simp only [List.mem_append, not_or]
    refine ⟨⟨BuildFlexItems_no_scrolling_warning host _ _ _ _, ?_⟩,
      FormatItems_no_scrolling_warning host _ _ _ _ _⟩
    simp only [LayoutFlex.CrossLines, List.mem_append, not_or]
    exact ⟨DetermineItemCrossSizes_no_scrolling_warning host _ _ _,
      AlignCrossAxis_no_scrolling_warning host _ _⟩

/-! ## The entry point -/

/-- Claim C1.  The static entry point rejects scrolling containers and only
those.  For every container whose `overflow-x` or `overflow-y` is neither
`Visible` nor `Hidden`, the call returns the zero vector, leaves the box as it
was and does nothing but log the warning: no child is built, formatted or
offset.  For every container whose two overflow values are each `Visible` or
`Hidden` the rejection branch is not taken: the call is the layout itself, the
box content set from its result, and the warning is not logged. -/
theorem LayoutFlex.FormatBox_rejection (host : Host) (box : Box)
    (min_size max_size flex_containing_block : Vector2f) (element_flex : FlexElement) :
    ((¬ (element_flex.computed.overflow_x = Style.Overflow.Visible
            ∨ element_flex.computed.overflow_x = Style.Overflow.Hidden)
          ∨ ¬ (element_flex.computed.overflow_y = Style.Overflow.Visible
            ∨ element_flex.computed.overflow_y = Style.Overflow.Hidden)) →
        LayoutFlex.FormatBox host box min_size max_size flex_containing_block element_flex
          = { result := ⟨0, 0⟩, box := box, trace := [HostCall.LogScrollingWarning] })
      ∧ (((element_flex.computed.overflow_x = Style.Overflow.Visible
            ∨ element_flex.computed.overflow_x = Style.Overflow.Hidden)
          ∧ (element_flex.computed.overflow_y = Style.Overflow.Visible
            ∨ element_flex.computed.overflow_y = Style.Overflow.Hidden)) →
        LayoutFlex.FormatBox host box min_size max_size flex_containing_block element_flex
            = { result := ((LayoutFlex.Construct host box min_size max_size flex_containing_block
                  element_flex).Format host).1.flex_content_overflow_size,
                box := box.SetContent ((LayoutFlex.Construct host box min_size max_size
                  flex_containing_block element_flex).Format host).1.flex_resulting_content_size,
                trace := ((LayoutFlex.Construct host box min_size max_size flex_containing_block
                  element_flex).Format host).2 }
          ∧ HostCall.LogScrollingWarning
            ∉ (LayoutFlex.FormatBox host box min_size max_size flex_containing_block
                element_flex).trace) := by
  constructor
  · intro h
    have hrej : RejectsOverflow element_flex.computed = true := by
      simp only [RejectsOverflow, Bool.or_eq_true, Bool.not_eq_true', Bool.or_eq_false_iff,
        decide_eq_false_iff_not, decide_eq_true_eq]
      tauto
    simp [LayoutFlex.FormatBox, hrej]
  · intro h
    have hrej : RejectsOverflow element_flex.computed = false := by
      simp only [RejectsOverflow, Bool.or_eq_false_iff, Bool.not_eq_false', Bool.or_eq_true,
        decide_eq_true_eq]
      exact h
    have heq : LayoutFlex.FormatBox host box min_size max_size flex_containing_block element_flex
        = { result := ((LayoutFlex.Construct host box min_size max_size flex_containing_block
              element_flex).Format host).1.flex_content_overflow_size,
            box := box.SetContent ((LayoutFlex.Construct host box min_size max_size
              flex_containing_block element_flex).Format host).1.flex_resulting_content_size,
            trace := ((LayoutFlex.Construct host box min_size max_size flex_containing_block
              element_flex).Format host).2 } := by
      simp [LayoutFlex.FormatBox, hrej]
    refine ⟨heq, ?_⟩
    rw [heq]
    exact LayoutFlex.Format_no_scrolling_warning host _

/-- Claim C1, scenarios: a scrolling container with a box of content size
300 × 200 is rejected with the box untouched and nothing but the warning
logged; the same container with visible overflow is laid out without that
warning. -/
theorem LayoutFlex.FormatBox_rejection_scenarios :
    LayoutFlex.FormatBox Scenario.host Scenario.definiteBox ⟨0, 0⟩ ⟨FLT_MAX, FLT_MAX⟩ ⟨800, 600⟩
        { computed := Scenario.scrolling, children := [Scenario.sizedChild 1 100 50 0 1] }
        = { result := ⟨0, 0⟩, box := Scenario.definiteBox, trace := [HostCall.LogScrollingWarning] }
      ∧ HostCall.LogScrollingWarning
        ∉ (LayoutFlex.FormatBox Scenario.host Scenario.definiteBox ⟨0, 0⟩ ⟨FLT_MAX, FLT_MAX⟩ ⟨800, 600⟩
            { computed := Scenario.computed, children := [Scenario.sizedChild 1 100 50 0 1] }).trace
      ∧ (LayoutFlex.FormatBox Scenario.host Scenario.definiteBox ⟨0, 0⟩ ⟨FLT_MAX, FLT_MAX⟩ ⟨800, 600⟩
            { computed := Scenario.computed, children := [Scenario.sizedChild 1 100 50 0 1] }).trace
        = [HostCall.BuildBox (Scenario.sizedChild 1 100 50 0 1),
            HostCall.BuildBox (Scenario.sizedChild 1 100 50 0 1),
            HostCall.FormatElement (Scenario.sizedChild 1 100 50 0 1) ⟨100, 50⟩,
            HostCall.SetOffset (Scenario.sizedChild 1 100 50 0 1) ⟨0, 0⟩] :=
  ⟨(LayoutFlex.FormatBox_rejection Scenario.host Scenario.definiteBox ⟨0, 0⟩ ⟨FLT_MAX, FLT_MAX⟩
      ⟨800, 600⟩
      { computed := Scenario.scrolling, children := [Scenario.sizedChild 1 100 50 0 1] }).1
      (by decide),
    ((LayoutFlex.FormatBox_rejection Scenario.host Scenario.definiteBox ⟨0, 0⟩ ⟨FLT_MAX, FLT_MAX⟩
      ⟨800, 600⟩
      { computed := Scenario.computed, children := [Scenario.sizedChild 1 100 50 0 1] }).2
      (by decide)).2,
    by decide!⟩

/-! ## The resulting content size -/

theorem max_element_value_foldl {α : Type} (key : α → ℚ) (rest : List α) :
    ∀ (init : ℚ) (seen : List α), (∀ x ∈ seen, key x ≤ init) → (∃ x ∈ seen, init = key x) →
      (∀ x ∈ seen ++ rest,
          key x ≤ rest.foldl (fun largest x => if largest < key x then key x else largest) init)
        ∧ ∃ x ∈ seen ++ rest,
          rest.foldl (fun largest x => if largest < key x then key x else largest) init = key x := by
  induction rest with
  | nil =>
    intro init seen hle hex
    simpa using ⟨hle, hex⟩
  | cons y ys ih =>
    intro init seen hle hex
    simp only [List.foldl_cons]
    have hsplit : seen ++ y :: ys = (seen ++ [y]) ++ ys := by simp
    rw [hsplit]
    apply ih
    · intro x hx
      simp only [List.mem_append, List.mem_singleton] at hx
      rcases hx with hx | rfl
      · have := hle x hx
        split_ifs <;> linarith
      · split_ifs <;> linarith
    · split_ifs
      · exact ⟨y, by simp, rfl⟩
      · obtain ⟨x, hx, hxe⟩ := hex
        exact ⟨x, by simp [hx], hxe⟩

/-- On a non-empty range `max_element_value` is the largest key: no key exceeds
it and some element has it. -/
theorem max_element_value_spec {α : Type} (key : α → ℚ) (xs : List α) (h : xs ≠ []) :
    (∀ x ∈ xs, key x ≤ max_element_value xs key) ∧ ∃ x ∈ xs, max_element_value xs key = key x := by
  cases xs with
  | nil => exact absurd rfl h
  | cons first rest =>
    have := max_element_value_foldl key rest (key first) [first] (by simp) ⟨first, by simp, rfl⟩
    simpa [max_element_value] using this

/-- Claim C9 as stated fails: the container's own `min_size` and `max_size` do
change the resulting content size.  A `Nowrap` row of width 300 and unknown
height around one child of height 50 results in the content height 50 under a
minimum height of 0 and in 100 under a minimum height of 100; a wrapping row of
unknown width around two children of width 100 results in the content width 200
without a maximum width and in 100 under a maximum width of 150. -/
theorem LayoutFlex.resulting_size_depends_on_min_max :
    (LayoutFlex.FormatBox Scenario.host Scenario.autoHeightBox ⟨0, 0⟩ ⟨FLT_MAX, FLT_MAX⟩ ⟨800, 600⟩
        { computed := Scenario.computed, children := [Scenario.sizedChild 1 100 50 0 1] }).box.size
        = ⟨300, 50⟩
      ∧ (LayoutFlex.FormatBox Scenario.host Scenario.autoHeightBox ⟨0, 100⟩ ⟨FLT_MAX, FLT_MAX⟩ ⟨800, 600⟩
        { computed := Scenario.computed, children := [Scenario.sizedChild 1 100 50 0 1] }).box.size
        = ⟨300, 100⟩
      ∧ (LayoutFlex.FormatBox Scenario.host Scenario.autoWidthBox ⟨0, 0⟩ ⟨FLT_MAX, FLT_MAX⟩ ⟨800, 600⟩
        { computed := Scenario.wrapping,
          children := [Scenario.sizedChild 1 100 50 0 1, Scenario.sizedChild 2 100 50 0 1] }).box.size
        = ⟨200, 100⟩
      ∧ (LayoutFlex.FormatBox Scenario.host Scenario.autoWidthBox ⟨0, 0⟩ ⟨150, FLT_MAX⟩ ⟨800, 600⟩
        { computed := Scenario.wrapping,
          children := [Scenario.sizedChild 1 100 50 0 1, Scenario.sizedChild 2 100 50 0 1] }).box.size
        = ⟨100, 100⟩ := by
  decide!

/-- Claim C9, amended.  For every container with at least one laid-out item the
resulting content size is the physical projection of `(used_main_size,
used_cross_size)`.  The used main size is the available main size when that is
not negative, and otherwise the largest accumulated hypothetical main size among
the lines; the used cross size is the available cross size when that is not
negative, and otherwise the sum of the cross sizes of the lines.  The
container's `min_size` and `max_size` are not applied to the two values and
change neither when the corresponding available size is definite. -/
theorem LayoutFlex.resulting_content_size (host : Host) (self : LayoutFlex)
    (hitems : (self.Items host).1 ≠ []) :
    (self.Format host).1.flex_resulting_content_size
        = Physical self.Axes.main_axis_horizontal (self.UsedMainSize host) (self.UsedCrossSize host)
      ∧ (0 ≤ self.Axes.main_available_size →
          self.UsedMainSize host = self.Axes.main_available_size
            ∧ ∀ min_size max_size : Vector2f,
              ({ self with flex_min_size := min_size, flex_max_size := max_size }).UsedMainSize host
                = self.UsedMainSize host)
      ∧ (self.Axes.main_available_size < 0 →
          (∀ line ∈ (self.Container host).lines,
              line.accumulated_hypothetical_main_size ≤ self.UsedMainSize host)
            ∧ ∃ line ∈ (self.Container host).lines,
              self.UsedMainSize host = line.accumulated_hypothetical_main_size)
      ∧ (0 ≤ self.Axes.cross_available_size →
          self.UsedCrossSize host = self.Axes.cross_available_size
            ∧ ∀ min_size max_size : Vector2f,
              ({ self with flex_min_size := min_size, flex_max_size := max_size }).UsedCrossSize host
                = self.UsedCrossSize host)
      ∧ (self.Axes.cross_available_size < 0 →
          self.UsedCrossSize host = ((self.CrossLines host).1.map FlexLine.cross_size).sum) := by
  refine ⟨?_, ?_, ?_, ?_, ?_⟩
  · have hne : (self.Items host).1.isEmpty = false := by
      cases h : (self.Items host).1 with
      | nil => exact absurd h hitems
      | cons a l => rfl
    simp [LayoutFlex.Format, hne]
  · intro h
    have hmain : ∀ other : LayoutFlex,
        other.Axes.main_available_size = self.Axes.main_available_size →
        other.UsedMainSize host = self.Axes.main_available_size := by
      intro other hother
      simp only [LayoutFlex.UsedMainSize, GetUsedMainSize, hother, ge_iff_le, h, if_true]
    refine ⟨hmain self rfl, fun min_size max_size => ?_⟩
    rw [hmain self rfl]
    exact hmain _ rfl
  · intro h
    have hlines : (self.Container host).lines ≠ [] :=
      (CollectLines_partition _ _ _ hitems).2.2.1
    have hused : self.UsedMainSize host
        = max_element_value (self.Container host).lines
            (fun line => line.accumulated_hypothetical_main_size) := by
      simp only [LayoutFlex.UsedMainSize, GetUsedMainSize, ge_iff_le, not_le.mpr h, if_false]
    rw [hused]
    exact max_element_value_spec _ _ hlines
  · intro h
    have hcross : ∀ other : LayoutFlex,
        other.Axes.cross_available_size = self.Axes.cross_available_size →
        other.UsedCrossSize host = self.Axes.cross_available_size := by
      intro other hother
      simp only [LayoutFlex.UsedCrossSize, GetUsedCrossSize, hother, ge_iff_le, h, if_true]
    refine ⟨hcross self rfl, fun min_size max_size => ?_⟩
    rw [hcross self rfl]
    exact hcross _ rfl
  · intro h
    simp only [LayoutFlex.UsedCrossSize, GetUsedCrossSize, ge_iff_le, not_le.mpr h, if_false,
      AccumulatedLinesCrossSize, accumulate_add_eq, zero_add]

/-- Claim C9, amended, scenario: a row of definite size 500 × 100 around one
growing child results in the content size 500 × 100. -/
theorem LayoutFlex.resulting_content_size_growing_row :
    (Scenario.growingRow.Items Scenario.host).1 ≠ []
      ∧ (Scenario.growingRow.Format Scenario.host).1.flex_resulting_content_size = ⟨500, 100⟩
      ∧ (Scenario.growingRow.Format Scenario.host).1.flex_resulting_content_size
        = Physical Scenario.growingRow.Axes.main_axis_horizontal
            (Scenario.growingRow.UsedMainSize Scenario.host)
            (Scenario.growingRow.UsedCrossSize Scenario.host) :=
  ⟨by decide!, by decide!,
    (LayoutFlex.resulting_content_size Scenario.host Scenario.growingRow (by decide!)).1⟩

/-! ## The empty container -/

theorem BuildFlexItems_of_all_skipped (host : Host) (computed_flex : ComputedValues) (axes : FlexAxes)
    (flex_content_containing_block : Vector2f) (children : List Element)
    (hskip : ∀ child ∈ children, skipsChild child.computed = true) :
    BuildFlexItems host computed_flex axes flex_content_containing_block children = ([], []) := by
  induction children with
  | nil => rfl
  | cons element rest ih =>
    simp only [BuildFlexItems, hskip element (by simp), if_true]
    exact ih (fun child hchild => hskip child (by simp [hchild]))

/-- Claim C10 as stated fails for a container that scrolls: with no laid-out
child and a box of content size 300 × 200, the call returns the zero vector but
leaves the content size of the box at 300 × 200. -/
theorem LayoutFlex.FormatBox_empty_scrolling_keeps_box :
    (∀ child ∈ Scenario.skippedChildren,
        child.computed.display = Style.Display.None
          ∨ child.computed.position = Style.Position.Absolute
          ∨ child.computed.position = Style.Position.Fixed)
      ∧ (LayoutFlex.FormatBox Scenario.host Scenario.definiteBox ⟨0, 0⟩ ⟨FLT_MAX, FLT_MAX⟩ ⟨800, 600⟩
          { computed := Scenario.scrolling, children := Scenario.skippedChildren }).box.size
        = ⟨300, 200⟩
      ∧ (LayoutFlex.FormatBox Scenario.host Scenario.definiteBox ⟨0, 0⟩ ⟨FLT_MAX, FLT_MAX⟩ ⟨800, 600⟩
          { computed := Scenario.scrolling, children := Scenario.skippedChildren }).box.size
        ≠ ⟨0, 0⟩ := by
  decide!

/-- Claim C10, amended.  For every container whose two overflow values are each
`Visible` or `Hidden` and all of whose children are skipped (`display: none`,
absolutely or fixed positioned), or that has no children, and for every box,
whatever its size: `Format()` returns at once, leaving the layout object as
constructed and calling nothing of the host; the content size of the box is set
to (0, 0) and the returned overflow size is (0, 0). -/
theorem LayoutFlex.FormatBox_empty (host : Host) (box : Box)
    (min_size max_size flex_containing_block : Vector2f) (element_flex : FlexElement)
    (hoverflow : (element_flex.computed.overflow_x = Style.Overflow.Visible
          ∨ element_flex.computed.overflow_x = Style.Overflow.Hidden)
        ∧ (element_flex.computed.overflow_y = Style.Overflow.Visible
          ∨ element_flex.computed.overflow_y = Style.Overflow.Hidden))
    (hskip : ∀ child ∈ element_flex.children,
      child.computed.display = Style.Display.None
        ∨ child.computed.position = Style.Position.Absolute
        ∨ child.computed.position = Style.Position.Fixed) :
    (LayoutFlex.Construct host box min_size max_size flex_containing_block element_flex).Format host
        = (LayoutFlex.Construct host box min_size max_size flex_containing_block element_flex, [])
      ∧ LayoutFlex.FormatBox host box min_size max_size flex_containing_block element_flex
        = { result := ⟨0, 0⟩, box := box.SetContent ⟨0, 0⟩, trace := [] } := by
  have hskip' : ∀ child ∈ element_flex.children, skipsChild child.computed = true := by
    intro child hchild
    unfold skipsChild
    rcases hskip child hchild with h | h | h
    · simp [h]
    · simp [h]
    · simp [h]
  have hitems : ∀ self : LayoutFlex, self.element_flex = element_flex →
      self.Items host = ([], []) := by
    intro self hself
    unfold LayoutFlex.Items
    rw [hself]
    exact BuildFlexItems_of_all_skipped host _ _ _ _ hskip'
  have hformat : (LayoutFlex.Construct host box min_size max_size flex_containing_block
      element_flex).Format host
      = (LayoutFlex.Construct host box min_size max_size flex_containing_block element_flex, []) := by
    have hI := hitems (LayoutFlex.Construct host box min_size max_size flex_containing_block
      element_flex) rfl
    simp [LayoutFlex.Format, hI]
  refine ⟨hformat, ?_⟩
  have hrej : RejectsOverflow element_flex.computed = false := by
    simp only [RejectsOverflow, Bool.or_eq_false_iff, Bool.not_eq_false', Bool.or_eq_true,
      decide_eq_true_eq]
    exact hoverflow
  simp only [LayoutFlex.FormatBox, hrej, Bool.false_eq_true, if_false, hformat]
  rfl

/-- Claim C10, amended, scenario: a visible-overflow container of content size
300 × 200 whose two children are skipped ends with the content size (0, 0),
the zero vector returned and no host call made. -/
theorem LayoutFlex.FormatBox_empty_skipped_children :
    LayoutFlex.FormatBox Scenario.host Scenario.definiteBox ⟨0, 0⟩ ⟨FLT_MAX, FLT_MAX⟩ ⟨800, 600⟩
        { computed := Scenario.computed, children := Scenario.skippedChildren }
      = { result := ⟨0, 0⟩, box := Scenario.definiteBox.SetContent ⟨0, 0⟩, trace := [] } :=
  (LayoutFlex.FormatBox_empty Scenario.host Scenario.definiteBox ⟨0, 0⟩ ⟨FLT_MAX, FLT_MAX⟩ ⟨800, 600⟩
    { computed := Scenario.computed, children := Scenario.skippedChildren }
    (by decide) (by decide)).2

/-! ## What the steps of `Format()` leave of an item -/

theorem modifyBack_map {α β : Type} (f : α → α) (g : α → β) (h : ∀ a, g (f a) = g a) (l : List α) :
    (modifyBack f l).map g = l.map g := by
  induction l with
  | nil => rfl
  | cons a rest ih =>
    cases rest with
    | nil => simp [modifyBack, h]
    | cons b rest => simpa [modifyBack] using ih

theorem modifyFront_map {α β : Type} (f : α → α) (g : α → β) (h : ∀ a, g (f a) = g a) (l : List α) :
    (modifyFront f l).map g = l.map g := by
  cases l with
  | nil => rfl
  | cons a rest => simp [modifyFront, h]

theorem mapWithIndex_map {α β : Type} (f : Nat → α → α) (g : α → β) (h : ∀ i a, g (f i a) = g a)
    (l : List α) : ∀ start, (mapWithIndex f start l).map g = l.map g := by
  induction l with
  | nil => intro _; rfl
  | cons a rest ih => intro start; simp [mapWithIndex, h, ih]

theorem modifyFront_length {α : Type} (f : α → α) (l : List α) : (modifyFront f l).length = l.length := by
  cases l <;> rfl

/-- The resolution of the flexible lengths of a line leaves the items in place
and changes nothing of an item but its frozen flag, its violation, its target
and its used main size. -/
theorem ResolveFlexibleLengths_EraseResolution (used_main_size : ℚ) (line : FlexLine) :
    (ResolveFlexibleLengths used_main_size line).items.map FlexItem.EraseResolution
      = line.items.map FlexItem.EraseResolution := by
  obtain ⟨items, iterations, -, hres, -, -, -, hstatic⟩ :=
    ResolveFlexibleLengths_spec used_main_size line
      (fun items => items.map FlexItem.EraseResolution = line.items.map FlexItem.EraseResolution)
      (by
        simp only [InitializeItems, List.map_map]
        apply List.map_congr_left
        intro a _
        exact InitializeItem_EraseResolution _ a)
      (by
        intro items _ hstatic
        obtain ⟨D, hstep, -, -, hshape⟩ := ResolveIteration_eq_map used_main_size
          (FlexModeGrow used_main_size line)
          (RemainingFreeSpace used_main_size (InitializeItems used_main_size line)) items
        rw [hstep, ← hstatic, List.map_map]
        apply List.map_congr_left
        intro a _
        exact iterate_EraseResolution D hshape _ a)
  rw [hres, ← hstatic]
  simp only [SetUsedMainSizes, List.map_map]
  apply List.map_congr_left
  intro a _
  rfl

theorem ResolveFlexibleLengths_rest (used_main_size : ℚ) (line : FlexLine) :
    { ResolveFlexibleLengths used_main_size line with items := [] } = { line with items := [] } := by
  obtain ⟨items, iterations, -, hres, -⟩ :=
    ResolveFlexibleLengths_spec used_main_size line (fun _ => True) trivial (fun _ _ _ => trivial)
  rw [hres]

theorem JustifyItems_EraseMainAlignment (justify_content : Style.JustifyContent)
    (remaining_free_space : ℚ) (items : List FlexItem) :
    (JustifyItems justify_content remaining_free_space items).map FlexItem.EraseMainAlignment
      = items.map FlexItem.EraseMainAlignment := by
  cases justify_content <;> simp only [JustifyItems]
  · apply modifyBack_map
    intro a
    rfl
  · apply modifyFront_map
    intro a
    rfl
  · rw [modifyBack_map, modifyFront_map]
    · intro a
      rfl
    · intro a
      rfl
  · split
    · apply mapWithIndex_map
      intro i a
      split <;> split <;> rfl
    · apply modifyBack_map
      intro a
      rfl
  · simp only [List.map_map]
    apply List.map_congr_left
    intro a _
    rfl

/-- The distribution of the remaining main space changes nothing of an item but
its two auto margin sizes. -/
theorem DistributeMainSpace_EraseMainAlignment (justify_content : Style.JustifyContent)
    (used_main_size : ℚ) (items : List FlexItem) :
    (DistributeMainSpace justify_content used_main_size items).map FlexItem.EraseMainAlignment
      = items.map FlexItem.EraseMainAlignment := by
  unfold DistributeMainSpace
  simp only
  split
  · split
    · rw [List.map_map]
      apply List.map_congr_left
      intro a _
      simp only [Function.comp_apply]
      split <;> split <;> rfl
    · exact JustifyItems_EraseMainAlignment _ _ _
  · rfl

theorem SetMainOffsets_EraseMainAlignment (host : Host) (direction_reverse : Bool) (reverse_offset : ℚ)
    (items : List FlexItem) : ∀ cursor,
    (SetMainOffsets host direction_reverse reverse_offset cursor items).map FlexItem.EraseMainAlignment
      = items.map FlexItem.EraseMainAlignment := by
  induction items with
  | nil => intro _; rfl
  | cons a rest ih =>
    intro cursor
    simp only [SetMainOffsets, List.map_cons, ih]
    rfl

/-- The main-axis alignment of a line leaves the items in place and changes
nothing of an item but its auto margin sizes, its main offset and, by snapping,
its used main size. -/
theorem AlignMainAxis_EraseMainAlignment (host : Host) (justify_content : Style.JustifyContent)
    (direction_reverse : Bool) (used_main_size : ℚ) (line : FlexLine) :
    (AlignMainAxis host justify_content direction_reverse used_main_size line).items.map
        FlexItem.EraseMainAlignment
      = line.items.map FlexItem.EraseMainAlignment := by
  simp only [AlignMainAxis]
  rw [SetMainOffsets_EraseMainAlignment, DistributeMainSpace_EraseMainAlignment]

theorem SetHypotheticalCrossSizes_EraseCross (host : Host) (main_axis_horizontal : Bool)
    (flex_content_containing_block : Vector2f) (items : List FlexItem) :
    (SetHypotheticalCrossSizes host main_axis_horizontal flex_content_containing_block items).1.map
        FlexItem.EraseCross
      = items.map FlexItem.EraseCross := by
  induction items with
  | nil => rfl
  | cons a rest ih =>
    simp only [SetHypotheticalCrossSizes, List.map_cons, ih]
    rfl

theorem DetermineItemCrossSizes_EraseCross (host : Host) (main_axis_horizontal : Bool)
    (flex_content_containing_block : Vector2f) (lines : List FlexLine) :
    (DetermineItemCrossSizes host main_axis_horizontal flex_content_containing_block lines).1.map
        (fun line => line.items.map FlexItem.EraseCross)
      = lines.map (fun line => line.items.map FlexItem.EraseCross) := by
  induction lines with
  | nil => rfl
  | cons line rest ih =>
    simp only [DetermineItemCrossSizes, List.map_cons, ih, SetHypotheticalCrossSizes_EraseCross]

theorem DetermineLineCrossSizes_EraseCross (axes : FlexAxes) (lines : List FlexLine) :
    (DetermineLineCrossSizes axes lines).map (fun line => line.items.map FlexItem.EraseCross)
      = lines.map (fun line => line.items.map FlexItem.EraseCross) := by
  unfold DetermineLineCrossSizes
  split
  · apply modifyFront_map
    intro line
    rfl
  · rw [List.map_map]
    apply List.map_congr_left
    intro line _
    rfl

theorem StretchLines_EraseCross (cross_available_size : ℚ) (align_content : Style.AlignContent)
    (lines : List FlexLine) :
    (StretchLines cross_available_size align_content lines).map
        (fun line => line.items.map FlexItem.EraseCross)
      = lines.map (fun line => line.items.map FlexItem.EraseCross) := by
  unfold StretchLines
  split
  · simp only
    split
    · rw [List.map_map]
      apply List.map_congr_left
      intro line _
      rfl
    · rfl
  · rfl

theorem DetermineUsedCrossSizes_EraseCross (lines : List FlexLine) :
    (DetermineUsedCrossSizes lines).map (fun line => line.items.map FlexItem.EraseCross)
      = lines.map (fun line => line.items.map FlexItem.EraseCross) := by
  unfold DetermineUsedCrossSizes
  rw [List.map_map]
  apply List.map_congr_left
  intro line _
  simp only [Function.comp_apply, List.map_map]
  apply List.map_congr_left
  intro a _
  rfl

theorem SetCrossOffsets_EraseCross (wrap_reverse : Bool) (line_cross_size : ℚ) (items : List FlexItem) :
    (SetCrossOffsets wrap_reverse line_cross_size items).1.map FlexItem.EraseCross
      = items.map FlexItem.EraseCross := by
  induction items with
  | nil => rfl
  | cons a rest ih =>
    simp only [SetCrossOffsets, List.map_cons, ih]
    rfl

theorem AlignCrossAxis_EraseCross (host : Host) (wrap_reverse : Bool) (lines : List FlexLine) :
    (AlignCrossAxis host wrap_reverse lines).1.map (fun line => line.items.map FlexItem.EraseCross)
      = lines.map (fun line => line.items.map FlexItem.EraseCross) := by
  induction lines with
  | nil => rfl
  | cons line rest ih =>
    simp only [AlignCrossAxis, List.map_cons, ih, List.map_map]
    congr 1
    rw [← SetCrossOffsets_EraseCross wrap_reverse line.cross_size line.items]
    apply List.map_congr_left
    intro a _
    rfl

theorem PackLines_items (align_content : Style.AlignContent) (remaining_free_space : ℚ)
    (lines : List FlexLine) :
    (PackLines align_content remaining_free_space lines).map FlexLine.items
      = lines.map FlexLine.items := by
  cases align_content <;> simp only [PackLines]
  · apply modifyBack_map
    intro line
    rfl
  · apply modifyFront_map
    intro line
    rfl
  · rw [modifyBack_map, modifyFront_map]
    · intro line
      rfl
    · intro line
      rfl
  · rw [modifyBack_map]
    · split
      · apply mapWithIndex_map
        intro i line
        split <;> split <;> rfl
      · rfl
    · intro line
      rfl
  · rw [List.map_map]
    apply List.map_congr_left
    intro line _
    rfl

theorem SetLineOffsets_items (host : Host) (wrap_reverse : Bool) (reverse_offset : ℚ)
    (lines : List FlexLine) : ∀ cursor,
    (SetLineOffsets host wrap_reverse reverse_offset cursor lines).map FlexLine.items
      = lines.map FlexLine.items := by
  induction lines with
  | nil => intro _; rfl
  | cons line rest ih =>
    intro cursor
    simp only [SetLineOffsets, List.map_cons, ih]

/-- The packing of the lines leaves the lines in place and their items as they
are. -/
theorem AlignLines_items (host : Host) (align_content : Style.AlignContent) (wrap_reverse : Bool)
    (used_cross_size : ℚ) (lines : List FlexLine) :
    (AlignLines host align_content wrap_reverse used_cross_size lines).map FlexLine.items
      = lines.map FlexLine.items := by
  simp only [AlignLines, SetLineOffsets_items]
  unfold DistributeCrossSpace
  simp only
  split
  · exact PackLines_items _ _ _
  · rfl


/-! ## The elements the host is called for -/

theorem BuildFlexItems_elements (host : Host) (computed_flex : ComputedValues) (axes : FlexAxes)
    (flex_content_containing_block : Vector2f) (children : List Element) :
    (BuildFlexItems host computed_flex axes flex_content_containing_block children).1.map
        FlexItem.element
      = children.filter (fun child => !skipsChild child.computed) := by
  induction children with
  | nil => rfl
  | cons child rest ih =>
    simp only [BuildFlexItems]
    cases hskip : skipsChild child.computed
    · simp only [Bool.false_eq_true, if_false, List.map_cons, ih]
      rw [List.filter_cons_of_pos (by simp [hskip])]
      rfl
    · simp only [if_true, ih]
      rw [List.filter_cons_of_neg (by simp [hskip])]

theorem BuildFlexItem_subjects (host : Host) (computed_flex : ComputedValues) (axes : FlexAxes)
    (flex_content_containing_block : Vector2f) (child : Element) :
    ∀ call ∈ (BuildFlexItem host computed_flex axes flex_content_containing_block child).2,
      call.Subject = some child ∧ call.OffsetSubject = none := by
  simp only [BuildFlexItem]
  split_ifs <;> simp [HostCall.Subject, HostCall.OffsetSubject]

theorem BuildFlexItems_subjects (host : Host) (computed_flex : ComputedValues) (axes : FlexAxes)
    (flex_content_containing_block : Vector2f) (children : List Element) :
    ∀ call ∈ (BuildFlexItems host computed_flex axes flex_content_containing_block children).2,
      call.OffsetSubject = none
        ∧ ∀ element, call.Subject = some element →
            element ∈ children.filter (fun child => !skipsChild child.computed) := by
  induction children with
  | nil => simp [BuildFlexItems]
  | cons child rest ih =>
    intro call hcall
    simp only [BuildFlexItems] at hcall
    cases hskip : skipsChild child.computed
    · simp only [hskip, Bool.false_eq_true, if_false, List.mem_append] at hcall
      rw [List.filter_cons_of_pos (by simp [hskip])]
      rcases hcall with hcall | hcall
      · have h := BuildFlexItem_subjects host computed_flex axes flex_content_containing_block child
          call hcall
        refine ⟨h.2, fun element helement => ?_⟩
        rw [h.1] at helement
        simp only [Option.some.injEq] at helement
        simp [helement]
      · exact ⟨(ih call hcall).1, fun element helement =>
          List.mem_cons_of_mem _ ((ih call hcall).2 element helement)⟩
    · simp only [hskip, if_true] at hcall
      rw [List.filter_cons_of_neg (by simp [hskip])]
      exact ih call hcall

theorem HypotheticalCrossSize_subjects (host : Host) (main_axis_horizontal : Bool)
    (flex_content_containing_block : Vector2f) (item : FlexItem) :
    ∀ call ∈ (HypotheticalCrossSize host main_axis_horizontal flex_content_containing_block item).2,
      call.Subject = some item.element ∧ call.OffsetSubject = none := by
  simp only [HypotheticalCrossSize]
  split_ifs <;> simp [HostCall.Subject, HostCall.OffsetSubject]

theorem SetHypotheticalCrossSizes_subjects (host : Host) (main_axis_horizontal : Bool)
    (flex_content_containing_block : Vector2f) (items : List FlexItem) :
    ∀ call ∈ (SetHypotheticalCrossSizes host main_axis_horizontal flex_content_containing_block items).2,
      call.OffsetSubject = none
        ∧ ∀ element, call.Subject = some element → element ∈ items.map FlexItem.element := by
  induction items with
  | nil => simp [SetHypotheticalCrossSizes]
  | cons item rest ih =>
    intro call hcall
    simp only [SetHypotheticalCrossSizes, List.mem_append] at hcall
    rcases hcall with hcall | hcall
    · have h := HypotheticalCrossSize_subjects host main_axis_horizontal
        flex_content_containing_block item call hcall
      refine ⟨h.2, fun element helement => ?_⟩
      rw [h.1] at helement
      simp only [Option.some.injEq] at helement
      simp [helement]
    · exact ⟨(ih call hcall).1, fun element helement => by
        simpa using Or.inr (by simpa using (ih call hcall).2 element helement)⟩

theorem DetermineItemCrossSizes_subjects (host : Host) (main_axis_horizontal : Bool)
    (flex_content_containing_block : Vector2f) (lines : List FlexLine) :
    ∀ call ∈ (DetermineItemCrossSizes host main_axis_horizontal flex_content_containing_block lines).2,
      call.OffsetSubject = none
        ∧ ∀ element, call.Subject = some element →
            element ∈ (lines.map (fun line => line.items.map FlexItem.element)).flatten := by
  induction lines with
  | nil => simp [DetermineItemCrossSizes]
  | cons line rest ih =>
    intro call hcall
    simp only [DetermineItemCrossSizes, List.mem_append] at hcall
    simp only [List.map_cons, List.flatten_cons, List.mem_append]
    rcases hcall with hcall | hcall
    · have h := SetHypotheticalCrossSizes_subjects host main_axis_horizontal
        flex_content_containing_block line.items call hcall
      exact ⟨h.1, fun element helement => Or.inl (h.2 element helement)⟩
    · exact ⟨(ih call hcall).1, fun element helement => Or.inr ((ih call hcall).2 element helement)⟩

theorem CrossOffset_subjects (wrap_reverse : Bool) (line_cross_size : ℚ) (item : FlexItem) :
    ∀ call ∈ (CrossOffset wrap_reverse line_cross_size item).2,
      call.Subject = none ∧ call.OffsetSubject = none := by
  simp only [CrossOffset]
  cases item.align_self <;> split_ifs <;> simp [HostCall.Subject, HostCall.OffsetSubject]

theorem SetCrossOffsets_subjects (wrap_reverse : Bool) (line_cross_size : ℚ) (items : List FlexItem) :
    ∀ call ∈ (SetCrossOffsets wrap_reverse line_cross_size items).2,
      call.Subject = none ∧ call.OffsetSubject = none := by
  induction items with
  | nil => simp [SetCrossOffsets]
  | cons item rest ih =>
    intro call hcall
    simp only [SetCrossOffsets, List.mem_append] at hcall
    rcases hcall with hcall | hcall
    · exact CrossOffset_subjects wrap_reverse line_cross_size item call hcall
    · exact ih call hcall

theorem AlignCrossAxis_subjects (host : Host) (wrap_reverse : Bool) (lines : List FlexLine) :
    ∀ call ∈ (AlignCrossAxis host wrap_reverse lines).2,
      call.Subject = none ∧ call.OffsetSubject = none := by
  induction lines with
  | nil => simp [AlignCrossAxis]
  | cons line rest ih =>
    intro call hcall
    simp only [AlignCrossAxis, List.mem_append] at hcall
    rcases hcall with hcall | hcall
    · exact SetCrossOffsets_subjects wrap_reverse line.cross_size line.items call hcall
    · exact ih call hcall

theorem FormatLineItems_subjects (host : Host) (main_axis_horizontal : Bool)
    (flex_content_containing_block flex_content_offset : Vector2f) (line : FlexLine)
    (items : List FlexItem) : ∀ overflow,
    (∀ call ∈ (FormatLineItems host main_axis_horizontal flex_content_containing_block
          flex_content_offset line overflow items).2,
        ∀ element, call.Subject = some element → element ∈ items.map FlexItem.element)
      ∧ (FormatLineItems host main_axis_horizontal flex_content_containing_block
          flex_content_offset line overflow items).2.filterMap HostCall.OffsetSubject
        = items.map FlexItem.element := by
  induction items with
  | nil => intro _; simp [FormatLineItems]
  | cons item rest ih =>
    intro overflow
    simp only [FormatLineItems]
    constructor
    · intro call hcall element helement
      simp only [List.cons_append, List.nil_append, List.mem_cons] at hcall
      rcases hcall with rfl | rfl | rfl | hcall
      · simp only [HostCall.Subject, Option.some.injEq] at helement
        simp [helement]
      · simp only [HostCall.Subject, Option.some.injEq] at helement
        simp [helement]
      · simp only [HostCall.Subject, Option.some.injEq] at helement
        simp [helement]
      · exact List.mem_cons_of_mem _ ((ih _).1 call hcall element helement)
    · simp only [List.cons_append, List.nil_append, List.map_cons]
      rw [List.filterMap_cons_none (by rfl), List.filterMap_cons_none (by rfl),
        List.filterMap_cons_some (by rfl), (ih _).2]

theorem FormatItems_subjects (host : Host) (main_axis_horizontal : Bool)
    (flex_content_containing_block flex_content_offset : Vector2f) (lines : List FlexLine) :
    ∀ overflow,
    (∀ call ∈ (FormatItems host main_axis_horizontal flex_content_containing_block
          flex_content_offset overflow lines).2,
        ∀ element, call.Subject = some element →
          element ∈ (lines.map (fun line => line.items.map FlexItem.element)).flatten)
      ∧ (FormatItems host main_axis_horizontal flex_content_containing_block
          flex_content_offset overflow lines).2.filterMap HostCall.OffsetSubject
        = (lines.map (fun line => line.items.map FlexItem.element)).flatten := by
  induction lines with
  | nil => intro _; simp [FormatItems]
  | cons line rest ih =>
    intro overflow
    simp only [FormatItems, List.map_cons, List.flatten_cons]
    have hline := FormatLineItems_subjects host main_axis_horizontal flex_content_containing_block
      flex_content_offset line line.items overflow
    constructor
    · intro call hcall element helement
      simp only [List.mem_append] at hcall ⊢
      rcases hcall with hcall | hcall
      · exact Or.inl (hline.1 call hcall element helement)
      · exact Or.inr ((ih _).1 call hcall element helement)
    · rw [List.filterMap_append, hline.2, (ih _).2]


theorem lines_map_of_erase {β : Type} (erase : FlexItem → FlexItem) (g : FlexItem → β)
    (h : ∀ a, g (erase a) = g a) (first second : List FlexLine)
    (heq : first.map (fun line => line.items.map erase) = second.map (fun line => line.items.map erase)) :
    first.map (fun line => line.items.map g) = second.map (fun line => line.items.map g) := by
  have hmap := congrArg (List.map (List.map g)) heq
  simp only [List.map_map, Function.comp_def, h] at hmap
  exact hmap

theorem lines_map_of_items {β : Type} (g : FlexItem → β) (first second : List FlexLine)
    (heq : first.map FlexLine.items = second.map FlexLine.items) :
    first.map (fun line => line.items.map g) = second.map (fun line => line.items.map g) := by
  have hmap := congrArg (List.map (List.map g)) heq
  simp only [List.map_map, Function.comp_def] at hmap
  exact hmap

/-- The cross sizing and cross alignment of `Format()` leave the lines and their
items in place and change nothing of an item but its cross sizes and its cross
offset. -/
theorem LayoutFlex.CrossLines_EraseCross (host : Host) (self : LayoutFlex) :
    (self.CrossLines host).1.map (fun line => line.items.map FlexItem.EraseCross)
      = (self.MainLines host).map (fun line => line.items.map FlexItem.EraseCross) := by
  simp only [LayoutFlex.CrossLines]
  rw [AlignCrossAxis_EraseCross, DetermineUsedCrossSizes_EraseCross, StretchLines_EraseCross,
    DetermineLineCrossSizes_EraseCross, DetermineItemCrossSizes_EraseCross]

/-- The main-axis alignment of `Format()` leaves the lines and their items in
place and changes nothing of an item but its auto margin sizes, its main offset
and its used main size. -/
theorem LayoutFlex.MainLines_EraseMainAlignment (host : Host) (self : LayoutFlex) :
    (self.MainLines host).map (fun line => line.items.map FlexItem.EraseMainAlignment)
      = (self.ResolvedLines host).map (fun line => line.items.map FlexItem.EraseMainAlignment) := by
  simp only [LayoutFlex.MainLines, List.map_map]
  apply List.map_congr_left
  intro line _
  exact AlignMainAxis_EraseMainAlignment _ _ _ _ _

/-- The resolution of the flexible lengths in `Format()` leaves the lines and
their items in place and changes nothing of an item but its frozen flag, its
violation, its target and its used main size. -/
theorem LayoutFlex.ResolvedLines_EraseResolution (host : Host) (self : LayoutFlex) :
    (self.ResolvedLines host).map (fun line => line.items.map FlexItem.EraseResolution)
      = (self.Container host).lines.map (fun line => line.items.map FlexItem.EraseResolution) := by
  simp only [LayoutFlex.ResolvedLines, List.map_map]
  apply List.map_congr_left
  intro line _
  exact ResolveFlexibleLengths_EraseResolution _ _

/-- Every stage of `Format()` holds the elements of the collected lines, line by
line and in order. -/
theorem LayoutFlex.lines_elements (host : Host) (self : LayoutFlex) :
    (self.MainLines host).map (fun line => line.items.map FlexItem.element)
        = (self.Container host).lines.map (fun line => line.items.map FlexItem.element)
      ∧ (self.FinalLines host).map (fun line => line.items.map FlexItem.element)
        = (self.Container host).lines.map (fun line => line.items.map FlexItem.element) := by
  have hresolved := lines_map_of_erase FlexItem.EraseResolution FlexItem.element (fun _ => rfl) _ _
    (LayoutFlex.ResolvedLines_EraseResolution host self)
  have hmain := lines_map_of_erase FlexItem.EraseMainAlignment FlexItem.element (fun _ => rfl) _ _
    (LayoutFlex.MainLines_EraseMainAlignment host self)
  have hcross := lines_map_of_erase FlexItem.EraseCross FlexItem.element (fun _ => rfl) _ _
    (LayoutFlex.CrossLines_EraseCross host self)
  have hfinal := lines_map_of_items FlexItem.element _ _
    (AlignLines_items host self.element_flex.computed.align_content self.Axes.wrap_reverse
      (self.UsedCrossSize host) (self.CrossLines host).1)
  refine ⟨hmain.trans hresolved, ?_⟩
  exact (hfinal.trans hcross).trans (hmain.trans hresolved)

theorem flatten_map_map {α β : Type} (g : α → β) (lists : List (List α)) :
    (lists.map (List.map g)).flatten = lists.flatten.map g := by
  induction lists with
  | nil => rfl
  | cons l rest ih => simp only [List.map_cons, List.flatten_cons, List.map_append, ih]

/-- Claim C11.  Item selection.  A child is skipped exactly when its `display` is
`None` or its `position` is `Absolute` or `Fixed`.  The elements of the item
list built by `Format()` are the children that are not skipped, in source
order.  Every host call `Format()` makes for an element (shrink-to-fit width,
box building, formatting, offset setting) is made for a child that is not
skipped, so a skipped child is never formatted and never has its offset set;
and the offsets set by one call of `Format()` are those of the children that
are not skipped, once each and in source order.  The static entry point makes
no other calls for elements. -/
theorem LayoutFlex.item_selection (host : Host) (self : LayoutFlex) :
    (∀ computed : ComputedValues, skipsChild computed = true ↔
        (computed.display = Style.Display.None ∨ computed.position = Style.Position.Absolute
          ∨ computed.position = Style.Position.Fixed))
      ∧ (self.Items host).1.map FlexItem.element
          = self.element_flex.children.filter (fun child => !skipsChild child.computed)
      ∧ (∀ call ∈ (self.Format host).2, ∀ element, call.Subject = some element →
          element ∈ self.element_flex.children ∧ skipsChild element.computed = false)
      ∧ (self.Format host).2.filterMap HostCall.OffsetSubject
          = self.element_flex.children.filter (fun child => !skipsChild child.computed)
      ∧ (∀ (box : Box) (min_size max_size flex_containing_block : Vector2f),
          ∀ call ∈ (LayoutFlex.FormatBox host box min_size max_size flex_containing_block
              self.element_flex).trace,
            ∀ element, call.Subject = some element →
              element ∈ self.element_flex.children ∧ skipsChild element.computed = false) := by
  have hkept : ∀ element : Element,
      element ∈ self.element_flex.children.filter (fun child => !skipsChild child.computed) →
        element ∈ self.element_flex.children ∧ skipsChild element.computed = false := by
    intro element helement
    rw [List.mem_filter] at helement
    exact ⟨helement.1, by simpa using helement.2⟩
  have hformat : ∀ layout : LayoutFlex,
      (∀ call ∈ (layout.Format host).2, ∀ element, call.Subject = some element →
          element ∈ layout.element_flex.children.filter (fun child => !skipsChild child.computed))
        ∧ (layout.Format host).2.filterMap HostCall.OffsetSubject
          = layout.element_flex.children.filter (fun child => !skipsChild child.computed) := by
    intro layout
    have helements : (layout.Items host).1.map FlexItem.element
        = layout.element_flex.children.filter (fun child => !skipsChild child.computed) :=
      BuildFlexItems_elements host _ _ _ _
    have hbuild := BuildFlexItems_subjects host layout.element_flex.computed layout.Axes
      layout.flex_content_containing_block layout.element_flex.children
    have hbuildOffsets : (layout.Items host).2.filterMap HostCall.OffsetSubject = [] := by
      rw [List.filterMap_eq_nil_iff]
      exact fun call hcall => (hbuild call hcall).1
    simp only [LayoutFlex.Format]
    split
    · rename_i hempty
      refine ⟨fun call hcall => (hbuild call hcall).2, ?_⟩
      rw [hbuildOffsets, ← helements]
      rw [List.isEmpty_iff] at hempty
      rw [hempty]
      rfl
    · rename_i hempty
      have hne : (layout.Items host).1 ≠ [] := by
        intro hnil
        exact hempty (by rw [hnil]; rfl)
      have hflat := (CollectLines_partition layout.Axes.flex_single_line layout.Axes.main_wrap_size
        (layout.Items host).1 hne).1
      have hcontainer : ((layout.Container host).lines.map
          (fun line => line.items.map FlexItem.element)).flatten
          = layout.element_flex.children.filter (fun child => !skipsChild child.computed) := by
        rw [← helements]
        have := flatten_map_map FlexItem.element ((layout.Container host).lines.map FlexLine.items)
        rw [List.map_map] at this
        rw [← hflat]
        exact this
      have hlines := LayoutFlex.lines_elements host layout
      have hsized := DetermineItemCrossSizes_subjects host layout.Axes.main_axis_horizontal
        layout.flex_content_containing_block (layout.MainLines host)
      rw [hlines.1, hcontainer] at hsized
      have haligned := AlignCrossAxis_subjects host layout.Axes.wrap_reverse
        (DetermineUsedCrossSizes (StretchLines layout.Axes.cross_available_size
          layout.element_flex.computed.align_content (DetermineLineCrossSizes layout.Axes
            (DetermineItemCrossSizes host layout.Axes.main_axis_horizontal
              layout.flex_content_containing_block (layout.MainLines host)).1)))
      have hformatted := FormatItems_subjects host layout.Axes.main_axis_horizontal
        layout.flex_content_containing_block layout.flex_content_offset (layout.FinalLines host)
        layout.flex_content_overflow_size
      rw [hlines.2, hcontainer] at hformatted
      constructor
      · intro call hcall element helement
        simp only [List.mem_append, LayoutFlex.CrossLines] at hcall
        rcases hcall with (hcall | hcall | hcall) | hcall
        · exact (hbuild call hcall).2 element helement
        · exact (hsized call hcall).2 element helement
        · rw [(haligned call hcall).1] at helement
          exact absurd helement (by simp)
        · exact hformatted.1 call hcall element helement
      · simp only [List.filterMap_append, LayoutFlex.CrossLines]
        have hsizedOffsets : (DetermineItemCrossSizes host layout.Axes.main_axis_horizontal
            layout.flex_content_containing_block (layout.MainLines host)).2.filterMap
            HostCall.OffsetSubject = [] := by
          rw [List.filterMap_eq_nil_iff]
          exact fun call hcall => (hsized call hcall).1
        have halignedOffsets : (AlignCrossAxis host layout.Axes.wrap_reverse
            (DetermineUsedCrossSizes (StretchLines layout.Axes.cross_available_size
              layout.element_flex.computed.align_content (DetermineLineCrossSizes layout.Axes
                (DetermineItemCrossSizes host layout.Axes.main_axis_horizontal
                  layout.flex_content_containing_block (layout.MainLines host)).1)))).2.filterMap
            HostCall.OffsetSubject = [] := by
          rw [List.filterMap_eq_nil_iff]
          exact fun call hcall => (haligned call hcall).2
        rw [hbuildOffsets, hsizedOffsets, halignedOffsets, hformatted.2]
        rfl
  refine ⟨?_, BuildFlexItems_elements host _ _ _ _, ?_, (hformat self).2, ?_⟩
  · intro computed
    unfold skipsChild
    split_ifs with h1 h2
    · simp [h1]
    · simp only [true_iff]
      exact Or.inr h2
    · simp only [Bool.false_eq_true, false_iff, not_or]
      exact ⟨h1, fun h => h2 (Or.inl h), fun h => h2 (Or.inr h)⟩
  · exact fun call hcall element helement => hkept element ((hformat self).1 call hcall element helement)
  · intro box min_size max_size flex_containing_block call hcall element helement
    simp only [LayoutFlex.FormatBox] at hcall
    split at hcall
    · simp only [List.mem_singleton] at hcall
      rw [hcall] at helement
      exact absurd helement (by simp [HostCall.Subject])
    · exact hkept element ((hformat (LayoutFlex.Construct host box min_size max_size
        flex_containing_block self.element_flex)).1 call hcall element helement)

/-- Claim C11, scenario: of five children, the second with `display: none`, the
third absolutely positioned and the fifth with fixed position, the first and the
fourth become flex items, and only these two are built, formatted and given an
offset. -/
theorem LayoutFlex.item_selection_mixed :
    (Scenario.mixedRow.Items Scenario.host).1.map (fun item => item.element.id) = [1, 4]
      ∧ ((Scenario.mixedRow.Format Scenario.host).2.filterMap HostCall.Subject).map Element.id
          = [1, 4, 1, 1, 1, 4, 4, 4]
      ∧ (Scenario.mixedRow.Format Scenario.host).2.filterMap HostCall.OffsetSubject
          = Scenario.mixedChildren.filter (fun child => !skipsChild child.computed) :=
  ⟨by decide!, by decide!, (LayoutFlex.item_selection Scenario.host Scenario.mixedRow).2.2.2.1⟩

/-! ## The items of the lines of `Format()` -/

theorem CollectLines_mem (flex_single_line : Bool) (main_wrap_size : ℚ) (items : List FlexItem) :
    ∀ line ∈ (CollectLines flex_single_line main_wrap_size items).lines,
      ∀ item ∈ line.items, item ∈ items := by
  intro line hline item hitem
  have hflat : ((CollectLines flex_single_line main_wrap_size items).lines.map FlexLine.items).flatten
      = items := by
    cases flex_single_line
    · simp only [CollectLines, List.map_map]
      have := CollectWrappedLines_flatten main_wrap_size items [] [] 0
      simpa [Function.comp_def] using this
    · simp [CollectLines]
  rw [← hflat]
  exact List.mem_flatten.mpr ⟨line.items, List.mem_map.mpr ⟨line, hline, rfl⟩, hitem⟩

theorem BuildFlexItems_auto_margin_sizes (host : Host) (computed_flex : ComputedValues) (axes : FlexAxes)
    (flex_content_containing_block : Vector2f) (children : List Element) :
    ∀ item ∈ (BuildFlexItems host computed_flex axes flex_content_containing_block children).1,
      item.main_auto_margin_size_a = 0 ∧ item.main_auto_margin_size_b = 0 := by
  induction children with
  | nil => simp [BuildFlexItems]
  | cons element rest ih =>
    simp only [BuildFlexItems]
    split
    · exact ih
    · intro item hitem
      simp only [List.mem_cons] at hitem
      rcases hitem with rfl | hitem
      · exact ⟨rfl, rfl⟩
      · exact ih item hitem

/-- Every item of a resolved line of `Format()` is an item of a collected line
with its flexible length resolved: the two agree in every field that the
resolution does not write. -/
theorem LayoutFlex.ResolvedLines_mem (host : Host) (self : LayoutFlex) :
    ∀ line ∈ self.ResolvedLines host, ∀ item ∈ line.items,
      ∃ built ∈ (self.Items host).1, built.EraseResolution = item.EraseResolution := by
  intro line hline item hitem
  simp only [LayoutFlex.ResolvedLines, List.mem_map] at hline
  obtain ⟨collected, hcollected, rfl⟩ := hline
  have hmem : item.EraseResolution
      ∈ (ResolveFlexibleLengths (self.UsedMainSize host) collected).items.map
          FlexItem.EraseResolution :=
    List.mem_map.mpr ⟨item, hitem, rfl⟩
  rw [ResolveFlexibleLengths_EraseResolution, List.mem_map] at hmem
  obtain ⟨built, hbuilt, heq⟩ := hmem
  exact ⟨built, CollectLines_mem _ _ _ collected hcollected built hbuilt, heq⟩

/-- The auto margin sizes of the items are still zero when the main-axis
alignment of `Format()` begins. -/
theorem LayoutFlex.ResolvedLines_auto_margin_sizes (host : Host) (self : LayoutFlex) :
    ∀ line ∈ self.ResolvedLines host, ∀ item ∈ line.items,
      item.main_auto_margin_size_a = 0 ∧ item.main_auto_margin_size_b = 0 := by
  intro line hline item hitem
  obtain ⟨built, hbuilt, heq⟩ := LayoutFlex.ResolvedLines_mem host self line hline item hitem
  have hzero := BuildFlexItems_auto_margin_sizes host _ _ _ _ built hbuilt
  have ha := congrArg FlexItem.main_auto_margin_size_a heq
  have hb := congrArg FlexItem.main_auto_margin_size_b heq
  have ha' : built.main_auto_margin_size_a = item.main_auto_margin_size_a := ha
  have hb' : built.main_auto_margin_size_b = item.main_auto_margin_size_b := hb
  rw [← ha', ← hb']
  exact hzero

/-! ## Main-axis alignment: auto margins -/

/-- A line with positive remaining main space and an auto main margin gives
every auto margin the same share, whatever `justify-content` says. -/
theorem DistributeMainSpace_auto_margins (justify_content : Style.JustifyContent) (used_main_size : ℚ)
    (items : List FlexItem) (hspace : 0 < MainRemainingFreeSpace used_main_size items)
    (hauto : 1 ≤ NumAutoMargins items) :
    DistributeMainSpace justify_content used_main_size items
      = items.map (fun item =>
          let item :=
            if item.main.auto_margin_a then
              { item with main_auto_margin_size_a :=
                  MainRemainingFreeSpace used_main_size items / (NumAutoMargins items : ℚ) }
            else item
          if item.main.auto_margin_b then
            { item with main_auto_margin_size_b :=
                MainRemainingFreeSpace used_main_size items / (NumAutoMargins items : ℚ) }
          else item) := by
  unfold DistributeMainSpace
  simp only [gt_iff_lt, hspace, if_true]
  rw [if_pos (by omega)]

/-- Claim C12.  Auto main margins override `justify-content`.  For every line of
a container that enters the main-axis alignment with positive remaining main
space `r` and `k ≥ 1` auto main margins, and for every value of
`justify-content`: each auto margin of each item receives exactly `r / k`, every
other margin slot receives 0, and the aligned line (auto margin sizes, main
offsets, snapped sizes) is the same as for any other value of
`justify-content`. -/
theorem LayoutFlex.auto_margins_override (host : Host) (self : LayoutFlex) (line : FlexLine)
    (hline : line ∈ self.ResolvedLines host)
    (hspace : 0 < MainRemainingFreeSpace (self.UsedMainSize host) line.items)
    (hauto : 1 ≤ NumAutoMargins line.items) :
    ∀ justify_content : Style.JustifyContent,
      (DistributeMainSpace justify_content (self.UsedMainSize host) line.items).map
          (fun item => (item.main_auto_margin_size_a, item.main_auto_margin_size_b))
        = line.items.map (fun item =>
            (if item.main.auto_margin_a then
                MainRemainingFreeSpace (self.UsedMainSize host) line.items
                  / (NumAutoMargins line.items : ℚ)
              else 0,
             if item.main.auto_margin_b then
                MainRemainingFreeSpace (self.UsedMainSize host) line.items
                  / (NumAutoMargins line.items : ℚ)
              else 0))
        ∧ ∀ other : Style.JustifyContent,
            AlignMainAxis host justify_content self.Axes.direction_reverse (self.UsedMainSize host) line
              = AlignMainAxis host other self.Axes.direction_reverse (self.UsedMainSize host) line := by
  intro justify_content
  constructor
  · rw [DistributeMainSpace_auto_margins justify_content _ _ hspace hauto, List.map_map]
    apply List.map_congr_left
    intro item hitem
    obtain ⟨ha, hb⟩ := LayoutFlex.ResolvedLines_auto_margin_sizes host self line hline item hitem
    simp only [Function.comp_apply]
    cases hfa : item.main.auto_margin_a <;> cases hfb : item.main.auto_margin_b <;>
      simp [ha, hb, hfa, hfb]
  · intro other
    simp only [AlignMainAxis]
    rw [DistributeMainSpace_auto_margins justify_content _ _ hspace hauto,
      DistributeMainSpace_auto_margins other _ _ hspace hauto]

/-- Claim C12, scenario: a single child of width 100 with `margin-left: auto` in a
row of width 400 gets the main offset 300 under every value of
`justify-content`; its line has a remaining space of 300 and one auto margin,
which receives all of it. -/
theorem LayoutFlex.auto_margins_override_single :
    (∀ justify_content : Style.JustifyContent,
        ((Scenario.autoMarginRow justify_content).MainLines Scenario.host).map
          (fun line => line.items.map FlexItem.main_offset) = [[300]])
      ∧ ∀ line ∈ (Scenario.autoMarginRow Style.JustifyContent.FlexStart).ResolvedLines Scenario.host,
          ∀ justify_content : Style.JustifyContent,
            (DistributeMainSpace justify_content 400 line.items).map
              (fun item => (item.main_auto_margin_size_a, item.main_auto_margin_size_b))
            = [(300, 0)] :=
  have hyps : ∀ line ∈ (Scenario.autoMarginRow Style.JustifyContent.FlexStart).ResolvedLines
      Scenario.host,
      0 < MainRemainingFreeSpace
          ((Scenario.autoMarginRow Style.JustifyContent.FlexStart).UsedMainSize Scenario.host)
          line.items
        ∧ 1 ≤ NumAutoMargins line.items
        ∧ line.items.map (fun item =>
            (if item.main.auto_margin_a then
                MainRemainingFreeSpace
                  ((Scenario.autoMarginRow Style.JustifyContent.FlexStart).UsedMainSize Scenario.host)
                  line.items / (NumAutoMargins line.items : ℚ)
              else 0,
             if item.main.auto_margin_b then
                MainRemainingFreeSpace
                  ((Scenario.autoMarginRow Style.JustifyContent.FlexStart).UsedMainSize Scenario.host)
                  line.items / (NumAutoMargins line.items : ℚ)
              else 0)) = [(300, 0)]
        ∧ (Scenario.autoMarginRow Style.JustifyContent.FlexStart).UsedMainSize Scenario.host = 400 := by
    decide!
  ⟨fun justify_content => by cases justify_content <;> decide!, fun line hline justify_content => by
    have h := (LayoutFlex.auto_margins_override Scenario.host
      (Scenario.autoMarginRow Style.JustifyContent.FlexStart) line hline (hyps line hline).1
      (hyps line hline).2.1 justify_content).1
    rw [(hyps line hline).2.2.2] at h
    rw [h]
    have h3 := (hyps line hline).2.2.1
    rw [(hyps line hline).2.2.2] at h3
    exact h3⟩

/-! ## Main-axis alignment: `space-between` -/

/-- Claim C14 fails on the code for items of different sizes.  A container of
width 300 holds a child of width 50 and a child of width 100, without margins.
As a `Row` the outer main extents before snapping are [0, 50] and [50, 150]; the
mirror image is [250, 300] and [150, 250].  As a `RowReverse` the code puts the
second child at main offset 200, so its extent [200, 300] covers that of the
first child, [250, 300]: the value `reverse_offset` is computed from the first
item of the line (source line 550) and used for every item. -/
theorem LayoutFlex.reversed_row_not_mirrored :
    (((Scenario.unequalRow Style.FlexDirection.Row).ResolvedLines Scenario.host).map (fun line =>
        OuterMainExtents (fun item => item.main.margin_a)
          (MainOffsetsBeforeSnap false
            (MainReverseOffset 300 (DistributeMainSpace Style.JustifyContent.FlexStart 300 line.items))
            0 (DistributeMainSpace Style.JustifyContent.FlexStart 300 line.items))
          (DistributeMainSpace Style.JustifyContent.FlexStart 300 line.items))
        = [[(0, 50), (50, 150)]])
      ∧ (((Scenario.unequalRow Style.FlexDirection.RowReverse).ResolvedLines Scenario.host).map
          (fun line =>
            OuterMainExtents (fun item => item.main.margin_b)
              (MainOffsetsBeforeSnap true
                (MainReverseOffset 300
                  (DistributeMainSpace Style.JustifyContent.FlexStart 300 line.items))
                0 (DistributeMainSpace Style.JustifyContent.FlexStart 300 line.items))
              (DistributeMainSpace Style.JustifyContent.FlexStart 300 line.items))
        = [[(250, 300), (200, 300)]])
      ∧ ([(0, 50), (50, 150)].map (fun extent : ℚ × ℚ => (300 - extent.2, 300 - extent.1))
          = [(250, 300), (150, 250)])
      ∧ (Scenario.unequalRow Style.FlexDirection.RowReverse).UsedMainSize Scenario.host = 300
      ∧ ((Scenario.unequalRow Style.FlexDirection.RowReverse).MainLines Scenario.host).map
          (fun line => line.items.map (fun item => (item.main_offset, item.used_main_size)))
        = [[(250, 50), (200, 100)]]
      ∧ ((Scenario.unequalRow Style.FlexDirection.RowReverse).Format Scenario.host).2.filter
          (fun call => call.OffsetSubject.isSome)
        = [HostCall.SetOffset (Scenario.sizedChild 1 50 50 0 1) ⟨250, 0⟩,
           HostCall.SetOffset (Scenario.sizedChild 2 100 50 0 1) ⟨200, 0⟩] := by
  refine ⟨by decide!, by decide!, by decide!, by decide!, by decide!, by decide!⟩

/-! ## The spacing of the lines before the lines are packed -/

theorem CollectWrappedLines_spacing (main_wrap_size : ℚ) (rest : List FlexItem) :
    ∀ (lines : List FlexLine) (line_items : List FlexItem) (cursor : ℚ),
      (∀ line ∈ lines, line.cross_spacing_a = 0 ∧ line.cross_spacing_b = 0) →
      ∀ line ∈ CollectWrappedLines main_wrap_size lines line_items cursor rest,
        line.cross_spacing_a = 0 ∧ line.cross_spacing_b = 0 := by
  induction rest with
  | nil =>
    intro lines line_items cursor hlines line hline
    simp only [CollectWrappedLines] at hline
    split at hline
    · rw [List.mem_append, List.mem_singleton] at hline
      rcases hline with hline | rfl
      · exact hlines line hline
      · exact ⟨rfl, rfl⟩
    · exact hlines line hline
  | cons item rest ih =>
    intro lines line_items cursor hlines
    simp only [CollectWrappedLines]
    split
    · apply ih
      intro line hline
      rw [List.mem_append, List.mem_singleton] at hline
      rcases hline with hline | rfl
      · exact hlines line hline
      · exact ⟨rfl, rfl⟩
    · exact ih _ _ _ hlines

theorem CollectLines_spacing (flex_single_line : Bool) (main_wrap_size : ℚ) (items : List FlexItem) :
    ∀ line ∈ (CollectLines flex_single_line main_wrap_size items).lines,
      line.cross_spacing_a = 0 ∧ line.cross_spacing_b = 0 := by
  intro line hline
  simp only [CollectLines, List.mem_map] at hline
  obtain ⟨raw, hraw, rfl⟩ := hline
  simp only
  cases flex_single_line
  · simp only [Bool.false_eq_true, if_false] at hraw
    exact CollectWrappedLines_spacing main_wrap_size items [] [] 0 (by simp) raw hraw
  · simp only [if_true, List.mem_singleton] at hraw
    rw [hraw]
    exact ⟨rfl, rfl⟩

theorem map_spacing_zero (lines : List FlexLine)
    (h : ∀ line ∈ lines, line.cross_spacing_a = 0 ∧ line.cross_spacing_b = 0) :
    lines.map (fun line => (line.cross_spacing_a, line.cross_spacing_b))
      = List.replicate lines.length (0, 0) := by
  induction lines with
  | nil => rfl
  | cons line rest ih =>
    simp only [List.map_cons, List.length_cons, List.replicate_succ]
    rw [ih (fun other hother => h other (List.mem_cons_of_mem _ hother)), (h line (by simp)).1,
      (h line (by simp)).2]

theorem DetermineItemCrossSizes_spacing (host : Host) (main_axis_horizontal : Bool)
    (flex_content_containing_block : Vector2f) (lines : List FlexLine) :
    (DetermineItemCrossSizes host main_axis_horizontal flex_content_containing_block lines).1.map
        (fun line => (line.cross_spacing_a, line.cross_spacing_b))
      = lines.map (fun line => (line.cross_spacing_a, line.cross_spacing_b)) := by
  induction lines with
  | nil => rfl
  | cons line rest ih => simp only [DetermineItemCrossSizes, List.map_cons, ih]

theorem DetermineLineCrossSizes_spacing (axes : FlexAxes) (lines : List FlexLine) :
    (DetermineLineCrossSizes axes lines).map (fun line => (line.cross_spacing_a, line.cross_spacing_b))
      = lines.map (fun line => (line.cross_spacing_a, line.cross_spacing_b)) := by
  unfold DetermineLineCrossSizes
  split
  · apply modifyFront_map
    intro line
    rfl
  · rw [List.map_map]
    apply List.map_congr_left
    intro line _
    rfl

theorem StretchLines_spacing (cross_available_size : ℚ) (align_content : Style.AlignContent)
    (lines : List FlexLine) :
    (StretchLines cross_available_size align_content lines).map
        (fun line => (line.cross_spacing_a, line.cross_spacing_b))
      = lines.map (fun line => (line.cross_spacing_a, line.cross_spacing_b)) := by
  unfold StretchLines
  split
  · simp only
    split
    · rw [List.map_map]
      apply List.map_congr_left
      intro line _
      rfl
    · rfl
  · rfl

theorem DetermineUsedCrossSizes_spacing (lines : List FlexLine) :
    (DetermineUsedCrossSizes lines).map (fun line => (line.cross_spacing_a, line.cross_spacing_b))
      = lines.map (fun line => (line.cross_spacing_a, line.cross_spacing_b)) := by
  unfold DetermineUsedCrossSizes
  rw [List.map_map]
  apply List.map_congr_left
  intro line _
  rfl

theorem AlignCrossAxis_spacing (host : Host) (wrap_reverse : Bool) (lines : List FlexLine) :
    (AlignCrossAxis host wrap_reverse lines).1.map
        (fun line => (line.cross_spacing_a, line.cross_spacing_b))
      = lines.map (fun line => (line.cross_spacing_a, line.cross_spacing_b)) := by
  induction lines with
  | nil => rfl
  | cons line rest ih => simp only [AlignCrossAxis, List.map_cons, ih]

theorem AlignCrossAxis_cross_size (host : Host) (wrap_reverse : Bool) (lines : List FlexLine) :
    (AlignCrossAxis host wrap_reverse lines).1.map FlexLine.cross_size
      = lines.map FlexLine.cross_size := by
  induction lines with
  | nil => rfl
  | cons line rest ih => simp only [AlignCrossAxis, List.map_cons, ih]

theorem DetermineUsedCrossSizes_cross_size (lines : List FlexLine) :
    (DetermineUsedCrossSizes lines).map FlexLine.cross_size = lines.map FlexLine.cross_size := by
  unfold DetermineUsedCrossSizes
  rw [List.map_map]
  apply List.map_congr_left
  intro line _
  rfl

/-- The lines of `Format()` reach the line packing with both spacings at
zero. -/
theorem LayoutFlex.CrossLines_spacing (host : Host) (self : LayoutFlex) :
    ∀ line ∈ (self.CrossLines host).1, line.cross_spacing_a = 0 ∧ line.cross_spacing_b = 0 := by
  have hcontainer := map_spacing_zero _ (CollectLines_spacing self.Axes.flex_single_line
    self.Axes.main_wrap_size (self.Items host).1)
  have hmain : (self.MainLines host).map (fun line => (line.cross_spacing_a, line.cross_spacing_b))
      = (self.Container host).lines.map (fun line => (line.cross_spacing_a, line.cross_spacing_b)) := by
    simp only [LayoutFlex.MainLines, LayoutFlex.ResolvedLines, List.map_map]
    apply List.map_congr_left
    intro line _
    simp only [Function.comp_apply, AlignMainAxis]
    have h := ResolveFlexibleLengths_rest (self.UsedMainSize host) line
    have ha := congrArg FlexLine.cross_spacing_a h
    have hb := congrArg FlexLine.cross_spacing_b h
    simp only at ha hb
    rw [ha, hb]
  have hcross : (self.CrossLines host).1.map (fun line => (line.cross_spacing_a, line.cross_spacing_b))
      = (self.MainLines host).map (fun line => (line.cross_spacing_a, line.cross_spacing_b)) := by
    simp only [LayoutFlex.CrossLines]
    rw [AlignCrossAxis_spacing, DetermineUsedCrossSizes_spacing, StretchLines_spacing,
      DetermineLineCrossSizes_spacing, DetermineItemCrossSizes_spacing]
  intro line hline
  have hmem : (line.cross_spacing_a, line.cross_spacing_b)
      ∈ (self.CrossLines host).1.map (fun line => (line.cross_spacing_a, line.cross_spacing_b)) :=
    List.mem_map.mpr ⟨line, hline, rfl⟩
  rw [hcross, hmain] at hmem
  change _ ∈ List.map _ (CollectLines self.Axes.flex_single_line self.Axes.main_wrap_size
    (self.Items host).1).lines at hmem
  rw [hcontainer] at hmem
  have := List.eq_of_mem_replicate hmem
  simp only [Prod.mk.injEq] at this
  exact this

/-- The offsets handed to the snapping by the line loop are those of
`LineOffsetsBeforeSnap`: the loop writes their snapped values. -/
theorem SetLineOffsets_eq_snap (host : Host) (wrap_reverse : Bool) (reverse_offset : ℚ)
    (lines : List FlexLine) : ∀ cursor,
    SetLineOffsets host wrap_reverse reverse_offset cursor lines
      = List.zipWith (fun offset (line : FlexLine) =>
          { line with
            cross_offset := (host.SnapToPixelGrid offset line.cross_size).1,
            cross_size := (host.SnapToPixelGrid offset line.cross_size).2 })
        (LineOffsetsBeforeSnap wrap_reverse reverse_offset cursor lines) lines := by
  induction lines with
  | nil => intro _; rfl
  | cons line rest ih =>
    intro cursor
    simp only [SetLineOffsets, LineOffsetsBeforeSnap, List.zipWith_cons_cons]
    rw [ih]

/-! ## Line packing under `wrap-reverse` -/

/-- Claim C15 as stated fails.  A `wrap-reverse` row of content size 100 × 200
with `align-content: flex-start` holds a child of size 100 × 50 and a child of
size 100 × 80, so that it has two lines of cross sizes 50 and 80.  The cross
offsets of the lines before snapping are 150 and 100, not 120 and 70, and these
are the cross offsets written to the lines. -/
theorem LayoutFlex.wrap_reverse_lines_at_150_and_100 :
    (Scenario.twoLines Style.FlexWrap.WrapReverse Style.AlignContent.FlexStart).Axes.wrap_reverse = true
      ∧ (Scenario.twoLines Style.FlexWrap.WrapReverse
          Style.AlignContent.FlexStart).Axes.cross_available_size = 200
      ∧ ((Scenario.twoLines Style.FlexWrap.WrapReverse Style.AlignContent.FlexStart).CrossLines
          Scenario.host).1.map FlexLine.cross_size = [50, 80]
      ∧ LineOffsetsBeforeSnap true
          (CrossReverseOffset 200
            (DistributeCrossSpace Style.AlignContent.FlexStart 200
              ((Scenario.twoLines Style.FlexWrap.WrapReverse Style.AlignContent.FlexStart).CrossLines
                Scenario.host).1))
          0
          (DistributeCrossSpace Style.AlignContent.FlexStart 200
            ((Scenario.twoLines Style.FlexWrap.WrapReverse Style.AlignContent.FlexStart).CrossLines
              Scenario.host).1)
        = [150, 100]
      ∧ ((Scenario.twoLines Style.FlexWrap.WrapReverse Style.AlignContent.FlexStart).FinalLines
          Scenario.host).map FlexLine.cross_offset = [150, 100]
      ∧ ((Scenario.twoLines Style.FlexWrap.WrapReverse Style.AlignContent.FlexStart).FinalLines
          Scenario.host).map FlexLine.cross_offset ≠ [120, 70] := by
  refine ⟨by decide!, by decide!, by decide!, by decide!, by decide!, by decide!⟩

/-- Claim C15, amended.  For every `wrap-reverse` container with available cross
size 200 and `align-content: flex-start` whose lines reach the line packing as
two lines of cross sizes 50 (first line) and 80 (second line), the cross offset
of the first line before snapping is 150: the first line ends at the far cross
edge of the container.  The cross offsets `Format()` writes are the offsets of
`LineOffsetsBeforeSnap`, snapped. -/
theorem LayoutFlex.wrap_reverse_first_line (host : Host) (self : LayoutFlex)
    (hwrap : self.element_flex.computed.flex_wrap = Style.FlexWrap.WrapReverse)
    (halign : self.element_flex.computed.align_content = Style.AlignContent.FlexStart)
    (havailable : self.Axes.cross_available_size = 200)
    (hsizes : (self.CrossLines host).1.map FlexLine.cross_size = [50, 80]) :
    (LineOffsetsBeforeSnap true
        (CrossReverseOffset 200
          (DistributeCrossSpace Style.AlignContent.FlexStart 200 (self.CrossLines host).1))
        0 (DistributeCrossSpace Style.AlignContent.FlexStart 200 (self.CrossLines host).1)).head?
        = some 150
      ∧ self.FinalLines host
        = List.zipWith (fun offset (line : FlexLine) =>
            { line with
              cross_offset := (host.SnapToPixelGrid offset line.cross_size).1,
              cross_size := (host.SnapToPixelGrid offset line.cross_size).2 })
          (LineOffsetsBeforeSnap true
            (CrossReverseOffset 200
              (DistributeCrossSpace Style.AlignContent.FlexStart 200 (self.CrossLines host).1))
            0 (DistributeCrossSpace Style.AlignContent.FlexStart 200 (self.CrossLines host).1))
          (DistributeCrossSpace Style.AlignContent.FlexStart 200 (self.CrossLines host).1) := by
  have hreverse : self.Axes.wrap_reverse = true := by
    simp [LayoutFlex.Axes, GetFlexAxes, hwrap]
  have hused : self.UsedCrossSize host = 200 := by
    simp [LayoutFlex.UsedCrossSize, GetUsedCrossSize, havailable]
  have hspacing := LayoutFlex.CrossLines_spacing host self
  constructor
  · generalize (self.CrossLines host).1 = lines at hsizes hspacing
    rcases lines with _ | ⟨first, _ | ⟨second, _ | ⟨third, rest⟩⟩⟩
    · simp at hsizes
    · simp at hsizes
    · simp only [List.map_cons, List.map_nil, List.cons.injEq, and_true] at hsizes
      obtain ⟨hfirst, hsecond⟩ := hsizes
      have hzero := (hspacing first (by simp)).1
      have haccumulated : AccumulatedLinesCrossSize [first, second] = 130 := by
        simp only [AccumulatedLinesCrossSize, accumulate, List.foldl_cons, List.foldl_nil, hfirst,
          hsecond]
        norm_num
      simp only [DistributeCrossSpace, haccumulated, PackLines, modifyBack, LineOffsetsBeforeSnap,
        CrossReverseOffset, List.head?_cons, hfirst, hzero]
      norm_num [LineOffsetsBeforeSnap, CrossReverseOffset, hfirst, hzero]
    · simp at hsizes
  · simp only [LayoutFlex.FinalLines, AlignLines, hreverse, hused, halign]
    exact SetLineOffsets_eq_snap host true _ _ 0

/-- Claim C15, amended, scenario: in the `wrap-reverse` row of content size
100 × 200 around a child of size 100 × 50 and a child of size 100 × 80 the first
line has the cross offset 150. -/
theorem LayoutFlex.wrap_reverse_first_line_two_lines :
    ((Scenario.twoLines Style.FlexWrap.WrapReverse Style.AlignContent.FlexStart).FinalLines
        Scenario.host).head?.map FlexLine.cross_offset = some 150
      ∧ (LineOffsetsBeforeSnap true
          (CrossReverseOffset 200
            (DistributeCrossSpace Style.AlignContent.FlexStart 200
              ((Scenario.twoLines Style.FlexWrap.WrapReverse Style.AlignContent.FlexStart).CrossLines
                Scenario.host).1))
          0
          (DistributeCrossSpace Style.AlignContent.FlexStart 200
            ((Scenario.twoLines Style.FlexWrap.WrapReverse Style.AlignContent.FlexStart).CrossLines
              Scenario.host).1)).head?
        = some 150 :=
  ⟨by decide!,
    (LayoutFlex.wrap_reverse_first_line Scenario.host
      (Scenario.twoLines Style.FlexWrap.WrapReverse Style.AlignContent.FlexStart) rfl rfl
      (by decide!) (by decide!)).1⟩

/-! ## Line packing: the cross space handed out -/

theorem AccumulatedLinesCrossSize_eq_sum (lines : List FlexLine) :
    AccumulatedLinesCrossSize lines = (lines.map FlexLine.cross_size).sum := by
  simp [AccumulatedLinesCrossSize, accumulate_add_eq]

theorem PackLines_cross_size (align_content : Style.AlignContent) (remaining_free_space : ℚ)
    (lines : List FlexLine) :
    (PackLines align_content remaining_free_space lines).map FlexLine.cross_size
      = lines.map FlexLine.cross_size := by
  cases align_content <;> simp only [PackLines]
  · apply modifyBack_map
    intro line
    rfl
  · apply modifyFront_map
    intro line
    rfl
  · rw [modifyBack_map, modifyFront_map]
    · intro line
      rfl
    · intro line
      rfl
  · rw [modifyBack_map]
    · split
      · apply mapWithIndex_map
        intro i line
        split <;> split <;> rfl
      · rfl
    · intro line
      rfl
  · rw [List.map_map]
    apply List.map_congr_left
    intro line _
    rfl

theorem DistributeCrossSpace_cross_size (align_content : Style.AlignContent) (used_cross_size : ℚ)
    (lines : List FlexLine) :
    (DistributeCrossSpace align_content used_cross_size lines).map FlexLine.cross_size
      = lines.map FlexLine.cross_size := by
  unfold DistributeCrossSpace
  simp only
  split
  · exact PackLines_cross_size _ _ _
  · rfl

/-- Giving the trailing spacing `r` to the last of lines without spacing hands
out `r`. -/
theorem spacing_sum_modifyBack (r : ℚ) (lines : List FlexLine) (hne : lines ≠ [])
    (hzero : ∀ line ∈ lines, line.cross_spacing_a = 0 ∧ line.cross_spacing_b = 0) :
    ((modifyBack (fun line : FlexLine => { line with cross_spacing_b := r }) lines).map
        (fun line => line.cross_spacing_a + line.cross_spacing_b)).sum = r := by
  induction lines with
  | nil => exact absurd rfl hne
  | cons line rest ih =>
    cases rest with
    | nil =>
      simp only [modifyBack, List.map_cons, List.map_nil, List.sum_cons, List.sum_nil,
        (hzero line (by simp)).1]
      ring
    | cons next rest =>
      simp only [modifyBack, List.map_cons, List.sum_cons, (hzero line (by simp)).1,
        (hzero line (by simp)).2]
      have := ih (by simp) (fun other hother => hzero other (List.mem_cons_of_mem _ hother))
      simp only [List.map_cons, List.sum_cons] at this
      rw [this]
      ring

theorem spacing_sum_zero (lines : List FlexLine)
    (hzero : ∀ line ∈ lines, line.cross_spacing_a = 0 ∧ line.cross_spacing_b = 0) :
    (lines.map (fun line => line.cross_spacing_a + line.cross_spacing_b)).sum = 0 := by
  apply sum_map_eq_zero
  intro line hline
  rw [(hzero line hline).1, (hzero line hline).2]
  ring

/-- The `SpaceBetween` case of the line packing on lines without spacing: the
counted loop hands out one share for every inner edge, and the statement it
falls through to then gives the whole remaining space to the last line. -/
theorem spacing_sum_space_between (s r : ℚ) (N : Nat) (f : Nat → FlexLine → FlexLine)
    (hf : ∀ i line,
      (f i line).cross_spacing_a = (if i > 0 then s else line.cross_spacing_a)
        ∧ (f i line).cross_spacing_b = (if i < N - 1 then s else line.cross_spacing_b)) :
    ∀ (lines : List FlexLine) (k : Nat), k + lines.length = N → lines ≠ [] →
      (∀ line ∈ lines, line.cross_spacing_a = 0 ∧ line.cross_spacing_b = 0) →
      ((modifyBack (fun line : FlexLine => { line with cross_spacing_b := r })
          (mapWithIndex f k lines)).map (fun line => line.cross_spacing_a + line.cross_spacing_b)).sum
        = (if k > 0 then s else 0) + ((2 * (lines.length - 1) : Nat) : ℚ) * s + r := by
  intro lines
  induction lines with
  | nil => intro k _ hne; exact absurd rfl hne
  | cons line rest ih =>
    intro k hk _ hzero
    obtain ⟨ha, hb⟩ := hzero line (by simp)
    obtain ⟨hfa, hfb⟩ := hf k line
    cases rest with
    | nil =>
      simp only [mapWithIndex, modifyBack, List.map_cons, List.map_nil, List.sum_cons, List.sum_nil,
        hfa, ha, List.length_singleton, Nat.sub_self, Nat.mul_zero, Nat.cast_zero]
      ring
    | cons next rest =>
      have hlen : k + 1 + (next :: rest).length = N := by
        simp only [List.length_cons] at hk ⊢
        omega
      have hk1 : k < N - 1 := by
        simp only [List.length_cons] at hk
        omega
      have hpos : k + 1 > 0 := by omega
      have hrest := ih (k + 1) hlen (by simp)
        (fun other hother => hzero other (List.mem_cons_of_mem _ hother))
      simp only [mapWithIndex, modifyBack, List.map_cons, List.sum_cons] at hrest ⊢
      rw [hrest, hfa, hfb, ha, if_pos hk1, if_pos hpos]
      simp only [List.length_cons, Nat.add_sub_cancel]
      push_cast
      ring

/-- The cross space handed out by the line packing to lines without spacing: the
remaining space, except that `Stretch` hands out nothing and `SpaceBetween` with
two lines or more hands the remaining space out twice. -/
theorem PackLines_spacing_sum (align_content : Style.AlignContent) (r : ℚ) (lines : List FlexLine)
    (hne : lines ≠ [])
    (hzero : ∀ line ∈ lines, line.cross_spacing_a = 0 ∧ line.cross_spacing_b = 0) :
    ((PackLines align_content r lines).map (fun line => line.cross_spacing_a + line.cross_spacing_b)).sum
      = (if align_content = Style.AlignContent.Stretch then 0 else r)
        + (if align_content = Style.AlignContent.SpaceBetween ∧ 2 ≤ lines.length then r else 0) := by
  cases align_content <;> simp only [PackLines, reduceCtorEq, if_false, if_true, false_and, true_and,
    add_zero]
  · exact spacing_sum_modifyBack r lines hne hzero
  · cases lines with
    | nil => exact absurd rfl hne
    | cons line rest =>
      simp only [modifyFront, List.map_cons, List.sum_cons, (hzero line (by simp)).2]
      rw [spacing_sum_zero rest (fun other hother => hzero other (List.mem_cons_of_mem _ hother))]
      ring
  · cases lines with
    | nil => exact absurd rfl hne
    | cons line rest =>
      cases rest with
      | nil =>
        simp only [modifyFront, modifyBack, List.map_cons, List.map_nil, List.sum_cons, List.sum_nil]
        ring
      | cons next rest =>
        simp only [modifyFront, modifyBack, List.map_cons, List.sum_cons, (hzero line (by simp)).2]
        have := spacing_sum_modifyBack (1 / 2 * r) (next :: rest) (by simp)
          (fun other hother => hzero other (List.mem_cons_of_mem _ hother))
        simp only [List.map_cons, List.sum_cons] at this
        rw [this]
        ring
  · by_cases hnum : 2 ≤ lines.length
    · rw [if_pos (by omega), if_pos hnum]
      have hsum := spacing_sum_space_between (r / ((2 * lines.length - 2 : Nat) : ℚ)) r lines.length
        (fun i (line : FlexLine) =>
          let line :=
            if i > 0 then
              { line with cross_spacing_a := r / ((2 * lines.length - 2 : Nat) : ℚ) }
            else line
          if i < lines.length - 1 then
            { line with cross_spacing_b := r / ((2 * lines.length - 2 : Nat) : ℚ) }
          else line)
        (by
          intro i line
          by_cases h1 : i > 0 <;> by_cases h2 : i < lines.length - 1 <;> simp [h1, h2])
        lines 0 (by omega) hne hzero
      rw [hsum]
      have hcast : ((2 * lines.length - 2 : Nat) : ℚ) = ((2 * (lines.length - 1) : Nat) : ℚ) := by
        have : 2 * lines.length - 2 = 2 * (lines.length - 1) := by omega
        rw [this]
      have hpos : ((2 * (lines.length - 1) : Nat) : ℚ) ≠ 0 := by
        have : 0 < 2 * (lines.length - 1) := by omega
        exact_mod_cast this.ne'
      rw [hcast, mul_div_cancel₀ _ hpos]
      simp
    · rw [if_neg (by omega), if_neg hnum]
      rw [spacing_sum_modifyBack r lines hne hzero]
      ring
  · simp only [List.map_map, Function.comp_def]
    have : ∀ l : List FlexLine, (l.map (fun _ : FlexLine =>
        r / ((2 * lines.length : Nat) : ℚ) + r / ((2 * lines.length : Nat) : ℚ))).sum
        = (l.length : ℚ) * (r / ((2 * lines.length : Nat) : ℚ) + r / ((2 * lines.length : Nat) : ℚ)) := by
      intro l
      induction l with
      | nil => simp
      | cons x xs ih =>
        simp only [List.map_cons, List.sum_cons, ih, List.length_cons]
        push_cast
        ring
    rw [this]
    have hn : (lines.length : ℚ) ≠ 0 := by
      have := List.length_pos.mpr hne
      exact_mod_cast this.ne'
    push_cast
    field_simp
    ring
  · exact spacing_sum_zero lines hzero

theorem StretchLines_cross_size_sum (cross_available_size : ℚ) (lines : List FlexLine)
    (hne : lines ≠ []) (havailable : 0 ≤ cross_available_size) :
    cross_available_size
      ≤ ((StretchLines cross_available_size Style.AlignContent.Stretch lines).map
          FlexLine.cross_size).sum := by
  unfold StretchLines
  rw [if_pos ⟨havailable, rfl⟩]
  simp only
  split
  · rename_i hremaining
    have hlen : (lines.length : ℚ) ≠ 0 := by
      have := List.length_pos.mpr hne
      exact_mod_cast this.ne'
    have : ∀ (l : List FlexLine) (d : ℚ),
        ((l.map (fun line : FlexLine => { line with cross_size := line.cross_size + d })).map
          FlexLine.cross_size).sum = (l.map FlexLine.cross_size).sum + (l.length : ℚ) * d := by
      intro l d
      induction l with
      | nil => simp
      | cons x xs ih =>
        simp only [List.map_cons, List.sum_cons, ih, List.length_cons]
        push_cast
        ring
    rw [this, mul_div_cancel₀ _ hlen, AccumulatedLinesCrossSize_eq_sum]
    linarith
  · rename_i hremaining
    rw [AccumulatedLinesCrossSize_eq_sum] at hremaining
    linarith

theorem length_eq_of_map_eq {α β : Type} (g : α → β) (first second : List α)
    (h : first.map g = second.map g) : first.length = second.length := by
  have := congrArg List.length h
  simpa using this

/-- A container with items has lines at every stage of `Format()`. -/
theorem LayoutFlex.lines_ne_nil (host : Host) (self : LayoutFlex) (hitems : (self.Items host).1 ≠ []) :
    self.MainLines host ≠ []
      ∧ DetermineLineCrossSizes self.Axes
          (DetermineItemCrossSizes host self.Axes.main_axis_horizontal
            self.flex_content_containing_block (self.MainLines host)).1 ≠ []
      ∧ (self.CrossLines host).1 ≠ [] := by
  have hcontainer : (self.Container host).lines ≠ [] :=
    (CollectLines_partition self.Axes.flex_single_line self.Axes.main_wrap_size (self.Items host).1
      hitems).2.2.1
  have hmain : (self.MainLines host).length = (self.Container host).lines.length :=
    length_eq_of_map_eq _ _ _ (LayoutFlex.lines_elements host self).1
  have hsized : (DetermineLineCrossSizes self.Axes
      (DetermineItemCrossSizes host self.Axes.main_axis_horizontal
        self.flex_content_containing_block (self.MainLines host)).1).length
      = (self.MainLines host).length :=
    length_eq_of_map_eq _ _ _ ((DetermineLineCrossSizes_EraseCross _ _).trans
      (DetermineItemCrossSizes_EraseCross _ _ _ _))
  have hcross : (self.CrossLines host).1.length = (self.MainLines host).length :=
    length_eq_of_map_eq _ _ _ (LayoutFlex.CrossLines_EraseCross host self)
  have hpos : 0 < (self.Container host).lines.length := List.length_pos.mpr hcontainer
  refine ⟨?_, ?_, ?_⟩ <;> apply List.ne_nil_of_length_pos <;> omega

/-- Under `align-content: stretch` with a known cross size the lines reach the
line packing filling the available cross size at least. -/
theorem LayoutFlex.CrossLines_stretched (host : Host) (self : LayoutFlex)
    (hitems : (self.Items host).1 ≠ [])
    (hstretch : self.element_flex.computed.align_content = Style.AlignContent.Stretch)
    (havailable : 0 ≤ self.Axes.cross_available_size) :
    self.Axes.cross_available_size ≤ AccumulatedLinesCrossSize (self.CrossLines host).1 := by
  rw [AccumulatedLinesCrossSize_eq_sum]
  simp only [LayoutFlex.CrossLines]
  rw [AlignCrossAxis_cross_size, DetermineUsedCrossSizes_cross_size, hstretch]
  exact StretchLines_cross_size_sum _ _ (LayoutFlex.lines_ne_nil host self hitems).2.1 havailable

/-- Claim C16 on the code.  For every container with items whose lines reach the
line packing with cross sizes summing to at most the used cross size, the sum
of the cross sizes and of both spacings of all lines after the line packing
(before snapping) is the used cross size for every value of `align-content`
with one exception: under `SpaceBetween` with two lines or more it exceeds the
used cross size by the remaining space, which the statement the case falls
through to hands to the last line a second time. -/
theorem LayoutFlex.line_packing_total (host : Host) (self : LayoutFlex)
    (hitems : (self.Items host).1 ≠ [])
    (hfits : AccumulatedLinesCrossSize (self.CrossLines host).1 ≤ self.UsedCrossSize host) :
    ((DistributeCrossSpace self.element_flex.computed.align_content (self.UsedCrossSize host)
          (self.CrossLines host).1).map FlexLine.cross_size).sum
        + ((DistributeCrossSpace self.element_flex.computed.align_content (self.UsedCrossSize host)
            (self.CrossLines host).1).map
          (fun line => line.cross_spacing_a + line.cross_spacing_b)).sum
      = self.UsedCrossSize host
        + (if self.element_flex.computed.align_content = Style.AlignContent.SpaceBetween
              ∧ 2 ≤ (self.CrossLines host).1.length then
            self.UsedCrossSize host - AccumulatedLinesCrossSize (self.CrossLines host).1
          else 0) := by
  rw [DistributeCrossSpace_cross_size, ← AccumulatedLinesCrossSize_eq_sum]
  have hne := (LayoutFlex.lines_ne_nil host self hitems).2.2
  have hzero := LayoutFlex.CrossLines_spacing host self
  unfold DistributeCrossSpace
  simp only
  split
  · rename_i hremaining
    have hnot : self.element_flex.computed.align_content ≠ Style.AlignContent.Stretch := by
      intro hstretch
      by_cases havailable : 0 ≤ self.Axes.cross_available_size
      · have hfilled := LayoutFlex.CrossLines_stretched host self hitems hstretch havailable
        have hused : self.UsedCrossSize host = self.Axes.cross_available_size := by
          simp [LayoutFlex.UsedCrossSize, GetUsedCrossSize, havailable]
        rw [hused] at hremaining
        linarith
      · have hused : self.UsedCrossSize host = AccumulatedLinesCrossSize (self.CrossLines host).1 := by
          simp [LayoutFlex.UsedCrossSize, GetUsedCrossSize, havailable]
        rw [hused] at hremaining
        linarith
    rw [PackLines_spacing_sum _ _ _ hne hzero, if_neg hnot]
    split <;> ring
  · rename_i hremaining
    have hequal : self.UsedCrossSize host = AccumulatedLinesCrossSize (self.CrossLines host).1 := by
      linarith
    rw [spacing_sum_zero _ hzero, ← hequal]
    simp

/-- Claim C16, failing input: a wrapping row of content size 100 × 200 with
`align-content: space-between` around a child of size 100 × 50 and a child of
size 100 × 80 has two lines of cross sizes 50 and 80, which fit the used cross
size 200; after the line packing their spacings are (0, 35) and (35, 70), and
the cross sizes and spacings sum to 270, not to 200. -/
theorem LayoutFlex.line_packing_total_space_between :
    (DistributeCrossSpace Style.AlignContent.SpaceBetween 200
        ((Scenario.twoLines Style.FlexWrap.Wrap Style.AlignContent.SpaceBetween).CrossLines
          Scenario.host).1).map
        (fun line => (line.cross_size, line.cross_spacing_a, line.cross_spacing_b))
        = [(50, 0, 35), (80, 35, 70)]
      ∧ (Scenario.twoLines Style.FlexWrap.Wrap Style.AlignContent.SpaceBetween).UsedCrossSize
          Scenario.host = 200
      ∧ ((DistributeCrossSpace Style.AlignContent.SpaceBetween 200
            ((Scenario.twoLines Style.FlexWrap.Wrap Style.AlignContent.SpaceBetween).CrossLines
              Scenario.host).1).map FlexLine.cross_size).sum
          + ((DistributeCrossSpace Style.AlignContent.SpaceBetween 200
              ((Scenario.twoLines Style.FlexWrap.Wrap Style.AlignContent.SpaceBetween).CrossLines
                Scenario.host).1).map
            (fun line => line.cross_spacing_a + line.cross_spacing_b)).sum
        = 270 := by
  have hused : (Scenario.twoLines Style.FlexWrap.Wrap Style.AlignContent.SpaceBetween).UsedCrossSize
      Scenario.host = 200 := by decide!
  have hextra : (if (Scenario.twoLines Style.FlexWrap.Wrap
        Style.AlignContent.SpaceBetween).element_flex.computed.align_content
          = Style.AlignContent.SpaceBetween
        ∧ 2 ≤ ((Scenario.twoLines Style.FlexWrap.Wrap Style.AlignContent.SpaceBetween).CrossLines
          Scenario.host).1.length then
        (200 : ℚ) - AccumulatedLinesCrossSize
          ((Scenario.twoLines Style.FlexWrap.Wrap Style.AlignContent.SpaceBetween).CrossLines
            Scenario.host).1
      else 0) = 70 := by decide!
  have htotal := LayoutFlex.line_packing_total Scenario.host
    (Scenario.twoLines Style.FlexWrap.Wrap Style.AlignContent.SpaceBetween) (by decide!) (by decide!)
  rw [hused, hextra] at htotal
  refine ⟨by decide!, hused, ?_⟩
  rw [show (270 : ℚ) = 200 + 70 by norm_num]
  exact htotal

/-! ## Offsets are not negative: the main axis -/

theorem mem_of_lines_map_eq {β : Type} (g : FlexItem → β) (first second : List FlexLine)
    (h : first.map (fun line => line.items.map g) = second.map (fun line => line.items.map g)) :
    ∀ line ∈ first, ∀ item ∈ line.items, ∃ other ∈ second, ∃ source ∈ other.items, g source = g item := by
  intro line hline item hitem
  have hmem : line.items.map g ∈ first.map (fun line => line.items.map g) :=
    List.mem_map.mpr ⟨line, hline, rfl⟩
  rw [h, List.mem_map] at hmem
  obtain ⟨other, hother, hequal⟩ := hmem
  have hitem' : g item ∈ other.items.map g := by
    rw [hequal]
    exact List.mem_map.mpr ⟨item, hitem, rfl⟩
  rw [List.mem_map] at hitem'
  obtain ⟨source, hsource, hg⟩ := hitem'
  exact ⟨other, hother, source, hsource, hg⟩

theorem LayoutFlex.SizedLines_EraseCross (host : Host) (self : LayoutFlex) :
    (self.SizedLines host).map (fun line => line.items.map FlexItem.EraseCross)
      = (self.MainLines host).map (fun line => line.items.map FlexItem.EraseCross) := by
  simp only [LayoutFlex.SizedLines]
  rw [DetermineUsedCrossSizes_EraseCross, StretchLines_EraseCross,
    DetermineLineCrossSizes_EraseCross, DetermineItemCrossSizes_EraseCross]

/-- Claim C18 fails on the code.  A row of width 10 holds one child with a flex
basis of 0, `flex-shrink: 1` and a padding of 10 on either side.  Its flex
factors and its inner flex base size are not negative.  The line is in shrink
mode (accumulated hypothetical main size 20, used main size 10), the child is
not frozen at initialisation, and the first iteration has the free space −10 to
distribute, so the shrink branch is executed; its divisor
`scaled_flex_shrink_factor_sum` is 0, and so is the dividend of the only item:
the source computes 0 / 0 there. -/
theorem LayoutFlex.shrink_divisor_zero :
    Scenario.zeroBasisRow.UsedMainSize Scenario.host = 10
      ∧ (Scenario.zeroBasisRow.Container Scenario.host).lines.map (fun line =>
          (line.accumulated_hypothetical_main_size,
            line.items.map (fun item =>
              (item.flex_grow_factor, item.flex_shrink_factor, item.inner_flex_base_size))))
        = [(20, [(0, 1, 0)])]
      ∧ (Scenario.zeroBasisRow.Container Scenario.host).lines.map (fun line =>
          (FlexModeGrow 10 line, AllFrozen (InitializeItems 10 line))) = [(false, false)]
      ∧ (Scenario.zeroBasisRow.Container Scenario.host).lines.map (fun line =>
          ScaledRemainingFreeSpace 10 (FlexModeGrow 10 line)
            (RemainingFreeSpace 10 (InitializeItems 10 line)) (InitializeItems 10 line)) = [-10]
      ∧ (Scenario.zeroBasisRow.Container Scenario.host).lines.map (fun line =>
          ScaledFlexShrinkFactorSum (InitializeItems 10 line)) = [0]
      ∧ (Scenario.zeroBasisRow.Container Scenario.host).lines.map (fun line =>
          (InitializeItems 10 line).map (fun item =>
            (item.frozen, item.flex_shrink_factor * item.inner_flex_base_size)))
        = [[(false, 0)]] := by
  refine ⟨by decide!, by decide!, by decide!, by decide!, by decide!, by decide!⟩

/-! ## Flexible lengths: inflexible items -/

theorem zip_map_right_eq {α β γ : Type} (G : β → γ) (first : List α) (second : List β) :
    first.zip (second.map G) = (first.zip second).map (fun pair => (pair.1, G pair.2)) := by
  induction first generalizing second with
  | nil => simp
  | cons a rest ih =>
    cases second with
    | nil => simp
    | cons b others => simp [ih]

/-- Claim C20.  Inflexible items keep their hypothetical size.  For every line,
the resolution of the flexible lengths returns as many items as the line has,
in the same places, and every item that meets a condition of the initial freeze
(its applicable flex factor is 0, or its flex base size exceeds its hypothetical
main size in grow mode, or is below it in shrink mode) ends frozen, with a used
main size equal to its hypothetical main size, whatever the loop does to the
other items. -/
theorem ResolveFlexibleLengths_inflexible (used_main_size : ℚ) (line : FlexLine) :
    (ResolveFlexibleLengths used_main_size line).items.length = line.items.length
      ∧ ∀ pair ∈ line.items.zip (ResolveFlexibleLengths used_main_size line).items,
          (FlexFactor (FlexModeGrow used_main_size line) pair.1 = 0
            ∨ (FlexModeGrow used_main_size line = true
              ∧ pair.1.flex_base_size > pair.1.hypothetical_main_size)
            ∨ (FlexModeGrow used_main_size line = false
              ∧ pair.1.flex_base_size < pair.1.hypothetical_main_size)) →
          pair.2.used_main_size = pair.1.hypothetical_main_size
            ∧ pair.2.frozen = true
            ∧ pair.2.element = pair.1.element := by
  obtain ⟨items, iterations, -, hres, -, hlen, -, hkept⟩ :=
    ResolveFlexibleLengths_spec used_main_size line
      (fun items => ∀ pair ∈ line.items.zip items,
        (pair.2.element = pair.1.element)
          ∧ ((FlexFactor (FlexModeGrow used_main_size line) pair.1 = 0
              ∨ (FlexModeGrow used_main_size line = true
                ∧ pair.1.flex_base_size > pair.1.hypothetical_main_size)
              ∨ (FlexModeGrow used_main_size line = false
                ∧ pair.1.flex_base_size < pair.1.hypothetical_main_size)) →
            pair.2.frozen = true ∧ pair.2.target_main_size = pair.1.hypothetical_main_size))
      (by
        intro pair hpair
        rw [InitializeItems, zip_map_self_right] at hpair
        simp only [List.mem_map] at hpair
        obtain ⟨a, -, rfl⟩ := hpair
        constructor
        · have h := congrArg FlexItem.element
            (InitializeItem_EraseResolution (FlexModeGrow used_main_size line) a)
          exact h
        · intro hcondition
          simp only at hcondition ⊢
          rcases InitializeItem_cases (FlexModeGrow used_main_size line) a with h | h
          · exact h
          · exact absurd hcondition h.2.2)
      (by
        intro items _ hkept
        obtain ⟨D, hstep, -, hfrozen, hshape⟩ := ResolveIteration_eq_map used_main_size
          (FlexModeGrow used_main_size line)
          (RemainingFreeSpace used_main_size (InitializeItems used_main_size line)) items
        rw [hstep]
        intro pair hpair
        rw [zip_map_right_eq] at hpair
        simp only [List.mem_map] at hpair
        obtain ⟨source, hsource, rfl⟩ := hpair
        obtain ⟨helement, hfixed⟩ := hkept source hsource
        constructor
        · have h := congrArg FlexItem.element (iterate_EraseResolution D hshape
            (TotalMinMaxViolation (items.map D)) source.2)
          simp only
          rw [← helement]
          exact h
        · intro hcondition
          obtain ⟨hf, ht⟩ := hfixed hcondition
          simp only
          rw [iterate_frozen D hfrozen _ source.2 hf]
          exact ⟨hf, ht⟩)
  rw [hres]
  constructor
  · simpa [SetUsedMainSizes] using hlen
  · intro pair hpair hcondition
    simp only [SetUsedMainSizes] at hpair
    rw [zip_map_right_eq] at hpair
    simp only [List.mem_map] at hpair
    obtain ⟨source, hsource, rfl⟩ := hpair
    obtain ⟨helement, hfixed⟩ := hkept source hsource
    obtain ⟨hf, ht⟩ := hfixed hcondition
    exact ⟨ht, hf, helement⟩

/-- Claim C20, scenario: in a row of width 500 a child of width 100 with
`flex-grow: 0` keeps its hypothetical main size 100 while the child with
`flex-grow: 1` beside it grows to 400. -/
theorem ResolveFlexibleLengths_inflexible_mixed :
    (Scenario.mixedGrowRow.Container Scenario.host).lines.map
        (fun line => line.items.map (fun item => (item.flex_grow_factor, item.hypothetical_main_size)))
        = [[(0, 100), (1, 100)]]
      ∧ (Scenario.mixedGrowRow.ResolvedLines Scenario.host).map
          (fun line => line.items.map FlexItem.used_main_size) = [[100, 400]]
      ∧ ∀ line ∈ (Scenario.mixedGrowRow.Container Scenario.host).lines,
          ∀ pair ∈ line.items.zip (ResolveFlexibleLengths 500 line).items,
            pair.1.flex_grow_factor = 0 →
              pair.2.used_main_size = pair.1.hypothetical_main_size :=
  have hmode : ∀ line ∈ (Scenario.mixedGrowRow.Container Scenario.host).lines,
      FlexModeGrow 500 line = true := by decide!
  ⟨by decide!, by decide!, fun line hline pair hpair hzero =>
    ((ResolveFlexibleLengths_inflexible 500 line).2 pair hpair
      (Or.inl (by rw [hmode line hline]; exact hzero))).1⟩

/-! ## The resolved `align-self` -/

theorem BuildFlexItems_align_self (host : Host) (computed_flex : ComputedValues) (axes : FlexAxes)
    (flex_content_containing_block : Vector2f) (children : List Element) :
    ∀ item ∈ (BuildFlexItems host computed_flex axes flex_content_containing_block children).1,
      item.align_self
        = (if item.element.computed.align_self = Style.AlignSelf.Auto then
            AlignSelf_of_AlignItems computed_flex.align_items
          else item.element.computed.align_self) := by
  induction children with
  | nil => simp [BuildFlexItems]
  | cons element rest ih =>
    simp only [BuildFlexItems]
    split
    · exact ih
    · intro item hitem
      simp only [List.mem_cons] at hitem
      rcases hitem with rfl | hitem
      · rfl
      · exact ih item hitem

theorem AlignSelf_of_AlignItems_ne_Auto (align_items : Style.AlignItems) :
    AlignSelf_of_AlignItems align_items ≠ Style.AlignSelf.Auto := by
  cases align_items <;> simp [AlignSelf_of_AlignItems]

/-- The lines as they enter the cross alignment of `Format()` hold items with
the `align_self` of built items. -/
theorem LayoutFlex.SizedLines_align_self (host : Host) (self : LayoutFlex) :
    ∀ line ∈ self.SizedLines host, ∀ item ∈ line.items,
      ∃ built ∈ (self.Items host).1, built.align_self = item.align_self := by
  have hsized := lines_map_of_erase FlexItem.EraseCross FlexItem.align_self (fun _ => rfl) _ _
    (LayoutFlex.SizedLines_EraseCross host self)
  have hmain := lines_map_of_erase FlexItem.EraseMainAlignment FlexItem.align_self (fun _ => rfl) _ _
    (LayoutFlex.MainLines_EraseMainAlignment host self)
  have hresolved := lines_map_of_erase FlexItem.EraseResolution FlexItem.align_self (fun _ => rfl) _ _
    (LayoutFlex.ResolvedLines_EraseResolution host self)
  intro line hline item hitem
  obtain ⟨other, hother, source, hsource, hg⟩ :=
    mem_of_lines_map_eq FlexItem.align_self _ _ (hsized.trans (hmain.trans hresolved)) line hline
      item hitem
  exact ⟨source, CollectLines_mem _ _ _ other hother source hsource, hg⟩

theorem BuildFlexItems_no_error (host : Host) (computed_flex : ComputedValues)
    (axes : FlexAxes) (flex_content_containing_block : Vector2f) (children : List Element) :
    HostCall.Error ∉ (BuildFlexItems host computed_flex axes flex_content_containing_block children).2 := by
  induction children with
  | nil => simp [BuildFlexItems]
  | cons element rest ih =>
    simp only [BuildFlexItems]
    split
    · exact ih
    · simp only [List.mem_append, not_or]
      refine ⟨?_, ih⟩
      simp only [BuildFlexItem]
      split_ifs <;> simp

theorem DetermineItemCrossSizes_no_error (host : Host) (main_axis_horizontal : Bool)
    (flex_content_containing_block : Vector2f) (lines : List FlexLine) :
    HostCall.Error
      ∉ (DetermineItemCrossSizes host main_axis_horizontal flex_content_containing_block lines).2 := by
  have hitems : ∀ items : List FlexItem, HostCall.Error
      ∉ (SetHypotheticalCrossSizes host main_axis_horizontal flex_content_containing_block items).2 := by
    intro items
    induction items with
    | nil => simp [SetHypotheticalCrossSizes]
    | cons item rest ih =>
      simp only [SetHypotheticalCrossSizes, List.mem_append, not_or]
      refine ⟨?_, ih⟩
      simp only [HypotheticalCrossSize]
      split_ifs <;> simp
  induction lines with
  | nil => simp [DetermineItemCrossSizes]
  | cons line rest ih =>
    simp only [DetermineItemCrossSizes, List.mem_append, not_or]
    exact ⟨hitems line.items, ih⟩

/-- The cross alignment reaches its `AlignSelf::Auto` branch only for an item
whose `align_self` is `Auto`. -/
theorem CrossOffset_no_error (wrap_reverse : Bool) (line_cross_size : ℚ) (item : FlexItem)
    (h : item.align_self ≠ Style.AlignSelf.Auto) :
    HostCall.Error ∉ (CrossOffset wrap_reverse line_cross_size item).2 := by
  simp only [CrossOffset]
  cases hself : item.align_self
  · exact absurd hself h
  all_goals split_ifs <;> simp

theorem AlignCrossAxis_no_error (host : Host) (wrap_reverse : Bool) (lines : List FlexLine)
    (h : ∀ line ∈ lines, ∀ item ∈ line.items, item.align_self ≠ Style.AlignSelf.Auto) :
    HostCall.Error ∉ (AlignCrossAxis host wrap_reverse lines).2 := by
  have hitems : ∀ (size : ℚ) (items : List FlexItem),
      (∀ item ∈ items, item.align_self ≠ Style.AlignSelf.Auto) →
      HostCall.Error ∉ (SetCrossOffsets wrap_reverse size items).2 := by
    intro size items
    induction items with
    | nil => intro _; simp [SetCrossOffsets]
    | cons item rest ih =>
      intro hall
      simp only [SetCrossOffsets, List.mem_append, not_or]
      exact ⟨CrossOffset_no_error wrap_reverse size item (hall item (by simp)),
        ih (fun other hother => hall other (List.mem_cons_of_mem _ hother))⟩
  induction lines with
  | nil => simp [AlignCrossAxis]
  | cons line rest ih =>
    simp only [AlignCrossAxis, List.mem_append, not_or]
    exact ⟨hitems line.cross_size line.items (h line (by simp)),
      ih (fun other hother => h other (List.mem_cons_of_mem _ hother))⟩

theorem FormatItems_no_error (host : Host) (main_axis_horizontal : Bool)
    (flex_content_containing_block flex_content_offset : Vector2f) (lines : List FlexLine) :
    ∀ overflow : Vector2f, HostCall.Error
      ∉ (FormatItems host main_axis_horizontal flex_content_containing_block flex_content_offset
          overflow lines).2 := by
  have hitems : ∀ (line : FlexLine) (items : List FlexItem) (overflow : Vector2f), HostCall.Error
      ∉ (FormatLineItems host main_axis_horizontal flex_content_containing_block flex_content_offset
          line overflow items).2 := by
    intro line items
    induction items with
    | nil => intro overflow; simp [FormatLineItems]
    | cons item rest ih =>
      intro overflow
      simp only [FormatLineItems, List.mem_append, not_or]
      exact ⟨by simp, ih _⟩
  induction lines with
  | nil => intro overflow; simp [FormatItems]
  | cons line rest ih =>
    intro overflow
    simp only [FormatItems, List.mem_append, not_or]
    exact ⟨hitems line line.items overflow, ih _⟩

/-- Claim C26.  `align_self` is never `Auto` after the item build.  For every
container and every child that becomes an item, the `align_self` of the item is
the computed `align-self` of the child, except that `Auto` is replaced by the
container's `align-items` mapped to the `AlignSelf` value of the same name; it
is one of `FlexStart`, `FlexEnd`, `Center`, `Baseline`, `Stretch`.  The items
reach the cross alignment with that value, so the `AlignSelf::Auto` branch of
its switch is not taken: neither `Format()` nor the static entry point reports
the error of that branch. -/
theorem LayoutFlex.align_self_resolved (host : Host) (self : LayoutFlex) :
    (∀ item ∈ (self.Items host).1,
        item.align_self
            = (if item.element.computed.align_self = Style.AlignSelf.Auto then
                AlignSelf_of_AlignItems self.element_flex.computed.align_items
              else item.element.computed.align_self)
          ∧ (item.align_self = Style.AlignSelf.FlexStart ∨ item.align_self = Style.AlignSelf.FlexEnd
              ∨ item.align_self = Style.AlignSelf.Center ∨ item.align_self = Style.AlignSelf.Baseline
              ∨ item.align_self = Style.AlignSelf.Stretch))
      ∧ (AlignSelf_of_AlignItems Style.AlignItems.FlexStart = Style.AlignSelf.FlexStart
          ∧ AlignSelf_of_AlignItems Style.AlignItems.FlexEnd = Style.AlignSelf.FlexEnd
          ∧ AlignSelf_of_AlignItems Style.AlignItems.Center = Style.AlignSelf.Center
          ∧ AlignSelf_of_AlignItems Style.AlignItems.Baseline = Style.AlignSelf.Baseline
          ∧ AlignSelf_of_AlignItems Style.AlignItems.Stretch = Style.AlignSelf.Stretch)
      ∧ (∀ line ∈ self.SizedLines host, ∀ item ∈ line.items,
          item.align_self ≠ Style.AlignSelf.Auto)
      ∧ HostCall.Error ∉ (self.Format host).2
      ∧ (∀ (box : Box) (min_size max_size flex_containing_block : Vector2f),
          HostCall.Error ∉ (LayoutFlex.FormatBox host box min_size max_size flex_containing_block
            self.element_flex).trace) := by
  have hbuilt : ∀ layout : LayoutFlex, ∀ item ∈ (layout.Items host).1,
      item.align_self ≠ Style.AlignSelf.Auto := by
    intro layout item hitem
    rw [BuildFlexItems_align_self host _ _ _ _ item hitem]
    split
    · exact AlignSelf_of_AlignItems_ne_Auto _
    · assumption
  have hsized : ∀ layout : LayoutFlex, ∀ line ∈ layout.SizedLines host, ∀ item ∈ line.items,
      item.align_self ≠ Style.AlignSelf.Auto := by
    intro layout line hline item hitem
    obtain ⟨built, hmem, heq⟩ := LayoutFlex.SizedLines_align_self host layout line hline item hitem
    rw [← heq]
    exact hbuilt layout built hmem
  have hformat : ∀ layout : LayoutFlex, HostCall.Error ∉ (layout.Format host).2 := by
    intro layout
    simp only [LayoutFlex.Format]
    split
    · exact BuildFlexItems_no_error host _ _ _ _
    · simp only [List.mem_append, not_or]
      refine ⟨⟨BuildFlexItems_no_error host _ _ _ _, ?_⟩, FormatItems_no_error host _ _ _ _ _⟩
      simp only [LayoutFlex.CrossLines, List.mem_append, not_or]
      exact ⟨DetermineItemCrossSizes_no_error host _ _ _,
        AlignCrossAxis_no_error host _ _ (hsized layout)⟩
  refine ⟨?_, ⟨rfl, rfl, rfl, rfl, rfl⟩, hsized self, hformat self, ?_⟩
  · intro item hitem
    refine ⟨BuildFlexItems_align_self host _ _ _ _ item hitem, ?_⟩
    have hne := hbuilt self item hitem
    cases hself : item.align_self
    · exact absurd hself hne
    all_goals simp
  · intro box min_size max_size flex_containing_block
    simp only [LayoutFlex.FormatBox]
    split
    · simp
    · exact hformat _

/-- Claim C26, scenario: in a row with `align-items: stretch` a child with the
initial `align-self` (`Auto`) becomes an item with `align_self = Stretch`, a
child with `align-self: flex-end` keeps `FlexEnd`, and no error is reported. -/
theorem LayoutFlex.align_self_resolved_stretch_and_flex_end :
    (Scenario.stretchRow.Items Scenario.host).1.map FlexItem.align_self
        = [Style.AlignSelf.Stretch, Style.AlignSelf.Stretch]
      ∧ ((Scenario.alignedRow Style.FlexWrap.Nowrap Style.AlignSelf.FlexEnd
            ⟨Style.LengthType.Length, 0⟩ ⟨Style.LengthType.Length, 0⟩).Items Scenario.host).1.map
          FlexItem.align_self = [Style.AlignSelf.FlexEnd]
      ∧ HostCall.Error ∉ (Scenario.stretchRow.Format Scenario.host).2 :=
  ⟨by decide!, by decide!, (LayoutFlex.align_self_resolved Scenario.host Scenario.stretchRow).2.2.2.1⟩

/-! ## The used cross size of an item -/

theorem LayoutFlex.HypotheticalCrossLines_elements (host : Host) (self : LayoutFlex) :
    (self.HypotheticalCrossLines host).map (fun line => line.items.map FlexItem.element)
      = (self.Container host).lines.map (fun line => line.items.map FlexItem.element) :=
  (lines_map_of_erase FlexItem.EraseCross FlexItem.element (fun _ => rfl) _ _
    (DetermineItemCrossSizes_EraseCross host self.Axes.main_axis_horizontal
      self.flex_content_containing_block (self.MainLines host))).trans
    (LayoutFlex.lines_elements host self).1

/-- Every line of a container with items holds an item when the cross sizes of
the lines are determined, and a `Nowrap` container has one line. -/
theorem LayoutFlex.HypotheticalCrossLines_shape (host : Host) (self : LayoutFlex)
    (hitems : (self.Items host).1 ≠ []) :
    (∀ line ∈ self.HypotheticalCrossLines host, line.items ≠ [])
      ∧ (self.element_flex.computed.flex_wrap = Style.FlexWrap.Nowrap →
          (self.HypotheticalCrossLines host).length = 1) := by
  have hpartition := CollectLines_partition self.Axes.flex_single_line self.Axes.main_wrap_size
    (self.Items host).1 hitems
  have helements := LayoutFlex.HypotheticalCrossLines_elements host self
  constructor
  · intro line hline hnil
    have hmem : line.items.map FlexItem.element
        ∈ (self.HypotheticalCrossLines host).map (fun line => line.items.map FlexItem.element) :=
      List.mem_map.mpr ⟨line, hline, rfl⟩
    rw [helements, List.mem_map] at hmem
    obtain ⟨other, hother, hequal⟩ := hmem
    rw [hnil] at hequal
    have hempty : other.items = [] := by simpa using hequal
    exact hpartition.2.1 other hother hempty
  · intro hwrap
    have hsingle : self.Axes.flex_single_line = true := by
      simp [LayoutFlex.Axes, GetFlexAxes, hwrap]
    have hone : (self.Container host).lines.length = 1 := by
      have := congrArg List.length (hpartition.2.2.2 hsingle)
      simpa using this
    rw [length_eq_of_map_eq _ _ _ helements]
    exact hone

/-- Claim C22.  The cross size of a line.  For every container with items: when
the container is `Nowrap` and its available cross size is not negative, it has
one line, whose cross size before the stretching of `align-content` is the
available cross size, whatever the hypothetical cross sizes of the items and the
cross limits of the container are; in every other case the cross size of each
line is `max(0, largest)`, where `largest` is the largest hypothetical cross
size among the items of the line, clamped to `[cross_min_size, cross_max_size]`
when the container is `Nowrap` and not otherwise. -/
theorem LayoutFlex.line_cross_sizes (host : Host) (self : LayoutFlex)
    (hitems : (self.Items host).1 ≠ []) :
    (self.element_flex.computed.flex_wrap = Style.FlexWrap.Nowrap →
        0 ≤ self.Axes.cross_available_size →
        (self.LineCrossSizedLines host).map FlexLine.cross_size = [self.Axes.cross_available_size])
      ∧ (¬ (self.element_flex.computed.flex_wrap = Style.FlexWrap.Nowrap
            ∧ 0 ≤ self.Axes.cross_available_size) →
          (self.LineCrossSizedLines host).map FlexLine.cross_size
            = (self.HypotheticalCrossLines host).map (fun line =>
                if self.element_flex.computed.flex_wrap = Style.FlexWrap.Nowrap then
                  Math.Clamp
                    (Math.Max 0 (max_element_value line.items (fun item => item.hypothetical_cross_size)))
                    self.Axes.cross_min_size self.Axes.cross_max_size
                else
                  Math.Max 0 (max_element_value line.items (fun item => item.hypothetical_cross_size))))
      ∧ (∀ line ∈ self.HypotheticalCrossLines host,
          (∀ item ∈ line.items, item.hypothetical_cross_size
              ≤ max_element_value line.items (fun item => item.hypothetical_cross_size))
            ∧ ∃ item ∈ line.items,
                max_element_value line.items (fun item => item.hypothetical_cross_size)
                  = item.hypothetical_cross_size)
      ∧ (self.LineCrossSizedLines host).map FlexLine.items
          = (self.HypotheticalCrossLines host).map FlexLine.items := by
  obtain ⟨hne, hone⟩ := LayoutFlex.HypotheticalCrossLines_shape host self hitems
  have hsingle : self.Axes.flex_single_line
      = decide (self.element_flex.computed.flex_wrap = Style.FlexWrap.Nowrap) := rfl
  refine ⟨?_, ?_, ?_, ?_⟩
  · intro hwrap havailable
    have hlength := hone hwrap
    simp only [LayoutFlex.LineCrossSizedLines, DetermineLineCrossSizes]
    rw [if_pos ⟨havailable, by rw [hsingle]; simp [hwrap], hlength⟩]
    generalize self.HypotheticalCrossLines host = lines at hlength
    rcases lines with _ | ⟨line, _ | ⟨next, rest⟩⟩
    · simp at hlength
    · rfl
    · simp at hlength
  · intro hother
    simp only [LayoutFlex.LineCrossSizedLines, DetermineLineCrossSizes]
    rw [if_neg, List.map_map]
    · apply List.map_congr_left
      intro line _
      simp only [Function.comp_apply, hsingle, decide_eq_true_eq]
    · intro hcondition
      apply hother
      refine ⟨?_, hcondition.1⟩
      have := hcondition.2.1
      rw [hsingle] at this
      simpa using this
  · intro line hline
    exact max_element_value_spec _ line.items (hne line hline)
  · simp only [LayoutFlex.LineCrossSizedLines, DetermineLineCrossSizes]
    split
    · apply modifyFront_map
      intro line
      rfl
    · rw [List.map_map]
      apply List.map_congr_left
      intro line _
      rfl

/-- Claim C22, scenarios: a `Nowrap` row of content size 500 × 100 around a
child of height 50 has one line of cross size 100; a `Nowrap` row of unknown
height with a minimum height of 60 around a child of height 50 has one line of
cross size 60; a wrapping row of content size 100 × 200 around children of
heights 50 and 80 has lines of cross sizes 50 and 80. -/
theorem LayoutFlex.line_cross_sizes_scenarios :
    (Scenario.growingRow.LineCrossSizedLines Scenario.host).map FlexLine.cross_size = [100]
      ∧ (Scenario.autoHeightRow.LineCrossSizedLines Scenario.host).map FlexLine.cross_size = [60]
      ∧ ((Scenario.twoLines Style.FlexWrap.Wrap Style.AlignContent.FlexStart).LineCrossSizedLines
          Scenario.host).map FlexLine.cross_size = [50, 80] :=
  ⟨(LayoutFlex.line_cross_sizes Scenario.host Scenario.growingRow (by decide!)).1 rfl (by decide!),
    by decide!, by decide!⟩

/-! ## `align-content: stretch` -/

/-- The member function `Format()` reads five properties of the computed style
of the container: `flex-direction`, `flex-wrap`, `justify-content`,
`align-items` and `align-content`.  Two `LayoutFlex` objects that agree on these,
on the children and on the other constructor arguments go through the same
lines and leave the same results and the same trace. -/
theorem LayoutFlex.Format_congr (host : Host) (self other : LayoutFlex)
    (hchildren : other.element_flex.children = self.element_flex.children)
    (hdirection : other.element_flex.computed.flex_direction = self.element_flex.computed.flex_direction)
    (hwrap : other.element_flex.computed.flex_wrap = self.element_flex.computed.flex_wrap)
    (hjustify : other.element_flex.computed.justify_content
      = self.element_flex.computed.justify_content)
    (hitems : other.element_flex.computed.align_items = self.element_flex.computed.align_items)
    (hcontent : other.element_flex.computed.align_content = self.element_flex.computed.align_content)
    (havailable : other.flex_available_content_size = self.flex_available_content_size)
    (hblock : other.flex_content_containing_block = self.flex_content_containing_block)
    (hoffset : other.flex_content_offset = self.flex_content_offset)
    (hmin : other.flex_min_size = self.flex_min_size)
    (hmax : other.flex_max_size = self.flex_max_size)
    (hoverflow : other.flex_content_overflow_size = self.flex_content_overflow_size)
    (hresulting : other.flex_resulting_content_size = self.flex_resulting_content_size) :
    other.FinalLines host = self.FinalLines host
      ∧ (other.Format host).1.flex_resulting_content_size
        = (self.Format host).1.flex_resulting_content_size
      ∧ (other.Format host).1.flex_content_overflow_size
        = (self.Format host).1.flex_content_overflow_size
      ∧ (other.Format host).2 = (self.Format host).2 := by
  have haxes : other.Axes = self.Axes := by
    simp only [LayoutFlex.Axes, GetFlexAxes, hdirection, hwrap, havailable, hmin, hmax]
  have hbuild : ∀ children : List Element,
      BuildFlexItems host other.element_flex.computed self.Axes self.flex_content_containing_block
          children
        = BuildFlexItems host self.element_flex.computed self.Axes self.flex_content_containing_block
          children := by
    intro children
    induction children with
    | nil => rfl
    | cons element rest ih =>
      simp only [BuildFlexItems, ih, BuildFlexItem, hitems]
  have hitemlist : other.Items host = self.Items host := by
    simp only [LayoutFlex.Items, haxes, hblock, hchildren, hbuild]
  have hcontainer : other.Container host = self.Container host := by
    simp only [LayoutFlex.Container, haxes, hitemlist]
  have hused : other.UsedMainSize host = self.UsedMainSize host := by
    simp only [LayoutFlex.UsedMainSize, haxes, hcontainer]
  have hresolved : other.ResolvedLines host = self.ResolvedLines host := by
    simp only [LayoutFlex.ResolvedLines, hcontainer, hused]
  have hmain : other.MainLines host = self.MainLines host := by
    simp only [LayoutFlex.MainLines, hresolved, hjustify, haxes, hused]
  have hcross : other.CrossLines host = self.CrossLines host := by
    simp only [LayoutFlex.CrossLines, haxes, hblock, hmain, hcontent]
  have husedcross : other.UsedCrossSize host = self.UsedCrossSize host := by
    simp only [LayoutFlex.UsedCrossSize, haxes, hcross]
  have hfinal : other.FinalLines host = self.FinalLines host := by
    simp only [LayoutFlex.FinalLines, hcontent, haxes, husedcross, hcross]
  refine ⟨hfinal, ?_, ?_, ?_⟩ <;>
    simp only [LayoutFlex.Format, hitemlist, haxes, hblock, hoffset, hoverflow, hfinal, hused,
      husedcross, hcross] <;> split <;> first | rfl | exact hresulting | exact hoverflow

/-- Claim C28.  The gaps do not influence the layout.  For every `LayoutFlex`
object and every two pairs of values for the `row-gap` and `column-gap` of its
container, all else being equal, `Format()` arrives at the same final lines
(hence the same used sizes and offsets of every item and the same size and
offset of every line), the same resulting content size, the same overflow size
and the same trace of host calls, among them the offsets set.  The static entry
point, which resolves the two gaps into `table_gap` and passes that vector to
nothing, leaves the same outcome (returned overflow size, box and trace) for
both. -/
theorem LayoutFlex.gaps_unused (host : Host) (self : LayoutFlex)
    (row_gap column_gap other_row_gap other_column_gap : Style.LengthPercentage) :
    LayoutFlex.FinalLines host
          { self with element_flex := { self.element_flex with
              computed := { self.element_flex.computed with
                row_gap := row_gap, column_gap := column_gap } } }
        = LayoutFlex.FinalLines host
          { self with element_flex := { self.element_flex with
              computed := { self.element_flex.computed with
                row_gap := other_row_gap, column_gap := other_column_gap } } }
      ∧ (LayoutFlex.Format host
          { self with element_flex := { self.element_flex with
              computed := { self.element_flex.computed with
                row_gap := row_gap, column_gap := column_gap } } }).1.flex_resulting_content_size
        = (LayoutFlex.Format host
          { self with element_flex := { self.element_flex with
              computed := { self.element_flex.computed with
                row_gap := other_row_gap,
                column_gap := other_column_gap } } }).1.flex_resulting_content_size
      ∧ (LayoutFlex.Format host
          { self with element_flex := { self.element_flex with
              computed := { self.element_flex.computed with
                row_gap := row_gap, column_gap := column_gap } } }).1.flex_content_overflow_size
        = (LayoutFlex.Format host
          { self with element_flex := { self.element_flex with
              computed := { self.element_flex.computed with
                row_gap := other_row_gap,
                column_gap := other_column_gap } } }).1.flex_content_overflow_size
      ∧ (LayoutFlex.Format host
          { self with element_flex := { self.element_flex with
              computed := { self.element_flex.computed with
                row_gap := row_gap, column_gap := column_gap } } }).2
        = (LayoutFlex.Format host
          { self with element_flex := { self.element_flex with
              computed := { self.element_flex.computed with
                row_gap := other_row_gap, column_gap := other_column_gap } } }).2
      ∧ ∀ (box : Box) (min_size max_size flex_containing_block : Vector2f),
          LayoutFlex.FormatBox host box min_size max_size flex_containing_block
              { self.element_flex with
                computed := { self.element_flex.computed with
                  row_gap := row_gap, column_gap := column_gap } }
            = LayoutFlex.FormatBox host box min_size max_size flex_containing_block
              { self.element_flex with
                computed := { self.element_flex.computed with
                  row_gap := other_row_gap, column_gap := other_column_gap } } := by
  have hmember : ∀ (layout : LayoutFlex) (first second : Style.LengthPercentage),
      LayoutFlex.FinalLines host
            { layout with element_flex := { layout.element_flex with
                computed := { layout.element_flex.computed with
                  row_gap := first, column_gap := second } } }
          = layout.FinalLines host
        ∧ (LayoutFlex.Format host
            { layout with element_flex := { layout.element_flex with
                computed := { layout.element_flex.computed with
                  row_gap := first, column_gap := second } } }).1.flex_resulting_content_size
          = (layout.Format host).1.flex_resulting_content_size
        ∧ (LayoutFlex.Format host
            { layout with element_flex := { layout.element_flex with
                computed := { layout.element_flex.computed with
                  row_gap := first, column_gap := second } } }).1.flex_content_overflow_size
          = (layout.Format host).1.flex_content_overflow_size
        ∧ (LayoutFlex.Format host
            { layout with element_flex := { layout.element_flex with
                computed := { layout.element_flex.computed with
                  row_gap := first, column_gap := second } } }).2
          = (layout.Format host).2 :=
    fun layout first second =>
      LayoutFlex.Format_congr host layout _ rfl rfl rfl rfl rfl rfl rfl rfl rfl rfl rfl rfl rfl
  have hstatic : ∀ (box : Box) (min_size max_size flex_containing_block : Vector2f)
      (first second : Style.LengthPercentage),
      LayoutFlex.FormatBox host box min_size max_size flex_containing_block
          { self.element_flex with
            computed := { self.element_flex.computed with row_gap := first, column_gap := second } }
        = LayoutFlex.FormatBox host box min_size max_size flex_containing_block self.element_flex := by
    intro box min_size max_size flex_containing_block first second
    have hformat := hmember
      (LayoutFlex.Construct host box min_size max_size flex_containing_block self.element_flex)
      first second
    have hreject : RejectsOverflow
        ({ self.element_flex.computed with row_gap := first, column_gap := second })
        = RejectsOverflow self.element_flex.computed := rfl
    simp only [LayoutFlex.FormatBox, hreject]
    split
    · rfl
    · have hresult := hformat.2.2.1
      have hsize := hformat.2.1
      have htrace := hformat.2.2.2
      simp only [LayoutFlex.Construct] at hresult hsize htrace ⊢
      rw [hresult, hsize, htrace]
  obtain ⟨h1, h2, h3, h4⟩ := hmember self row_gap column_gap
  obtain ⟨k1, k2, k3, k4⟩ := hmember self other_row_gap other_column_gap
  refine ⟨h1.trans k1.symm, h2.trans k2.symm, h3.trans k3.symm, h4.trans k4.symm, ?_⟩
  intro box min_size max_size flex_containing_block
  rw [hstatic box min_size max_size flex_containing_block row_gap column_gap,
    hstatic box min_size max_size flex_containing_block other_row_gap other_column_gap]

/-! ## Line packing: the fall-through of `space-between` -/

/-- An iteration on a growing line has a positive flex factor sum and a positive
free space to distribute, and grows every unfrozen item before clamping and
freezing. -/
theorem grow_iteration_eq (used_main_size initial_free_space : ℚ) (h0 : 0 < initial_free_space)
    (items : List FlexItem) (hnot : AllFrozen items = false)
    (hstatic : ∀ b ∈ items, b.EraseResolution.Built ∧ b.GrowConstraints)
    (hunfrozen : ∀ b ∈ items, b.frozen = false →
      b.flex_base_size ≤ b.hypothetical_main_size ∧ b.flex_grow_factor ≠ 0)
    (hbound : (items.map FrozenOrHypotheticalSize).sum < used_main_size) :
    0 < FlexFactorSum true items
      ∧ 0 < ScaledRemainingFreeSpace used_main_size true initial_free_space items
      ∧ ResolveIteration used_main_size true initial_free_space items
        = items.map (fun a => FreezeItem
            (TotalMinMaxViolation (items.map (GrowItem (FlexFactorSum true items)
              (ScaledRemainingFreeSpace used_main_size true initial_free_space items))))
            (ClampItem (GrowItem (FlexFactorSum true items)
              (ScaledRemainingFreeSpace used_main_size true initial_free_space items) a))) := by
  have hF : 0 < FlexFactorSum true items := by
    rw [FlexFactorSum_eq_sum]
    apply sum_pos_of_nonneg_of_exists
    · intro x hx
      simp only [List.mem_map] at hx
      obtain ⟨a, ha, rfl⟩ := hx
      have := (hstatic a ha).2.1
      split
      · exact le_refl 0
      · simpa [FlexFactor] using this
    · unfold AllFrozen at hnot
      rw [List.all_eq_false] at hnot
      obtain ⟨a, ha, hfa⟩ := hnot
      simp only [Bool.not_eq_true] at hfa
      refine ⟨_, List.mem_map.mpr ⟨a, ha, rfl⟩, ?_⟩
      have h1 := (hstatic a ha).2.1
      have h2 := (hunfrozen a ha hfa).2
      simp only [hfa, Bool.false_eq_true, if_false, FlexFactor, if_true]
      exact lt_of_le_of_ne h1 (Ne.symm h2)
  have hvle : (items.map (fun item =>
      if item.frozen then item.target_main_size else item.flex_base_size)).sum
      ≤ (items.map FrozenOrHypotheticalSize).sum := by
    apply List.sum_le_sum
    intro a ha
    unfold FrozenOrHypotheticalSize
    cases hfa : a.frozen
    · simpa using (hunfrozen a ha hfa).1
    · simp
  have hR : 0 < RemainingFreeSpace used_main_size items := by
    rw [RemainingFreeSpace_eq_sum]
    linarith
  have hscaled : 0 < ScaledRemainingFreeSpace used_main_size true initial_free_space items := by
    have hprod : 0 < initial_free_space * FlexFactorSum true items := mul_pos h0 hF
    unfold ScaledRemainingFreeSpace Math.AbsoluteValue
    simp only [not_lt.mpr (le_of_lt hprod), not_lt.mpr (le_of_lt hR), if_false]
    split_ifs <;> linarith
  refine ⟨hF, hscaled, ?_⟩
  simp only [ResolveIteration, DistributeFreeSpace, ne_eq, ne_of_gt hscaled, not_false_eq_true,
    if_true, List.map_map]
  rfl

/-- An iteration on a growing line freezes no item below its hypothetical main
size. -/
theorem grow_direction_step (used_main_size initial_free_space : ℚ) (h0 : 0 < initial_free_space)
    (items : List FlexItem) (hnot : AllFrozen items = false)
    (hstatic : ∀ b ∈ items, b.EraseResolution.Built ∧ b.GrowConstraints)
    (hunfrozen : ∀ b ∈ items, b.frozen = false →
      b.flex_base_size ≤ b.hypothetical_main_size ∧ b.flex_grow_factor ≠ 0)
    (hbound : (items.map FrozenOrHypotheticalSize).sum < used_main_size)
    (hdirection : ∀ b ∈ items, b.frozen = true → b.hypothetical_main_size ≤ b.target_main_size) :
    ∀ b ∈ ResolveIteration used_main_size true initial_free_space items,
      b.frozen = true → b.hypothetical_main_size ≤ b.target_main_size := by
  obtain ⟨hF, hR, hstep⟩ := grow_iteration_eq used_main_size initial_free_space h0 items hnot
    hstatic hunfrozen hbound
  rw [hstep]
  generalize FlexFactorSum true items = F at *
  generalize ScaledRemainingFreeSpace used_main_size true initial_free_space items = R at *
  generalize TotalMinMaxViolation (items.map (GrowItem F R)) = V
  have hshape : ∀ a, (GrowItem F R a).EraseTarget = a.EraseTarget := by
    intro a; unfold GrowItem; split <;> rfl
  have hfix : ∀ a, a.frozen = true → GrowItem F R a = a := by
    intro a ha; simp [GrowItem, ha]
  intro b hb _
  simp only [List.mem_map] at hb
  obtain ⟨a, ha, rfl⟩ := hb
  cases hfa : a.frozen
  · obtain ⟨hgf, -, hle, -⟩ := GrowItem_facts F R hF hR a hfa (hstatic a ha)
    obtain ⟨htarget, -⟩ := FreezeItem_ClampItem_unfrozen V (GrowItem F R a) hgf
    have hhyp := (EraseResolution_congr_static _ _ (iterate_EraseResolution (GrowItem F R) hshape V a)).2.2.1
    rw [htarget, hhyp]
    exact hle
  · rw [iterate_frozen (GrowItem F R) hfix V a hfa]
    exact hdirection a ha hfa

/-- On a growing line no item ends below its hypothetical main size.  For a line
as collected whose accumulated hypothetical main size is below the container's
used main size and whose items have non-negative grow factors and `0 ≤ min_size
≤ max_size`, every item has `hypothetical_main_size ≤ used_main_size` after the
resolution of the flexible lengths. -/
theorem ResolveFlexibleLengths_grow_direction (used_main_size : ℚ) (line : FlexLine)
    (hcollected : line.Collected)
    (hconstraints : ∀ item ∈ line.items, item.GrowConstraints)
    (hgrow : FlexModeGrow used_main_size line = true) :
    ∀ item ∈ (ResolveFlexibleLengths used_main_size line).items,
      item.hypothetical_main_size ≤ item.used_main_size := by
  have hlt : line.accumulated_hypothetical_main_size < used_main_size := by
    simp only [FlexModeGrow, decide_eq_true_eq] at hgrow
    linarith
  have hstatic : ∀ b ∈ InitializeItems used_main_size line,
      b.EraseResolution.Built ∧ b.GrowConstraints := by
    intro b hb
    simp only [InitializeItems, List.mem_map] at hb
    obtain ⟨a, ha, rfl⟩ := hb
    refine ((EraseResolution_congr_static _ _ (InitializeItem_EraseResolution _ a)).1).mpr
      ⟨?_, hconstraints a ha⟩
    obtain ⟨-, hbase, hhyp⟩ := hcollected.1 a ha
    exact ⟨rfl, hbase, hhyp⟩
  have hunfrozen : ∀ b ∈ InitializeItems used_main_size line, b.frozen = false →
      b.flex_base_size ≤ b.hypothetical_main_size ∧ b.flex_grow_factor ≠ 0 := by
    intro b hb hfb
    simp only [InitializeItems, List.mem_map, hgrow] at hb
    obtain ⟨a, -, rfl⟩ := hb
    obtain ⟨-, hbase, hhyp, hg⟩ := EraseResolution_congr_static _ _ (InitializeItem_EraseResolution true a)
    rw [hbase, hhyp, hg]
    rcases InitializeItem_cases true a with h | h
    · rw [h.1] at hfb
      exact absurd hfb (by simp)
    · have hc := h.2.2
      simp only [not_or, not_and, not_lt, FlexFactor, if_true] at hc
      exact ⟨hc.2.1 trivial, hc.1⟩
  have hbound : ((InitializeItems used_main_size line).map FrozenOrHypotheticalSize).sum
      < used_main_size := by
    rw [InitializeItems_grow_bound used_main_size line hcollected]
    exact hlt
  have hdirection : ∀ b ∈ InitializeItems used_main_size line, b.frozen = true →
      b.hypothetical_main_size ≤ b.target_main_size := by
    intro b hb hfb
    simp only [InitializeItems, List.mem_map] at hb
    obtain ⟨a, ha, rfl⟩ := hb
    have hhyp := (EraseResolution_congr_static _ _
      (InitializeItem_EraseResolution (FlexModeGrow used_main_size line) a)).2.2.1
    rw [InitializeItem_frozen _ a (hcollected.1 a ha).1 hfb, hhyp]
  have hinitial : 0 < RemainingFreeSpace used_main_size (InitializeItems used_main_size line) := by
    rw [RemainingFreeSpace_eq_sum]
    have hvle : ((InitializeItems used_main_size line).map (fun item =>
        if item.frozen then item.target_main_size else item.flex_base_size)).sum
        ≤ ((InitializeItems used_main_size line).map FrozenOrHypotheticalSize).sum := by
      apply List.sum_le_sum
      intro a ha
      unfold FrozenOrHypotheticalSize
      cases hfa : a.frozen
      · simpa using (hunfrozen a ha hfa).1
      · simp
    linarith
  obtain ⟨items, iterations, -, hres, -, -, hall, -, -, -, -, hfinal⟩ :=
    ResolveFlexibleLengths_spec used_main_size line
      (fun items => (∀ b ∈ items, b.EraseResolution.Built ∧ b.GrowConstraints)
        ∧ (∀ b ∈ items, b.frozen = false →
          b.flex_base_size ≤ b.hypothetical_main_size ∧ b.flex_grow_factor ≠ 0)
        ∧ (items.map FrozenOrHypotheticalSize).sum ≤ used_main_size
        ∧ (AllFrozen items = false → (items.map FrozenOrHypotheticalSize).sum < used_main_size)
        ∧ (∀ b ∈ items, b.frozen = true → b.hypothetical_main_size ≤ b.target_main_size))
      ⟨hstatic, hunfrozen, le_of_lt hbound, fun _ => hbound, hdirection⟩
      (by
        intro items hnot hP
        rw [hgrow]
        obtain ⟨h1, h2, h3, h4⟩ := grow_invariant_step used_main_size _ hinitial items hnot hP.1
          hP.2.1 (hP.2.2.2.1 hnot)
        exact ⟨h1, h2, h3, h4, grow_direction_step used_main_size _ hinitial items hnot hP.1
          hP.2.1 (hP.2.2.2.1 hnot) hP.2.2.2.2⟩)
  rw [hres]
  intro item hitem
  simp only [SetUsedMainSizes, List.mem_map] at hitem
  obtain ⟨a, ha, rfl⟩ := hitem
  unfold AllFrozen at hall
  rw [List.all_eq_true] at hall
  exact hfinal a ha (hall a ha)

theorem EraseResolution_fields (a b : FlexItem) (h : a.EraseResolution = b.EraseResolution) :
    a.main = b.main ∧ a.flex_shrink_factor = b.flex_shrink_factor
      ∧ a.inner_flex_base_size = b.inner_flex_base_size ∧ a.flex_base_size = b.flex_base_size
      ∧ a.hypothetical_main_size = b.hypothetical_main_size
      ∧ (a.EraseResolution.Built ↔ b.EraseResolution.Built) := by
  have hmain := congrArg FlexItem.main h
  have hshrink := congrArg FlexItem.flex_shrink_factor h
  have hinner := congrArg FlexItem.inner_flex_base_size h
  have hbase := congrArg FlexItem.flex_base_size h
  have hhyp := congrArg FlexItem.hypothetical_main_size h
  exact ⟨hmain, hshrink, hinner, hbase, hhyp, by rw [h]⟩

/-- A clamped target is at most the hypothetical main size when the target is at
most the flex base size and that is at least the hypothetical main size. -/
theorem Clamped_le_hypothetical (c : FlexItem) (hbuilt : c.EraseResolution.Built)
    (hmin : 0 ≤ c.main.min_size) (hminmax : c.main.min_size ≤ c.main.max_size)
    (hbase : c.hypothetical_main_size ≤ c.flex_base_size)
    (htarget : c.target_main_size ≤ c.flex_base_size) :
    ClampedTargetMainSize c ≤ c.hypothetical_main_size ∧ 0 ≤ c.inner_flex_base_size := by
  obtain ⟨-, hb, hh⟩ := hbuilt
  change c.flex_base_size = c.inner_flex_base_size + c.main.sum_edges at hb
  change c.hypothetical_main_size
    = Math.Clamp c.inner_flex_base_size c.main.min_size c.main.max_size + c.main.sum_edges at hh
  have hclamp : Math.Clamp c.inner_flex_base_size c.main.min_size c.main.max_size
      ≤ c.inner_flex_base_size := by linarith
  have hinner : 0 ≤ c.inner_flex_base_size := by
    have := (Clamp_mem c.inner_flex_base_size c.main.min_size c.main.max_size hminmax).1
    linarith
  have hmax : Math.Max 0 (c.target_main_size - c.main.sum_edges) ≤ c.inner_flex_base_size := by
    unfold Math.Max
    split_ifs <;> linarith
  have hmono := Clamp_mono _ _ c.main.min_size c.main.max_size hmax hminmax
  refine ⟨?_, hinner⟩
  unfold ClampedTargetMainSize
  simp only
  rw [hh]
  linarith

theorem AbsoluteValue_nonneg (value : ℚ) : 0 ≤ Math.AbsoluteValue value := by
  unfold Math.AbsoluteValue
  split_ifs <;> linarith

/-- An iteration on a shrinking line acts item by item: an unfrozen item keeps
its target or has it set to its flex base size less its share of the free
space, and is then clamped and possibly frozen. -/
theorem shrink_iteration_eq (used_main_size initial_free_space : ℚ) (items : List FlexItem) :
    ∃ D : FlexItem → FlexItem,
      ResolveIteration used_main_size false initial_free_space items
          = items.map (fun a => FreezeItem (TotalMinMaxViolation (items.map D)) (ClampItem (D a)))
        ∧ (∀ a, a.frozen = true → D a = a)
        ∧ (∀ a, (D a).EraseTarget = a.EraseTarget)
        ∧ (∀ a, a.frozen = false →
            (D a).target_main_size = a.target_main_size
              ∨ (D a).target_main_size
                = a.flex_base_size
                  - a.flex_shrink_factor * a.inner_flex_base_size / ScaledFlexShrinkFactorSum items
                    * Math.AbsoluteValue
                        (ScaledRemainingFreeSpace used_main_size false initial_free_space items)) := by
  by_cases hzero : ScaledRemainingFreeSpace used_main_size false initial_free_space items = 0
  · refine ⟨id, ?_, fun _ _ => rfl, fun _ => rfl, fun _ _ => Or.inl rfl⟩
    simp only [ResolveIteration, DistributeFreeSpace, hzero, ne_eq, not_true_eq_false, if_false,
      List.map_map, List.map_id, id]
    rfl
  · refine ⟨ShrinkItem (ScaledFlexShrinkFactorSum items)
      (ScaledRemainingFreeSpace used_main_size false initial_free_space items), ?_, ?_, ?_, ?_⟩
    · simp only [ResolveIteration, DistributeFreeSpace, ne_eq, hzero, not_false_eq_true, if_true,
        Bool.false_eq_true, if_false, List.map_map]
      rfl
    · intro a ha
      simp [ShrinkItem, ha]
    · intro a
      unfold ShrinkItem
      split <;> rfl
    · intro a ha
      right
      simp [ShrinkItem, ha]

/-- The state kept by the loop on a shrinking line, and its consequence for the
items that `ScaledFlexShrinkFactorSum` can count on (those whose inner flex base
size is not zero if they can shrink): frozen, they sit at or below their
hypothetical main size. -/
theorem shrink_direction_step (used_main_size initial_free_space : ℚ) (items : List FlexItem)
    (hstatic : ∀ b ∈ items, b.EraseResolution.Built ∧ 0 ≤ b.flex_shrink_factor
      ∧ 0 ≤ b.main.min_size ∧ b.main.min_size ≤ b.main.max_size)
    (hunfrozen : ∀ b ∈ items, b.frozen = false →
      b.hypothetical_main_size ≤ b.flex_base_size ∧ b.flex_shrink_factor ≠ 0
        ∧ (b.inner_flex_base_size ≠ 0 → b.target_main_size ≤ b.flex_base_size))
    (hfrozen : ∀ b ∈ items, b.frozen = true →
      (b.flex_shrink_factor ≠ 0 → b.inner_flex_base_size ≠ 0) →
      b.target_main_size ≤ b.hypothetical_main_size) :
    (∀ b ∈ ResolveIteration used_main_size false initial_free_space items,
        b.EraseResolution.Built ∧ 0 ≤ b.flex_shrink_factor
          ∧ 0 ≤ b.main.min_size ∧ b.main.min_size ≤ b.main.max_size)
      ∧ (∀ b ∈ ResolveIteration used_main_size false initial_free_space items, b.frozen = false →
          b.hypothetical_main_size ≤ b.flex_base_size ∧ b.flex_shrink_factor ≠ 0
            ∧ (b.inner_flex_base_size ≠ 0 → b.target_main_size ≤ b.flex_base_size))
      ∧ (∀ b ∈ ResolveIteration used_main_size false initial_free_space items, b.frozen = true →
          (b.flex_shrink_factor ≠ 0 → b.inner_flex_base_size ≠ 0) →
          b.target_main_size ≤ b.hypothetical_main_size) := by
  obtain ⟨D, hstep, hfix, hshape, hD⟩ := shrink_iteration_eq used_main_size initial_free_space items
  rw [hstep]
  generalize TotalMinMaxViolation (items.map D) = V
  -- every counted term of the divisor is non-negative
  have hterms : ∀ x ∈ items.map (fun item : FlexItem =>
      if item.frozen then 0 else item.flex_shrink_factor * item.inner_flex_base_size), 0 ≤ x := by
    intro x hx
    simp only [List.mem_map] at hx
    obtain ⟨c, hc, rfl⟩ := hx
    cases hfc : c.frozen
    · simp only [Bool.false_eq_true, if_false]
      obtain ⟨hbuilt, hshrink, hmin, hminmax⟩ := hstatic c hc
      have hinner := (Clamped_le_hypothetical { c with target_main_size := c.flex_base_size }
        hbuilt hmin hminmax (hunfrozen c hc hfc).1 (le_refl _)).2
      exact mul_nonneg hshrink hinner
    · simp
  -- an unfrozen item with a non-zero inner flex base size leaves the iteration at or below its
  -- hypothetical main size
  have hkey : ∀ a ∈ items, a.frozen = false → a.inner_flex_base_size ≠ 0 →
      (FreezeItem V (ClampItem (D a))).target_main_size ≤ a.hypothetical_main_size := by
    intro a ha hfa hgood
    obtain ⟨hbuilt, hshrink, hmin, hminmax⟩ := hstatic a ha
    obtain ⟨hbase, hne, htarget⟩ := hunfrozen a ha hfa
    have hinner := (Clamped_le_hypothetical { a with target_main_size := a.flex_base_size }
      hbuilt hmin hminmax hbase (le_refl _)).2
    have hDf : (D a).frozen = false := by rw [shape_frozen D hshape a]; exact hfa
    obtain ⟨hclamped, -⟩ := FreezeItem_ClampItem_unfrozen V (D a) hDf
    have hfields := EraseResolution_fields _ _ (EraseResolution_of_EraseTarget _ _ (hshape a))
    have hDtarget : (D a).target_main_size ≤ (D a).flex_base_size := by
      rw [hfields.2.2.2.1]
      rcases hD a hfa with h | h
      · rw [h]
        exact htarget hgood
      · rw [h]
        have hpos : 0 < a.flex_shrink_factor * a.inner_flex_base_size :=
          mul_pos (lt_of_le_of_ne hshrink (Ne.symm hne)) (lt_of_le_of_ne hinner (Ne.symm hgood))
        have hsum : 0 < ScaledFlexShrinkFactorSum items := by
          rw [ScaledFlexShrinkFactorSum_eq_sum]
          apply sum_pos_of_nonneg_of_exists _ hterms
          refine ⟨_, List.mem_map.mpr ⟨a, ha, rfl⟩, ?_⟩
          simp only [hfa, Bool.false_eq_true, if_false]
          exact hpos
        have hratio : 0 < a.flex_shrink_factor * a.inner_flex_base_size
            / ScaledFlexShrinkFactorSum items := div_pos hpos hsum
        have := mul_nonneg (le_of_lt hratio) (AbsoluteValue_nonneg
          (ScaledRemainingFreeSpace used_main_size false initial_free_space items))
        linarith
    have := (Clamped_le_hypothetical (D a) (hfields.2.2.2.2.2.mpr hbuilt)
      (by rw [hfields.1]; exact hmin) (by rw [hfields.1]; exact hminmax)
      (by rw [hfields.2.2.2.1, hfields.2.2.2.2.1]; exact hbase) hDtarget).1
    rw [hclamped]
    rw [hfields.2.2.2.2.1] at this
    exact this
  have hafter : ∀ a, (FreezeItem V (ClampItem (D a))).EraseResolution = a.EraseResolution :=
    fun a => iterate_EraseResolution D hshape V a
  refine ⟨?_, ?_, ?_⟩
  · intro b hb
    simp only [List.mem_map] at hb
    obtain ⟨a, ha, rfl⟩ := hb
    obtain ⟨hmain, hshrink, -, -, -, hbuilt⟩ := EraseResolution_fields _ _ (hafter a)
    rw [hmain, hshrink]
    exact ⟨hbuilt.mpr (hstatic a ha).1, (hstatic a ha).2⟩
  · intro b hb hfb
    simp only [List.mem_map] at hb
    obtain ⟨a, ha, rfl⟩ := hb
    cases hfa : a.frozen
    · obtain ⟨-, hshrink, hinner, hbase, hhyp, -⟩ := EraseResolution_fields _ _ (hafter a)
      obtain ⟨h1, h2, -⟩ := hunfrozen a ha hfa
      rw [hshrink, hinner, hbase, hhyp]
      refine ⟨h1, h2, ?_⟩
      intro hgood
      exact le_trans (hkey a ha hfa hgood) h1
    · rw [iterate_frozen D hfix V a hfa, hfa] at hfb
      exact absurd hfb (by simp)
  · intro b hb hfb hgood
    simp only [List.mem_map] at hb
    obtain ⟨a, ha, rfl⟩ := hb
    cases hfa : a.frozen
    · obtain ⟨-, hshrink, hinner, -, hhyp, -⟩ := EraseResolution_fields _ _ (hafter a)
      rw [hshrink, hinner] at hgood
      rw [hhyp]
      exact hkey a ha hfa (hgood (hunfrozen a ha hfa).2.1)
    · rw [iterate_frozen D hfix V a hfa] at hgood ⊢
      exact hfrozen a ha hfa hgood

/-- On a shrinking line no item that `ScaledFlexShrinkFactorSum` can count on
ends above its hypothetical main size.  For a line as collected whose
accumulated hypothetical main size is at least the container's used main size
and whose items have non-negative shrink factors and `0 ≤ min_size ≤ max_size`,
every item whose inner flex base size is not zero, or which cannot shrink, has
`used_main_size ≤ hypothetical_main_size` after the resolution of the flexible
lengths.  While such an item is unfrozen the divisor of the shrinking branch is
positive. -/
theorem ResolveFlexibleLengths_shrink_direction (used_main_size : ℚ) (line : FlexLine)
    (hcollected : line.Collected)
    (hconstraints : ∀ item ∈ line.items, 0 ≤ item.flex_shrink_factor
      ∧ 0 ≤ item.main.min_size ∧ item.main.min_size ≤ item.main.max_size)
    (hshrink : FlexModeGrow used_main_size line = false) :
    ∀ item ∈ (ResolveFlexibleLengths used_main_size line).items,
      (item.flex_shrink_factor ≠ 0 → item.inner_flex_base_size ≠ 0) →
      item.used_main_size ≤ item.hypothetical_main_size := by
  have hinit : ∀ a ∈ line.items,
      (InitializeItem false a).EraseResolution = a.EraseResolution :=
    fun a _ => InitializeItem_EraseResolution false a
  obtain ⟨items, iterations, -, hres, -, -, hall, -, -, hfinal⟩ :=
    ResolveFlexibleLengths_spec used_main_size line
      (fun items =>
        (∀ b ∈ items, b.EraseResolution.Built ∧ 0 ≤ b.flex_shrink_factor
          ∧ 0 ≤ b.main.min_size ∧ b.main.min_size ≤ b.main.max_size)
        ∧ (∀ b ∈ items, b.frozen = false →
            b.hypothetical_main_size ≤ b.flex_base_size ∧ b.flex_shrink_factor ≠ 0
              ∧ (b.inner_flex_base_size ≠ 0 → b.target_main_size ≤ b.flex_base_size))
        ∧ (∀ b ∈ items, b.frozen = true →
            (b.flex_shrink_factor ≠ 0 → b.inner_flex_base_size ≠ 0) →
            b.target_main_size ≤ b.hypothetical_main_size))
      (by
        simp only [InitializeItems, hshrink]
        refine ⟨?_, ?_, ?_⟩
        · intro b hb
          simp only [List.mem_map] at hb
          obtain ⟨a, ha, rfl⟩ := hb
          obtain ⟨hmain, hfactor, -, -, -, hbuilt⟩ := EraseResolution_fields _ _ (hinit a ha)
          rw [hmain, hfactor]
          obtain ⟨-, hbase, hhyp⟩ := hcollected.1 a ha
          exact ⟨hbuilt.mpr ⟨rfl, hbase, hhyp⟩, hconstraints a ha⟩
        · intro b hb hfb
          simp only [List.mem_map] at hb
          obtain ⟨a, ha, rfl⟩ := hb
          obtain ⟨-, hfactor, -, hbase, hhyp, -⟩ := EraseResolution_fields _ _ (hinit a ha)
          rw [hfactor, hbase, hhyp]
          rcases InitializeItem_cases false a with h | h
          · rw [h.1] at hfb
            exact absurd hfb (by simp)
          · have hc := h.2.2
            simp only [not_or, not_and, not_lt, FlexFactor, Bool.false_eq_true, if_false] at hc
            refine ⟨hc.2.2 trivial, hc.1, ?_⟩
            intro _
            rw [h.2.1]
        · intro b hb hfb _
          simp only [List.mem_map] at hb
          obtain ⟨a, ha, rfl⟩ := hb
          have hhyp := (EraseResolution_fields _ _ (hinit a ha)).2.2.2.2.1
          rw [InitializeItem_frozen false a (hcollected.1 a ha).1 hfb, hhyp])
      (by
        intro items _ hP
        rw [hshrink]
        exact shrink_direction_step used_main_size _ items hP.1 hP.2.1 hP.2.2)
  rw [hres]
  intro item hitem hgood
  simp only [SetUsedMainSizes, List.mem_map] at hitem
  obtain ⟨a, ha, rfl⟩ := hitem
  unfold AllFrozen at hall
  rw [List.all_eq_true] at hall
  exact hfinal a ha (hall a ha) hgood

/-- Claim C30 on the code.  For every container whose items have non-negative
flex factors and `0 ≤ main.min_size ≤ main.max_size`, and every line it
collects: when the line is resolved in grow mode, every item ends with
`used_main_size ≥ hypothetical_main_size`; when it is resolved in shrink mode,
every item that cannot shrink or whose inner flex base size is not zero ends
with `used_main_size ≤ hypothetical_main_size`.  This holds across all
iterations of the loop, whatever the frozen items make of the remaining free
space.  The items left out, those that can shrink from an inner flex base size
of zero, are the ones whose share may be the quotient 0 / 0. -/
theorem LayoutFlex.resolution_direction (host : Host) (self : LayoutFlex)
    (hconstraints : ∀ item ∈ (self.Items host).1,
      0 ≤ item.flex_grow_factor ∧ 0 ≤ item.flex_shrink_factor
        ∧ 0 ≤ item.main.min_size ∧ item.main.min_size ≤ item.main.max_size) :
    ∀ line ∈ (self.Container host).lines,
      (FlexModeGrow (self.UsedMainSize host) line = true →
          ∀ item ∈ (ResolveFlexibleLengths (self.UsedMainSize host) line).items,
            item.hypothetical_main_size ≤ item.used_main_size)
        ∧ (FlexModeGrow (self.UsedMainSize host) line = false →
          ∀ item ∈ (ResolveFlexibleLengths (self.UsedMainSize host) line).items,
            (item.flex_shrink_factor ≠ 0 → item.inner_flex_base_size ≠ 0) →
            item.used_main_size ≤ item.hypothetical_main_size) := by
  intro line hline
  have hcollected := LayoutFlex.Container_Collected host self line hline
  have hitems : ∀ item ∈ line.items, item ∈ (self.Items host).1 :=
    fun item hitem => CollectLines_mem _ _ _ line hline item hitem
  constructor
  · intro hgrow
    exact ResolveFlexibleLengths_grow_direction (self.UsedMainSize host) line hcollected
      (fun item hitem =>
        ⟨(hconstraints item (hitems item hitem)).1, (hconstraints item (hitems item hitem)).2.2⟩)
      hgrow
  · intro hshrink
    exact ResolveFlexibleLengths_shrink_direction (self.UsedMainSize host) line hcollected
      (fun item hitem => (hconstraints item (hitems item hitem)).2) hshrink

/-- Claim C30, failing input: a row of content size 100 × 100 holds a child of
width 200 with `min-width: 150` and a child with `flex: 0 1 0` and a padding of
10 on its left and right; the flex factors are not negative and `0 ≤ min_size ≤
max_size`.  The line is resolved in shrink mode.  The first child, whose inner
flex base size is 200, ends at 150, below its hypothetical main size 200, as the
theorem says.  The first iteration freezes the first child and leaves the second
unfrozen; the second iteration then distributes a free space of −70 with the
divisor `scaled_flex_shrink_factor_sum = 0`, so the share of the second child is
the quotient 0 / 0.  A growing row, for comparison: children with the
hypothetical main sizes 0 and 95 end at 5 and 95. -/
theorem LayoutFlex.resolution_direction_floored_and_zero_basis :
    (∀ line ∈ (Scenario.flooredAndZeroBasisRow.Container Scenario.host).lines,
        ∀ item ∈ (ResolveFlexibleLengths (Scenario.flooredAndZeroBasisRow.UsedMainSize Scenario.host)
            line).items,
          (item.flex_shrink_factor ≠ 0 → item.inner_flex_base_size ≠ 0) →
          item.used_main_size ≤ item.hypothetical_main_size)
      ∧ (Scenario.flooredAndZeroBasisRow.ResolvedLines Scenario.host).map (fun line =>
          line.items.map (fun item => (item.inner_flex_base_size, item.hypothetical_main_size)))
        = [[(200, 200), (0, 20)]]
      ∧ (Scenario.flooredAndZeroBasisRow.ResolvedLines Scenario.host).map (fun line =>
          line.items.head?.map FlexItem.used_main_size) = [some 150]
      ∧ (Scenario.flooredAndZeroBasisRow.Container Scenario.host).lines.map (fun line =>
          (FlexModeGrow 100 line,
            RemainingFreeSpace 100 (InitializeItems 100 line),
            ScaledFlexShrinkFactorSum (InitializeItems 100 line)))
        = [(false, -120, 200)]
      ∧ (Scenario.flooredAndZeroBasisRow.Container Scenario.host).lines.map (fun line =>
          (ResolveIteration 100 false (-120) (InitializeItems 100 line)).map FlexItem.frozen)
        = [[true, false]]
      ∧ (Scenario.flooredAndZeroBasisRow.Container Scenario.host).lines.map (fun line =>
          (ScaledRemainingFreeSpace 100 false (-120)
              (ResolveIteration 100 false (-120) (InitializeItems 100 line)),
            ScaledFlexShrinkFactorSum
              (ResolveIteration 100 false (-120) (InitializeItems 100 line))))
        = [(-70, 0)]
      ∧ (Scenario.cappedFlooredRow.ResolvedLines Scenario.host).map (fun line =>
          line.items.map (fun item => (item.hypothetical_main_size, item.used_main_size)))
        = [[(0, 5), (95, 95)]] :=
  have hmode : ∀ line ∈ (Scenario.flooredAndZeroBasisRow.Container Scenario.host).lines,
      FlexModeGrow (Scenario.flooredAndZeroBasisRow.UsedMainSize Scenario.host) line = false := by
    decide!
  ⟨fun line hline =>
    ((LayoutFlex.resolution_direction Scenario.host Scenario.flooredAndZeroBasisRow (by decide!))
      line hline).2 (hmode line hline),
    by decide!, by decide!, by decide!, by decide!, by decide!, by decide!⟩

/-! ## Flexible lengths in binary32 arithmetic: termination and shape -/

end Rml
